import Mathlib

/-!
# SDL-Mandelbrot: the incremental render engine

A shallow embedding of the engine of `Tutorial7/mandelbrot.{h,cpp}` (and of the
viewport code of `Tutorial2/mandelbrot.cpp`), followed by theorems about it.

Conventions of the embedding.

* `real_t` (`double`) is an arbitrary linearly ordered field `K` with a floor
  function; results are therefore statements of exact arithmetic.  Evaluate
  the definitions at `K := ℚ`.
* In `blitScaled` and in the rectangles of `setScale` and `setScaleTo` a
  floating value decides an integer (`roundf`, `(int)x`); there every
  operation is rounded to its format, `float` (`toFloat`) or `double`
  (`toDouble`), to nearest and ties to even.  The exponent range of the
  formats is not modelled: no overflow, no gradual underflow.
* `int`, `int32_t` and `uint32_t` values are unbounded integers; the embedding
  is faithful wherever no 32-bit operation of the source wraps.
* The pixel cache is the flat array `pixels` of the source, addressed by the
  offset `py * width + px` from its first element.  An access outside the
  allocation is undefined in C++; `load` then yields the zero record and
  `store` does nothing.
* SDL, the palette header `color.h` and `log` are not part of the sources; the
  engine takes them as the fields of an `Extern` record.
* The background task of `startAsync` advances one row of `drawSurface` at a
  time (`threadStep`); `future.get()` runs it to its end.
* The data-parallel `drawSurface` of `Tutorial6/mandelbrot_tbb.cpp` runs the
  blocks of its `parallel_for` one after the other, in an arbitrary order.
* For the question which elements a loop touches, the cache operations have a
  second form (`...Checked`) that returns `none` at the first access outside
  the array, at a range whose end lies before its start and at a negative
  argument of `at`.  The first form is meant for shifts with
  `|rel_px| ≤ width`, where the two agree.
* The overrides of `MandelbrotCUDA` are declared in `mandelbrot_cuda.h` and
  defined in no file of the sources; they are modelled from the
  specification.
-/

namespace SDLMandelbrot

/-! ## Escape-time iteration (`Tutorial7/mandelbrot.h`, lines 8-23) -/

section Escape

variable {K : Type} [LinearOrderedField K]

/-- The `do { ... } while (zx * zx + zy * zy < 65536. && ++i < max_iter)` loop,
entered at the top of its body with the current `zx`, `zy`, `i`.  The result
is `(i, zx, zy)` at loop exit.  `++i` is evaluated only when the first
conjunct holds. -/
def mandelbrotLoop (cx_ cy_ : K) (max_iter : Nat) (zx zy : K) (i : Nat) : Nat × K × K :=
  let temp := zx * zx - zy * zy + cx_
  let zy1 := 2 * zx * zy + cy_
  let zx1 := temp
  if zx1 * zx1 + zy1 * zy1 < 65536 then
    if i + 1 < max_iter then mandelbrotLoop cx_ cy_ max_iter zx1 zy1 (i + 1)
    else (i + 1, zx1, zy1)
  else (i, zx1, zy1)
termination_by max_iter - i
decreasing_by omega

/-- The function `mandelbrot(cx, cy, max_iter)`: the returned count together with the values
written back through the references `cx` and `cy`. -/
def mandelbrot (cx cy : K) (max_iter : Nat) : Nat × K × K :=
  mandelbrotLoop cx cy max_iter 0 0 0

/-- The orbit of the specification: `z 0 = 0`, `z (k + 1) = (z k) ^ 2 + c`, as a pair
(real part, imaginary part). -/
def orbit (cx cy : K) : Nat → K × K
  | 0 => (0, 0)
  | k + 1 =>
    ((orbit cx cy k).1 * (orbit cx cy k).1 - (orbit cx cy k).2 * (orbit cx cy k).2 + cx,
     2 * (orbit cx cy k).1 * (orbit cx cy k).2 + cy)

/-- The squared modulus of a point given by its two coordinates. -/
def normSq (z : K × K) : K := z.1 * z.1 + z.2 * z.2

end Escape

/-! ## The pixel cache (`Mandelbrot::PixelInfo`, `Mandelbrot::RenderInfo`) -/

/-- The record of one pixel.  Only the member `rendered` of the union is used by the serial
engine. -/
structure PixelInfo where
  rendered : Bool
deriving DecidableEq, Repr

/-- The value of `PixelInfo{}` (the default argument `info = {}`): unrendered. -/
def PixelInfo.zero : PixelInfo := ⟨false⟩

/-- Reads the element at offset `a` of the array. -/
def load (m : List PixelInfo) (a : Int) : PixelInfo :=
  if 0 ≤ a then m.getD a.toNat PixelInfo.zero else PixelInfo.zero

/-- Writes the element at offset `a` of the array. -/
def store (m : List PixelInfo) (a : Int) (v : PixelInfo) : List PixelInfo :=
  if 0 ≤ a then m.set a.toNat v else m

/-- The loop of `std::fill_n(first, n, v)`: `for (; n > 0; --n, ++first) *first = v;`. -/
def fill_n (m : List PixelInfo) (first : Int) (v : PixelInfo) : Nat → List PixelInfo
  | 0 => m
  | n + 1 => fill_n (store m first v) (first + 1) v n

/-- The loop of `std::move`: `for (; n > 0; --n) { *result = *first; ++first; ++result; }`. -/
def copyForward (m : List PixelInfo) (first result : Int) : Nat → List PixelInfo
  | 0 => m
  | n + 1 => copyForward (store m result (load m first)) (first + 1) (result + 1) n

/-- The loop of `std::move_backward`: `for (; n > 0; --n) *--result = *--last;`. -/
def copyBackward (m : List PixelInfo) (last result : Int) : Nat → List PixelInfo
  | 0 => m
  | n + 1 => copyBackward (store m (result - 1) (load m (last - 1))) (last - 1) (result - 1) n

/-- `std::move(first, last, d_first)` on offsets into the array; the elements are copied
one by one from the front.  A call with `last < first` is undefined in C++ (`RenderInfo::move`
makes one for `rel_px < -width`); this total form then copies nothing, and `std_moveChecked`
refuses the call. -/
def std_move (m : List PixelInfo) (first last d_first : Int) : List PixelInfo :=
  copyForward m first d_first (last - first).toNat

/-- `std::move_backward(first, last, d_last)` on offsets into the array; the elements are
copied one by one from the back.  A call with `last < first` is undefined in C++; this total
form then copies nothing, and `std_move_backwardChecked` refuses the call. -/
def std_move_backward (m : List PixelInfo) (first last d_last : Int) : List PixelInfo :=
  copyBackward m last d_last (last - first).toNat

/-- The values of `h` in `for (int h = a; h >= 0; --h)`, in order. -/
def countDown (a : Int) : List Int :=
  (List.range (a + 1).toNat).map (fun (i : Nat) => a - (i : Int))

/-- The values of `h` in `for (int h = a; h < b; ++h)`, in order. -/
def countUp (a b : Int) : List Int :=
  (List.range (b - a).toNat).map (fun (i : Nat) => a + (i : Int))

/-- The SDL macro `SDL_clamp(x, a, b)`:
`(((x) < (a)) ? (a) : (((x) > (b)) ? (b) : (x)))`. -/
def SDL_clamp (x a b : Int) : Int :=
  if x < a then a else if x > b then b else x

/-- The type `SDL_Rect`. -/
structure SDL_Rect where
  x : Int
  y : Int
  w : Int
  h : Int
deriving DecidableEq, Repr

/-- The struct `Mandelbrot::RenderInfo`; `pixels = none` is the null pointer. -/
structure RenderInfo where
  pixels : Option (List PixelInfo)
  width : Nat
  height : Nat
deriving DecidableEq, Repr

namespace RenderInfo

/-- The offset of the element `at(px, py)` from `pixels` (`at` is reserved in Lean):
`py * width + px`.  The parameters of `at` are `uint32_t`: a negative argument, such as the
`width - rel_px` of `RenderInfo::move` for `rel_px > width`, reaches the source as a value
near `2 ^ 32`, and the range of the copy runs far beyond the array; with this offset the
range ends before it starts.  The checked form of the shift (`atChecked`) refuses a negative
argument. -/
def atOffset (r : RenderInfo) (px py : Int) : Int := py * r.width + px

/-- The record `at(px, py)` (the zero record when there is no array). -/
def get (r : RenderInfo) (px py : Int) : PixelInfo :=
  match r.pixels with
  | some p => load p (r.atOffset px py)
  | none => PixelInfo.zero

/-- The assignment `at(px, py) = v`. -/
def set (r : RenderInfo) (px py : Int) (v : PixelInfo) : RenderInfo :=
  match r.pixels with
  | some p => { r with pixels := some (store p (r.atOffset px py) v) }
  | none => r

/-- The method `RenderInfo::destroy`. -/
def destroy (r : RenderInfo) : RenderInfo := { r with pixels := none }

/-- The method `RenderInfo::resize`: the old array is destroyed and `width * height`
default-initialised records are allocated. -/
def resize (_r : RenderInfo) (width height : Nat) : RenderInfo :=
  { pixels := some (List.replicate (width * height) PixelInfo.zero),
    width := width, height := height }

/-- The method `RenderInfo::reset`. -/
def reset (r : RenderInfo) (info : PixelInfo) : RenderInfo :=
  match r.pixels with
  | some p => { r with pixels := some (fill_n p 0 info (r.width * r.height)) }
  | none => r

/-- The method `RenderInfo::move`. -/
def move (r : RenderInfo) (rel_px rel_py : Int) : RenderInfo :=
  match r.pixels with
  | none => r
  | some p =>
    if rel_px ≥ 0 ∧ rel_py ≥ 0 then
      { r with pixels := some ((countDown (r.height - rel_py - 1)).foldl
          (fun m h => std_move_backward m
            (r.atOffset 0 h) (r.atOffset (r.width - rel_px) h) (r.atOffset r.width (h + rel_py))) p) }
    else if rel_px ≥ 0 ∧ rel_py ≤ 0 then
      { r with pixels := some ((countUp (-rel_py) r.height).foldl
          (fun m h => std_move_backward m
            (r.atOffset 0 h) (r.atOffset (r.width - rel_px) h) (r.atOffset r.width (h + rel_py))) p) }
    else if rel_px ≤ 0 ∧ rel_py ≥ 0 then
      { r with pixels := some ((countDown (r.height - rel_py - 1)).foldl
          (fun m h => std_move m
            (r.atOffset (-rel_px) h) (r.atOffset r.width h) (r.atOffset 0 (h + rel_py))) p) }
    else if rel_px ≤ 0 ∧ rel_py ≤ 0 then
      { r with pixels := some ((countUp (-rel_py) r.height).foldl
          (fun m h => std_move m
            (r.atOffset (-rel_px) h) (r.atOffset r.width h) (r.atOffset 0 (h + rel_py))) p) }
    else r

/-- The method `RenderInfo::fillRect`. -/
def fillRect (r : RenderInfo) (rect : SDL_Rect) (info : PixelInfo) : RenderInfo :=
  match r.pixels with
  | none => r
  | some p =>
    let h_min := SDL_clamp rect.y 0 r.height
    let h_max := SDL_clamp (rect.y + rect.h) 0 r.height
    let w_min := SDL_clamp rect.x 0 r.width
    let w_size := SDL_clamp (rect.x + rect.w) 0 r.width - rect.x
    { r with pixels := some ((countUp h_min h_max).foldl
        (fun m h => fill_n m (r.atOffset w_min h) info w_size.toNat) p) }

/-- The array is allocated and holds exactly `width * height` records. -/
def wellFormed (r : RenderInfo) : Bool :=
  match r.pixels with
  | some p => p.length == r.width * r.height
  | none => false

/-- The cache is well formed and every record reports "unrendered". -/
def allUnrendered (r : RenderInfo) : Bool :=
  match r.pixels with
  | some p => p.length == r.width * r.height && p.all (fun v => !v.rendered)
  | none => false

/-- The cache is well formed and every record reports "rendered". -/
def allRendered (r : RenderInfo) : Bool :=
  match r.pixels with
  | some p => p.length == r.width * r.height && p.all (fun v => v.rendered)
  | none => false

end RenderInfo

/-! ## Surfaces and the scaled blit (`Tutorial7/mandelbrot.cpp`, lines 12-55) -/

/-- The part of an `SDL_Surface` the engine reads and writes: `w`, `h` and the array of
32-bit `pixels`. -/
structure SDL_Surface where
  w : Int
  h : Int
  pixels : List Nat
deriving DecidableEq, Repr

/-- The read `((uint32_t*)s->pixels)[a]`. -/
def SDL_Surface.peek (s : SDL_Surface) (a : Int) : Nat :=
  if 0 ≤ a then s.pixels.getD a.toNat 0 else 0

/-- The write `((uint32_t*)s->pixels)[a] = v`. -/
def SDL_Surface.poke (s : SDL_Surface) (a : Int) (v : Nat) : SDL_Surface :=
  if 0 ≤ a then { s with pixels := s.pixels.set a.toNat v } else s

/-- The template `in_range(x, min, max)`. -/
def in_range (x min max : Int) : Bool := decide (min ≤ x) && decide (x ≤ max)

section Engine

variable {K : Type} [LinearOrderedField K] [FloorRing K]

/-- The conversion `(int)x` of a floating value: truncation toward zero. -/
def trunc (x : K) : Int := if 0 ≤ x then ⌊x⌋ else ⌈x⌉

/-- The C function `roundf`: to the nearest integer, halfway cases away from zero. -/
def roundf (x : K) : Int := if 0 ≤ x then ⌊x + 1 / 2⌋ else ⌈x - 1 / 2⌉

/-- The C function `fmod(x, y)`: `x - y * n` with `n` the quotient `x / y` truncated. -/
def fmod (x y : K) : K := x - y * (trunc (x / y) : K)

/-- The integer nearest to `x`, the even one of the two when `x` lies halfway between them:
the rounding of binary floating-point arithmetic. -/
def roundEven (x : K) : Int :=
  if x - (⌊x⌋ : K) < 1 / 2 then ⌊x⌋
  else if 1 / 2 < x - (⌊x⌋ : K) then ⌊x⌋ + 1
  else if ⌊x⌋ % 2 = 0 then ⌊x⌋ else ⌊x⌋ + 1

/-- The value `x` rounded to the binary floating-point numbers with `p` significant bits, to
nearest, ties to even: with `2 ^ e ≤ |x| < 2 ^ (e + 1)` the multiple of `2 ^ (e - (p - 1))`
nearest to `x`.  The exponent `e` is not bounded. -/
def roundTo (p : Nat) (x : K) : K :=
  if x = 0 then 0
  else
    let ulp : K := (2 : K) ^ (Int.log 2 |x| - ((p : Int) - 1))
    if 0 ≤ x then (roundEven (x / ulp) : K) * ulp else -((roundEven (-x / ulp) : K) * ulp)

/-- The result of an operation on `float` whose exact value is `x`, and the conversion
`(float)x` of an integer: `float` has 24 significant bits. -/
def toFloat (x : K) : K := roundTo 24 x

/-- The result of an operation on `double` whose exact value is `x`: `double` has 53
significant bits. -/
def toDouble (x : K) : K := roundTo 53 x

/-- The conversion `(int)x` of a floating value where it is defined, that is where the
truncated value is an `int`. -/
def toInt (x : K) : Option Int :=
  if -2147483649 < x ∧ x < 2147483648 then some (trunc x) else none

/-- The lambda `map` of `blitScaled` (lines 35-40), with its captures
`rx = (float)src_rect.w / dst_rect.w` and `ry = (float)src_rect.h / dst_rect.h`: the point of
the source for the pixel `(x, y)` of the destination.  The operands are converted to `float`
and every operation is one on `float`.  (For a destination rectangle of width or height `0`
the source divides by zero; that case is not modelled.) -/
def blitMap (K : Type) [LinearOrderedField K] [FloorRing K] (src_rect dst_rect : SDL_Rect)
    (x y : Int) : Int × Int :=
  let rx : K := toFloat (toFloat (src_rect.w : K) / toFloat (dst_rect.w : K))
  let ry : K := toFloat (toFloat (src_rect.h : K) / toFloat (dst_rect.h : K))
  (roundf (toFloat (toFloat (rx * toFloat ((x - dst_rect.x : Int) : K)) +
      toFloat (src_rect.x : K))),
    roundf (toFloat (toFloat (ry * toFloat ((y - dst_rect.y : Int) : K)) +
      toFloat (src_rect.y : K))))

/-- The static function `blitScaled(src, srcrect, dst, dstrect)`; `none` is a null rectangle.
Each pixel of `dst` is written once and independently of the others, so the blocks of
the `parallel_for` are run here one after the other, row by row. -/
def blitScaled (K : Type) [LinearOrderedField K] [FloorRing K] (src : SDL_Surface)
    (srcrect : Option SDL_Rect) (dst : SDL_Surface) (dstrect : Option SDL_Rect) :
    SDL_Surface :=
  let src_rect : SDL_Rect := srcrect.getD ⟨0, 0, src.w, src.h⟩
  let dst_rect : SDL_Rect := dstrect.getD ⟨0, 0, dst.w, dst.h⟩
  let get_pixel := fun (surface : SDL_Surface) (x y : Int) =>
    if x < 0 ∨ surface.w ≤ x ∨ y < 0 ∨ surface.h ≤ y then 0
    else surface.peek (surface.w * y + x)
  let map := blitMap K src_rect dst_rect
  (countUp 0 dst.h).foldl (fun d h =>
    (countUp 0 dst.w).foldl (fun d w =>
      if !in_range w dst_rect.x (dst_rect.x + dst_rect.w) ||
          !in_range h dst_rect.y (dst_rect.y + dst_rect.h) then
        d.poke (dst.w * h + w) 0
      else
        d.poke (dst.w * h + w) (get_pixel src (map w h).1 (map w h).2)) d) dst

/-! ## What the engine takes from outside the sources -/

/-- The library functions and tables the engine calls but the sources do not define. -/
structure Extern (K : Type) where
  /-- The call `SDL_CreateRGBSurface(0, width, height, 32, 0, 0, 0, 0)`. -/
  SDL_CreateRGBSurface : Int → Int → SDL_Surface
  /-- The call `SDL_BlitSurface(src, nullptr, dst, &rect)`; the result is the new `dst`. -/
  SDL_BlitSurface : SDL_Surface → SDL_Surface → SDL_Rect → SDL_Surface
  /-- The call `SDL_FillRect(dst, rect, color)`; `none` is a null rectangle. -/
  SDL_FillRect : SDL_Surface → Option SDL_Rect → Nat → SDL_Surface
  /-- The call `SDL_BlitScaled(src, nullptr, dst, &rect)`; the result is the new `dst`. -/
  SDL_BlitScaled : SDL_Surface → SDL_Surface → SDL_Rect → SDL_Surface
  /-- The palette table `colormap[color_idx][i]` of `color.h`. -/
  colormap : Nat → Int → Nat
  /-- The function `lerp_color(col1, col2, t)` of `color.h`. -/
  lerp_color : Nat → Nat → K → Nat
  /-- The function `log` of the C library. -/
  log : K → K

/-! ## The engine (`class Mandelbrot`, `Tutorial7/mandelbrot.{h,cpp}`) -/

/-- The locals `min_x`, `max_y`, `dx`, `dy` that `drawSurface` computes once on entry. -/
structure Frame (K : Type) where
  min_x : K
  max_y : K
  dx : K
  dy : K

/-- The member `future` together with the task behind it. -/
inductive Future (K : Type) where
  /-- No task is in flight: the future is invalid, or its task has returned. -/
  | idle : Future K
  /-- The call `std::async` has returned; the task has not executed its first statement. -/
  | launched : Future K
  /-- The task is inside `drawSurface`, with locals `c`, about to test `h < height`. -/
  | running (c : Frame K) (h : Int) : Future K

/-- The data members of `class Mandelbrot` (the window, renderer and texture handles are
left out: no modelled method reads them), and one counter that is not in the source. -/
structure Mandelbrot (K : Type) where
  render_info : RenderInfo
  surface_temp : SDL_Surface
  surface : SDL_Surface
  width : Int
  height : Int
  aspect : K
  pos_x : K
  pos_y : K
  scale : K
  iter : Nat
  color_idx : Nat
  color_scale : K
  smooth : Bool
  future : Future K
  is_rendering : Bool
  stop_all : Bool
  updated : Bool
  /-- Instrumentation, not a member of the class: the number of compute passes `render`
  has started so far (a call of `drawSurface` or of `startAsync`). -/
  passes : Nat

namespace Mandelbrot

/-- The method `Mandelbrot::pixelToComplex`; the result is (real part, imaginary part). -/
def pixelToComplex (m : Mandelbrot K) (px py : K) : K × K :=
  let min_x := m.pos_x - 2 * m.scale * m.aspect
  let max_y := m.pos_y + 2 * m.scale
  let dx := 4 * m.scale * m.aspect / (m.width : K)
  let dy := 4 * m.scale / (m.height : K)
  (min_x + px * dx, max_y - py * dy)

/-- The first four statements of `drawSurface` (lines 280-283). -/
def frame (m : Mandelbrot K) : Frame K :=
  { min_x := m.pos_x - 2 * m.scale * m.aspect,
    max_y := m.pos_y + 2 * m.scale,
    dx := 4 * m.scale * m.aspect / (m.width : K),
    dy := 4 * m.scale / (m.height : K) }

/-- The colour `drawSurface` assigns to `pixel` (lines 299-312), given the count `iterated`
and the values `cx`, `cy` that `mandelbrot` wrote back. -/
def pixelColor (env : Extern K) (m : Mandelbrot K) (iterated : Nat) (cx cy : K) : Nat :=
  if iterated = m.iter then 0xff000000
  else if !m.smooth then
    env.colormap m.color_idx
      ((trunc (m.color_scale * 256 * (iterated : K) / (m.iter : K))).tmod 256)
  else
    let log_zn := env.log (cx * cx + cy * cy) / 2
    let nu := env.log (log_zn / env.log 2) / env.log 2
    let real_iter := (iterated : K) + 7 / 2 - nu
    let col1 := env.colormap m.color_idx
      ((trunc (m.color_scale * 256 * real_iter / (m.iter : K))).tmod 256)
    let col2 := env.colormap m.color_idx
      ((trunc (m.color_scale * 256 * (real_iter + 1) / (m.iter : K))).tmod 256)
    env.lerp_color col1 col2 (fmod (m.iter : K) 1)

/-- The body of the inner loop of `drawSurface` (lines 289-314) for the pixel `(w, h)`. -/
def drawPixel (env : Extern K) (m : Mandelbrot K) (c : Frame K) (h w : Int) : Mandelbrot K :=
  let info := m.render_info.get w h
  if info.rendered then m
  else
    let cx := c.min_x + c.dx * ((w : K) + 1 / 2)
    let cy := c.max_y - c.dy * ((h : K) + 1 / 2)
    let r := mandelbrot cx cy m.iter
    { m with
      surface := m.surface.poke (h * m.surface.w + w) (pixelColor env m r.1 r.2.1 r.2.2),
      render_info := m.render_info.set w h { info with rendered := true } }

/-- The inner loop `for (int w = 0; w < width; ++w)` of `drawSurface`, for the row `h`. -/
def drawRow (env : Extern K) (m : Mandelbrot K) (c : Frame K) (h : Int) : Mandelbrot K :=
  (countUp 0 m.width).foldl (fun s w => drawPixel env s c h w) m

/-- The outer loop of `drawSurface` over the remaining rows `hs`:
`if (stop_all) return;` and then the row. -/
def drawRows (env : Extern K) (c : Frame K) : List Int → Mandelbrot K → Mandelbrot K
  | [], m => m
  | h :: hs, m => if m.stop_all then m else drawRows env c hs (drawRow env m c h)

/-- The method `Mandelbrot::drawSurface`. -/
def drawSurface (env : Extern K) (m : Mandelbrot K) : Mandelbrot K :=
  drawRows env m.frame (countUp 0 m.height) m

/-- One step of the background task `[this] { is_rendering = true; drawSurface();
is_rendering = false; }`: its first statement together with the entry of `drawSurface`, or
one pass of the outer loop, or its return. -/
def threadStep (env : Extern K) (m : Mandelbrot K) : Mandelbrot K :=
  match m.future with
  | Future.idle => m
  | Future.launched => { m with is_rendering := true, future := Future.running m.frame 0 }
  | Future.running c h =>
    if h < m.height then
      if m.stop_all then { m with is_rendering := false, future := Future.idle }
      else { drawRow env m c h with future := Future.running c (h + 1) }
    else { m with is_rendering := false, future := Future.idle }

/-- The background task run to its end, as a caller blocked on the future sees it
(`future.get()`, and the release of the shared state when `future` is assigned).  On a
future without a task `get` is undefined; the engine is then returned as it is. -/
def future_get (env : Extern K) (m : Mandelbrot K) : Mandelbrot K :=
  match m.future with
  | Future.idle => m
  | Future.launched =>
    { drawSurface env { m with is_rendering := true } with
      is_rendering := false, future := Future.idle }
  | Future.running c h =>
    { drawRows env c (countUp h m.height) m with
      is_rendering := false, future := Future.idle }

/-- The method `Mandelbrot::startAsync`.  The assignment to `future` first releases the
shared state of the previous task, which blocks until that task has returned. -/
def startAsync (env : Extern K) (m : Mandelbrot K) : Mandelbrot K :=
  { future_get env m with future := Future.launched }

/-- The method `Mandelbrot::wait`. -/
def wait (env : Extern K) (m : Mandelbrot K) : Mandelbrot K :=
  if m.is_rendering then future_get env m else m

/-- The method `Mandelbrot::stop`. -/
def stop (env : Extern K) (m : Mandelbrot K) : Mandelbrot K :=
  if m.is_rendering then
    { wait env { m with stop_all := true } with stop_all := false, is_rendering := false }
  else m

/-- The method `Mandelbrot::render`. -/
def render (env : Extern K) (m : Mandelbrot K) (async : Bool) : Mandelbrot K :=
  if !m.updated then
    if !async then
      { drawSurface env { m with is_rendering := true } with
        is_rendering := false, updated := true, passes := m.passes + 1 }
    else
      { startAsync env m with updated := true, passes := m.passes + 1 }
  else m

/-- The method `Mandelbrot::update`. -/
def update (env : Extern K) (m : Mandelbrot K) (rerender_all clear_surface : Bool) :
    Mandelbrot K :=
  let m1 := { stop env m with updated := false }
  let m2 := if rerender_all then
    { m1 with render_info := m1.render_info.reset PixelInfo.zero } else m1
  if clear_surface then { m2 with surface := env.SDL_FillRect m2.surface none 0 } else m2

/-- The constructor `Mandelbrot::Mandelbrot`; `win_w`, `win_h` are what `SDL_GetWindowSize`
reports.  (`render_info` has no array before its first `resize`.) -/
def new (env : Extern K) (win_w win_h : Int) : Mandelbrot K :=
  { render_info := RenderInfo.resize ⟨none, 0, 0⟩ win_w.toNat win_h.toNat,
    surface_temp := env.SDL_CreateRGBSurface win_w win_h,
    surface := env.SDL_CreateRGBSurface win_w win_h,
    width := win_w,
    height := win_h,
    aspect := (win_w : K) / (win_h : K),
    pos_x := 0,
    pos_y := 0,
    scale := 1,
    iter := 100,
    color_idx := 1,
    color_scale := 4,
    smooth := true,
    future := Future.idle,
    is_rendering := false,
    stop_all := false,
    updated := false,
    passes := 0 }

/-- The method `Mandelbrot::resize`; `win_w`, `win_h` are what `SDL_GetWindowSize`
reports. -/
def resize (env : Extern K) (m : Mandelbrot K) (win_w win_h : Int) : Mandelbrot K :=
  let m1 := stop env m
  update env
    { m1 with
      width := win_w,
      height := win_h,
      aspect := (win_w : K) / (win_h : K),
      render_info := m1.render_info.resize win_w.toNat win_h.toNat,
      surface_temp := env.SDL_CreateRGBSurface win_w win_h,
      surface := env.SDL_CreateRGBSurface win_w win_h } true true

/-- The method `Mandelbrot::setPosition`. -/
def setPosition (env : Extern K) (m : Mandelbrot K) (x y : K) : Mandelbrot K :=
  let m1 := stop env m
  update env { m1 with pos_x := x, pos_y := y } true true

/-- The rectangles `rect1`, `rect2` that `Mandelbrot::move` chooses (lines 165-177).  The
last `else if` of the source has no `else`; its condition cannot fail there. -/
def moveRects (width height rel_px rel_py : Int) : SDL_Rect × SDL_Rect :=
  if rel_px ≥ 0 ∧ rel_py ≥ 0 then
    (⟨0, 0, width, rel_py⟩, ⟨0, rel_py, rel_px, height - rel_py⟩)
  else if rel_px ≥ 0 ∧ rel_py ≤ 0 then
    (⟨0, height + rel_py, width, -rel_py⟩, ⟨0, 0, rel_px, height + rel_py⟩)
  else if rel_px ≤ 0 ∧ rel_py ≥ 0 then
    (⟨0, 0, width, rel_py⟩, ⟨width + rel_px, rel_py, -rel_px, height - rel_py⟩)
  else if rel_px ≤ 0 ∧ rel_py ≤ 0 then
    (⟨0, height + rel_py, width, -rel_py⟩, ⟨width + rel_px, 0, -rel_px, height + rel_py⟩)
  else (⟨0, 0, 0, 0⟩, ⟨0, 0, 0, 0⟩)

/-- The method `Mandelbrot::move`. -/
def move (env : Extern K) (m : Mandelbrot K) (rel_px rel_py : Int) : Mandelbrot K :=
  let m1 := stop env m
  let rect : SDL_Rect := ⟨rel_px, rel_py, m1.width + rel_px, m1.height + rel_px⟩
  let m2 := { m1 with surface := env.SDL_BlitSurface m1.surface m1.surface rect }
  let rect1 := (moveRects m2.width m2.height rel_px rel_py).1
  let rect2 := (moveRects m2.width m2.height rel_px rel_py).2
  let info1 := m2.render_info.move rel_px rel_py
  let info2 := info1.fillRect rect1 PixelInfo.zero
  let info3 := info2.fillRect rect2 PixelInfo.zero
  let m3 := { m2 with render_info := info3 }
  let surface1 := env.SDL_FillRect m3.surface (some rect1) 0
  let surface2 := env.SDL_FillRect surface1 (some rect2) 0
  let m4 := { m3 with surface := surface2 }
  let dx := 4 * m4.scale * m4.aspect / (m4.width : K)
  let dy := 4 * m4.scale / (m4.height : K)
  update env
    { m4 with pos_x := m4.pos_x - dx * (rel_px : K), pos_y := m4.pos_y + dy * (rel_py : K) }
    false false

/-- The method `Mandelbrot::setScale`.  The operations on `double` that lead to the `int`s
`w` and `h` are rounded (`toDouble`); a conversion `(int)x` that is undefined in C++ is the
truncation here (see `setScaleRect`). -/
def setScale (env : Extern K) (m : Mandelbrot K) (scale : K) : Mandelbrot K :=
  let m1 := stop env m
  let mag := toDouble (m1.scale / scale)
  let w : Int := trunc (toDouble ((m1.width : K) * toDouble (1 - mag)))
  let h : Int := trunc (toDouble ((m1.height : K) * toDouble (1 - mag)))
  let rect : SDL_Rect := ⟨w.tdiv 2, h.tdiv 2, m1.width - w, m1.height - h⟩
  let temp := env.SDL_FillRect m1.surface_temp none 0
  let temp := env.SDL_BlitScaled m1.surface temp rect
  update env { m1 with surface := temp, surface_temp := m1.surface, scale := scale } true false

/-- The statements of `Mandelbrot::setScaleTo` that precede its call of `update`
(lines 213-231; the `stop()` of line 212 is commented out in the source).  The operations on
`double` that lead to the `int`s of `rect` are rounded, as in `setScale`. -/
def setScaleTo_body (m : Mandelbrot K) (scale px py : K) : Mandelbrot K :=
  let point := m.pixelToComplex px py
  let mag := toDouble (m.scale / scale)
  let w : Int := trunc (toDouble ((m.width : K) * toDouble (1 - mag)))
  let h : Int := trunc (toDouble ((m.height : K) * toDouble (1 - mag)))
  let rect : SDL_Rect :=
    ⟨trunc (toDouble ((w : K) * toDouble (px / (m.width : K)))),
      trunc (toDouble ((h : K) * toDouble (py / (m.height : K)))),
      m.width - w, m.height - h⟩
  let temp := blitScaled K m.surface none m.surface_temp (some rect)
  let m1 := { m with surface := temp, surface_temp := m.surface, scale := scale }
  let dx := 4 * scale * m1.aspect / (m1.width : K)
  let dy := 4 * scale / (m1.height : K)
  { m1 with
    pos_x := point.1 + 2 * scale * m1.aspect - px * dx,
    pos_y := point.2 - 2 * scale + py * dy }

/-- The method `Mandelbrot::setScaleTo`. -/
def setScaleTo (env : Extern K) (m : Mandelbrot K) (scale px py : K) : Mandelbrot K :=
  update env (setScaleTo_body m scale px py) true false

/-- The method `Mandelbrot::setIteration`. -/
def setIteration (env : Extern K) (m : Mandelbrot K) (iter : Nat) : Mandelbrot K :=
  let m1 := stop env m
  update env { m1 with iter := iter } true false

/-- The method `Mandelbrot::setColormap`. -/
def setColormap (env : Extern K) (m : Mandelbrot K) (idx : Nat) : Mandelbrot K :=
  update env { m with color_idx := idx } true false

/-- The method `Mandelbrot::setColorScale`. -/
def setColorScale (env : Extern K) (m : Mandelbrot K) (scale : K) : Mandelbrot K :=
  update env { m with color_scale := scale } true false

/-- The method `Mandelbrot::setColorSmooth`. -/
def setColorSmooth (env : Extern K) (m : Mandelbrot K) (val : Bool) : Mandelbrot K :=
  update env { m with smooth := val } true false

/-- What a pass of `drawSurface` needs of the engine: the cache is allocated with the
dimensions `W x H` of the engine and no cancellation is pending. -/
def Drawable (W H : Nat) (m : Mandelbrot K) : Prop :=
  m.width = W ∧ m.height = H ∧ m.stop_all = false ∧ m.render_info.width = W ∧
    m.render_info.height = H ∧ ∃ p, m.render_info.pixels = some p ∧ p.length = W * H

/-- The record at offset `j` of the cache of the engine reports "rendered". -/
def RenderedAt (m : Mandelbrot K) (j : Int) : Prop :=
  ∃ p, m.render_info.pixels = some p ∧ (load p j).rendered = true

end Mandelbrot

/-! ## The other backends and the backend switch -/

/-- The enumeration `Acc` of the accelerator setting.  Its declaration (`gui.h`) is not among
the sources; these are the three enumerators that `GUI::acceleratorChanged` tests. -/
inductive Acc where
  | CPU : Acc
  | CPU_TBB : Acc
  | GPU_CUDA : Acc
deriving DecidableEq, Repr

/-- The constructor `MandelbrotTBB::MandelbrotTBB` (`Tutorial6/mandelbrot_tbb.cpp`, lines
12-16): the constructor of `Mandelbrot`, then `arena.initialize()` (the arena is not a member
of the model).  The class overrides `startAsync` and `drawSurface` only
(`Tutorial7/mandelbrot_tbb.h`): `stop`, `update` and the mutators of a data-parallel engine
are those of `Mandelbrot`. -/
def MandelbrotTBB.new (env : Extern K) (win_w win_h : Int) : Mandelbrot K :=
  Mandelbrot.new env win_w win_h

namespace MandelbrotCUDA

/-- Modelled from the spec: the constructor `MandelbrotCUDA::MandelbrotCUDA(SDL_Renderer*)`,
declared in `Tutorial7/mandelbrot_cuda.h` and defined in no file of the sources.  As the
constructor of a derived class it runs the constructor of `Mandelbrot` first.  Of the state
of the progressive backend the specification names the pixel cache alone (section 3: "One
record per pixel", an accumulation record that is zero while the pixel is "unrendered"); the
model keeps it in `render_info`, and the constructor leaves the members of `Mandelbrot` as
the base constructor set them. -/
def new (env : Extern K) (win_w win_h : Int) : Mandelbrot K :=
  Mandelbrot.new env win_w win_h

/-- Modelled from the spec: the override `MandelbrotCUDA::stop`, declared in
`Tutorial7/mandelbrot_cuda.h` and defined in no file of the sources.  Section 4.5: "if
running, raises a cooperative cancellation token, blocks until the background pass observes
it and exits, then clears the token"; section 5: the pass writes the framebuffer and the
cache, nothing else.  What a progressive pass has written when it exits is not said: `pass`
gives the cache and the framebuffer it leaves. -/
def stop (pass : Mandelbrot K → RenderInfo × SDL_Surface) (m : Mandelbrot K) :
    Mandelbrot K :=
  if m.is_rendering then
    { m with
      render_info := (pass { m with stop_all := true }).1,
      surface := (pass { m with stop_all := true }).2,
      future := Future.idle,
      stop_all := false,
      is_rendering := false }
  else m

/-- Modelled from the spec: the override `MandelbrotCUDA::update(rerender_all,
clear_surface)`, declared in `Tutorial7/mandelbrot_cuda.h` and defined in no file of the
sources.  Section 4.6: every mutator "follows: stop in-flight pass → apply parameter change →
invalidate cache (full reset for iteration/palette/resize/backend changes; ...) → mark frame
dirty"; section 3: the records are "reset to 'unrendered'/zero on any full invalidation".
The mutator has made its change before the call; the full reset is made when `rerender_all`
is set.  The specification does not say what `clear_surface` does: the framebuffer is
cleared, as in `Mandelbrot::update`. -/
def update (env : Extern K) (pass : Mandelbrot K → RenderInfo × SDL_Surface)
    (m : Mandelbrot K) (rerender_all clear_surface : Bool) : Mandelbrot K :=
  let m1 := { stop pass m with updated := false }
  let m2 := if rerender_all then
    { m1 with render_info := m1.render_info.reset PixelInfo.zero } else m1
  if clear_surface then { m2 with surface := env.SDL_FillRect m2.surface none 0 } else m2

/-- The method `Mandelbrot::setPosition` on an engine of the class `MandelbrotCUDA`: its
calls of the virtual members `stop` and `update` reach the overrides. -/
def setPosition (env : Extern K) (pass : Mandelbrot K → RenderInfo × SDL_Surface)
    (m : Mandelbrot K) (x y : K) : Mandelbrot K :=
  let m1 := stop pass m
  update env pass { m1 with pos_x := x, pos_y := y } true true

/-- The method `Mandelbrot::setScale` on an engine of the class `MandelbrotCUDA`. -/
def setScale (env : Extern K) (pass : Mandelbrot K → RenderInfo × SDL_Surface)
    (m : Mandelbrot K) (scale : K) : Mandelbrot K :=
  let m1 := stop pass m
  let mag := toDouble (m1.scale / scale)
  let w : Int := trunc (toDouble ((m1.width : K) * toDouble (1 - mag)))
  let h : Int := trunc (toDouble ((m1.height : K) * toDouble (1 - mag)))
  let rect : SDL_Rect := ⟨w.tdiv 2, h.tdiv 2, m1.width - w, m1.height - h⟩
  let temp := env.SDL_FillRect m1.surface_temp none 0
  let temp := env.SDL_BlitScaled m1.surface temp rect
  update env pass { m1 with surface := temp, surface_temp := m1.surface, scale := scale }
    true false

/-- The method `Mandelbrot::setIteration` on an engine of the class `MandelbrotCUDA`. -/
def setIteration (env : Extern K) (pass : Mandelbrot K → RenderInfo × SDL_Surface)
    (m : Mandelbrot K) (iter : Nat) : Mandelbrot K :=
  let m1 := stop pass m
  update env pass { m1 with iter := iter } true false

/-- The method `Mandelbrot::setColormap` on an engine of the class `MandelbrotCUDA`. -/
def setColormap (env : Extern K) (pass : Mandelbrot K → RenderInfo × SDL_Surface)
    (m : Mandelbrot K) (idx : Nat) : Mandelbrot K :=
  update env pass { m with color_idx := idx } true false

/-- The method `Mandelbrot::setColorScale` on an engine of the class `MandelbrotCUDA`. -/
def setColorScale (env : Extern K) (pass : Mandelbrot K → RenderInfo × SDL_Surface)
    (m : Mandelbrot K) (scale : K) : Mandelbrot K :=
  update env pass { m with color_scale := scale } true false

/-- The method `Mandelbrot::setColorSmooth` on an engine of the class `MandelbrotCUDA`. -/
def setColorSmooth (env : Extern K) (pass : Mandelbrot K → RenderInfo × SDL_Surface)
    (m : Mandelbrot K) (val : Bool) : Mandelbrot K :=
  update env pass { m with smooth := val } true false

end MandelbrotCUDA

/-- The method `GUI::acceleratorChanged` (`Tutorial7/gui.cpp`, lines 137-161):
`accelerator` is the member `settings.accelerator`, and `win_w`, `win_h` are what
`SDL_GetWindowSize` reports to the constructor of the new engine.  The parameters of the old
engine are read, the old engine is stopped and replaced by a new one of the class that the
setting selects, and the saved parameters are applied to the new engine through the
mutators of `Mandelbrot`.  (The call `mandelbrot->stop()` acts on the old engine alone, which
the assignment destroys.  `pass` is what the model of the progressive backend takes from
outside, see `MandelbrotCUDA.stop`.) -/
def GUI.acceleratorChanged (env : Extern K)
    (pass : Mandelbrot K → RenderInfo × SDL_Surface) (accelerator : Acc)
    (win_w win_h : Int) (mandelbrot : Mandelbrot K) : Mandelbrot K :=
  let pos := (mandelbrot.pos_x, mandelbrot.pos_y)
  let scale := mandelbrot.scale
  let iter := mandelbrot.iter
  let color_map := mandelbrot.color_idx
  let color_scale := mandelbrot.color_scale
  let smooth := mandelbrot.smooth
  let _old := mandelbrot.stop env
  match accelerator with
  | Acc.CPU =>
    let m := Mandelbrot.new env win_w win_h
    let m := m.setPosition env pos.1 pos.2
    let m := m.setScale env scale
    let m := m.setIteration env iter
    let m := m.setColormap env color_map
    let m := m.setColorScale env color_scale
    m.setColorSmooth env smooth
  | Acc.CPU_TBB =>
    let m := MandelbrotTBB.new env win_w win_h
    let m := m.setPosition env pos.1 pos.2
    let m := m.setScale env scale
    let m := m.setIteration env iter
    let m := m.setColormap env color_map
    let m := m.setColorScale env color_scale
    m.setColorSmooth env smooth
  | Acc.GPU_CUDA =>
    let m := MandelbrotCUDA.new env win_w win_h
    let m := MandelbrotCUDA.setPosition env pass m pos.1 pos.2
    let m := MandelbrotCUDA.setScale env pass m scale
    let m := MandelbrotCUDA.setIteration env pass m iter
    let m := MandelbrotCUDA.setColormap env pass m color_map
    let m := MandelbrotCUDA.setColorScale env pass m color_scale
    MandelbrotCUDA.setColorSmooth env pass m smooth

end Engine

/-! ## The viewport of `Tutorial2/mandelbrot.cpp` -/

namespace Tutorial2

section Viewport

variable {K : Type} [LinearOrderedField K]

/-- The data members of the `Mandelbrot` class of Tutorial 2 that its viewport methods
read or write. -/
structure Mandelbrot (K : Type) where
  width : Int
  height : Int
  aspect : K
  pos_x : K
  pos_y : K
  scale : K
  iter : Nat
  updated : Bool

/-- The method `Mandelbrot::pixelToComplex` (lines 99-106). -/
def Mandelbrot.pixelToComplex (m : Mandelbrot K) (px py : K) : K × K :=
  let min_x := m.pos_x - 2 * m.scale * m.aspect
  let max_y := m.pos_y + 2 * m.scale
  let dx := 4 * m.scale * m.aspect / (m.width : K)
  let dy := 4 * m.scale / (m.height : K)
  (min_x + px * dx, max_y - py * dy)

/-- The method `Mandelbrot::move` (lines 64-72). -/
def Mandelbrot.move (m : Mandelbrot K) (rel_px rel_py : Int) : Mandelbrot K :=
  let dx := 4 * m.scale * m.aspect / (m.width : K)
  let dy := 4 * m.scale / (m.height : K)
  { m with
    pos_x := m.pos_x - dx * (rel_px : K),
    pos_y := m.pos_y + dy * (rel_py : K),
    updated := false }

/-- The method `Mandelbrot::setScaleTo` (lines 80-91). -/
def Mandelbrot.setScaleTo (m : Mandelbrot K) (scale px py : K) : Mandelbrot K :=
  let point := m.pixelToComplex px py
  let m1 := { m with scale := scale }
  let dx := 4 * scale * m1.aspect / (m1.width : K)
  let dy := 4 * scale / (m1.height : K)
  { m1 with
    pos_x := point.1 + 2 * scale * m1.aspect - px * dx,
    pos_y := point.2 - 2 * scale + py * dy,
    updated := false }

end Viewport

end Tutorial2

/-! ## The escape-time functions of the earlier tutorials -/

namespace Tutorial1

section Escape

variable {K : Type} [LinearOrderedField K]

/-- The loop `for (int i = 0; i < max_iter; ++i)` of `mandelbrot`
(`Tutorial1/mandelbrot.cpp`, lines 7-15; `Tutorial2/mandelbrot.cpp` has the same function),
entered at its test with the current `z` and `i`.  `z * z` is the product of
`std::complex`, `norm(z)` the squared modulus. -/
def mandelbrotLoop (c : K × K) (max_iter : Nat) (z : K × K) (i : Nat) : Nat :=
  if i < max_iter then
    let z1 : K × K := (z.1 * z.1 - z.2 * z.2 + c.1, z.1 * z.2 + z.2 * z.1 + c.2)
    if z1.1 * z1.1 + z1.2 * z1.2 > 4 then i
    else mandelbrotLoop c max_iter z1 (i + 1)
  else max_iter
termination_by max_iter - i
decreasing_by omega

/-- The function `mandelbrot(c, max_iter)` of Tutorials 1 and 2; `c` is (real part,
imaginary part). -/
def mandelbrot (c : K × K) (max_iter : Nat) : Nat :=
  mandelbrotLoop c max_iter (0, 0) 0

end Escape

end Tutorial1

namespace Tutorial5

section Escape

variable {K : Type} [LinearOrderedField K]

/-- The loop `do { ... } while (zx * zx + zy * zy < 4. && ++i < max_iter)` of `mandelbrot`
(`Tutorial5/mandelbrot.h`, lines 12-24), entered at the top of its body. -/
def mandelbrotLoop (cx cy : K) (max_iter : Nat) (zx zy : K) (i : Nat) : Nat :=
  let temp := zx * zx - zy * zy + cx
  let zy1 := 2 * zx * zy + cy
  let zx1 := temp
  if zx1 * zx1 + zy1 * zy1 < 4 then
    if i + 1 < max_iter then mandelbrotLoop cx cy max_iter zx1 zy1 (i + 1)
    else i + 1
  else i
termination_by max_iter - i
decreasing_by omega

/-- The function `mandelbrot(cx, cy, max_iter)` of Tutorial 5. -/
def mandelbrot (cx cy : K) (max_iter : Nat) : Nat :=
  mandelbrotLoop cx cy max_iter 0 0 0

end Escape

end Tutorial5

/-! ## The packed colour (`make_color`) -/

/-- The value of an `int` expression whose mathematical value is `x`: reduced modulo `2^32`
into the range of a 32-bit two's complement integer. -/
def wrapInt32 (x : Int) : Int := (x + 2147483648) % 4294967296 - 2147483648

/-- The function `make_color(r, g, b, a)` (`Tutorial5/mandelbrot.h`, lines 8-10, and the same
function in `Tutorial1/mandelbrot.cpp`, lines 17-19).  The arguments are converted to
`uint8_t`, promoted to `int` for the shifts and the sums, and the `int` result is converted
to `uint32_t`. -/
def make_color (r g b a : Nat) : Nat :=
  let r8 : Int := ((r % 256 : Nat) : Int)
  let g8 : Int := ((g % 256 : Nat) : Int)
  let b8 : Int := ((b % 256 : Nat) : Int)
  let a8 : Int := ((a % 256 : Nat) : Int)
  let sum := wrapInt32 (wrapInt32 (wrapInt32 (wrapInt32 (a8 * 2 ^ 24) + wrapInt32 (r8 * 2 ^ 16))
    + wrapInt32 (g8 * 2 ^ 8)) + b8)
  (sum % 4294967296).toNat

/-! ## Further members of the engine -/

section Engine

variable {K : Type} [LinearOrderedField K] [FloorRing K]

namespace Mandelbrot

/-- The sample point `(cx, cy)` that `drawSurface` computes for the pixel `(w, h)`
(lines 294-295), from its locals `c`. -/
def samplePoint (c : Frame K) (h w : Int) : K × K :=
  (c.min_x + c.dx * ((w : K) + 1 / 2), c.max_y - c.dy * ((h : K) + 1 / 2))

/-- The method `Mandelbrot::getPosition`; the result is (real part, imaginary part). -/
def getPosition (m : Mandelbrot K) : K × K := (m.pos_x, m.pos_y)

/-- The method `Mandelbrot::getScale`. -/
def getScale (m : Mandelbrot K) : K := m.scale

/-- The method `Mandelbrot::getIteration`. -/
def getIteration (m : Mandelbrot K) : Nat := m.iter

/-- The method `Mandelbrot::getColormap`. -/
def getColormap (m : Mandelbrot K) : Nat := m.color_idx

/-- The method `Mandelbrot::getColorScale`. -/
def getColorScale (m : Mandelbrot K) : K := m.color_scale

/-- The method `Mandelbrot::getColorSmooth`. -/
def getColorSmooth (m : Mandelbrot K) : Bool := m.smooth

end Mandelbrot

/-- A call of one of the nine public mutators of the engine, with its arguments. -/
inductive Call (K : Type) where
  | setPosition (x y : K) : Call K
  | move (rel_px rel_py : Int) : Call K
  | setScale (scale : K) : Call K
  | setScaleTo (scale px py : K) : Call K
  | setIteration (iter : Nat) : Call K
  | setColormap (idx : Nat) : Call K
  | setColorScale (scale : K) : Call K
  | setColorSmooth (val : Bool) : Call K
  | resize (win_w win_h : Int) : Call K

/-- The engine after the call. -/
def Call.run (env : Extern K) : Call K → Mandelbrot K → Mandelbrot K
  | Call.setPosition x y, m => m.setPosition env x y
  | Call.move rel_px rel_py, m => m.move env rel_px rel_py
  | Call.setScale scale, m => m.setScale env scale
  | Call.setScaleTo scale px py, m => m.setScaleTo env scale px py
  | Call.setIteration iter, m => m.setIteration env iter
  | Call.setColormap idx, m => m.setColormap env idx
  | Call.setColorScale scale, m => m.setColorScale env scale
  | Call.setColorSmooth val, m => m.setColorSmooth env val
  | Call.resize win_w win_h, m => m.resize env win_w win_h

/-- The scale argument of the call, when it has one, is strictly positive. -/
def Call.scalePositive : Call K → Prop
  | Call.setScale scale => 0 < scale
  | Call.setScaleTo scale _ _ => 0 < scale
  | _ => True

/-- The engine after a sequence of calls, the first of the list first. -/
def runCalls (env : Extern K) (calls : List (Call K)) (m : Mandelbrot K) : Mandelbrot K :=
  calls.foldl (fun s c => c.run env s) m

end Engine

/-! ## The pan shift with every element access checked -/

/-- The read of the element at offset `a`, refused (`none`) when `a` is not an index of the
array. -/
def loadChecked (m : List PixelInfo) (a : Int) : Option PixelInfo :=
  if 0 ≤ a ∧ a < m.length then some (load m a) else none

/-- The write of the element at offset `a`, refused when `a` is not an index of the array. -/
def storeChecked (m : List PixelInfo) (a : Int) (v : PixelInfo) : Option (List PixelInfo) :=
  if 0 ≤ a ∧ a < m.length then some (store m a v) else none

/-- The loop of `fill_n` with checked writes. -/
def fill_nChecked (m : List PixelInfo) (first : Int) (v : PixelInfo) :
    Nat → Option (List PixelInfo)
  | 0 => some m
  | n + 1 => (storeChecked m first v).bind (fun m1 => fill_nChecked m1 (first + 1) v n)

/-- The loop of `copyForward` with checked reads and writes. -/
def copyForwardChecked (m : List PixelInfo) (first result : Int) :
    Nat → Option (List PixelInfo)
  | 0 => some m
  | n + 1 =>
    (loadChecked m first).bind (fun v =>
      (storeChecked m result v).bind (fun m1 =>
        copyForwardChecked m1 (first + 1) (result + 1) n))

/-- The loop of `copyBackward` with checked reads and writes. -/
def copyBackwardChecked (m : List PixelInfo) (last result : Int) :
    Nat → Option (List PixelInfo)
  | 0 => some m
  | n + 1 =>
    (loadChecked m (last - 1)).bind (fun v =>
      (storeChecked m (result - 1) v).bind (fun m1 =>
        copyBackwardChecked m1 (last - 1) (result - 1) n))

/-- The call `std::move(first, last, d_first)` with checked accesses; a call with
`last < first` is refused. -/
def std_moveChecked (m : List PixelInfo) (first last d_first : Int) :
    Option (List PixelInfo) :=
  if last < first then none else copyForwardChecked m first d_first (last - first).toNat

/-- The call `std::move_backward(first, last, d_last)` with checked accesses; a call with
`last < first` is refused. -/
def std_move_backwardChecked (m : List PixelInfo) (first last d_last : Int) :
    Option (List PixelInfo) :=
  if last < first then none else copyBackwardChecked m last d_last (last - first).toNat

/-- The offset of `at(px, py)` with checked arguments.  The parameters of `at` are
`uint32_t`: a negative argument reaches the source as a value near `2 ^ 32`, and `at` then
names an element far outside the array; it is refused here. -/
def RenderInfo.atChecked (r : RenderInfo) (px py : Int) : Option Int :=
  if 0 ≤ px ∧ 0 ≤ py then some (r.atOffset px py) else none

/-- The method `RenderInfo::move` with checked accesses: `none` as soon as `at` would be
called with a negative argument, an element outside the array would be read or written, or a
range with `last < first` would be copied. -/
def RenderInfo.moveChecked (r : RenderInfo) (rel_px rel_py : Int) : Option RenderInfo :=
  match r.pixels with
  | none => some r
  | some p =>
    if rel_px ≥ 0 ∧ rel_py ≥ 0 then
      ((countDown (r.height - rel_py - 1)).foldlM
        (fun m h =>
          (r.atChecked 0 h).bind (fun first =>
            (r.atChecked (r.width - rel_px) h).bind (fun last =>
              (r.atChecked r.width (h + rel_py)).bind (fun d_last =>
                std_move_backwardChecked m first last d_last)))) p).map
        (fun q => { r with pixels := some q })
    else if rel_px ≥ 0 ∧ rel_py ≤ 0 then
      ((countUp (-rel_py) r.height).foldlM
        (fun m h =>
          (r.atChecked 0 h).bind (fun first =>
            (r.atChecked (r.width - rel_px) h).bind (fun last =>
              (r.atChecked r.width (h + rel_py)).bind (fun d_last =>
                std_move_backwardChecked m first last d_last)))) p).map
        (fun q => { r with pixels := some q })
    else if rel_px ≤ 0 ∧ rel_py ≥ 0 then
      ((countDown (r.height - rel_py - 1)).foldlM
        (fun m h =>
          (r.atChecked (-rel_px) h).bind (fun first =>
            (r.atChecked r.width h).bind (fun last =>
              (r.atChecked 0 (h + rel_py)).bind (fun d_first =>
                std_moveChecked m first last d_first)))) p).map
        (fun q => { r with pixels := some q })
    else if rel_px ≤ 0 ∧ rel_py ≤ 0 then
      ((countUp (-rel_py) r.height).foldlM
        (fun m h =>
          (r.atChecked (-rel_px) h).bind (fun first =>
            (r.atChecked r.width h).bind (fun last =>
              (r.atChecked 0 (h + rel_py)).bind (fun d_first =>
                std_moveChecked m first last d_first)))) p).map
        (fun q => { r with pixels := some q })
    else some r

/-- The method `RenderInfo::fillRect` with checked accesses. -/
def RenderInfo.fillRectChecked (r : RenderInfo) (rect : SDL_Rect) (info : PixelInfo) :
    Option RenderInfo :=
  match r.pixels with
  | none => some r
  | some p =>
    let h_min := SDL_clamp rect.y 0 r.height
    let h_max := SDL_clamp (rect.y + rect.h) 0 r.height
    let w_min := SDL_clamp rect.x 0 r.width
    let w_size := SDL_clamp (rect.x + rect.w) 0 r.width - rect.x
    ((countUp h_min h_max).foldlM
      (fun m h => fill_nChecked m (r.atOffset w_min h) info w_size.toNat) p).map
      (fun q => { r with pixels := some q })

/-- The three calls `render_info.move(rel_px, rel_py)`, `render_info.fillRect(&rect1)`,
`render_info.fillRect(&rect2)` of `Mandelbrot::move` (lines 179-181) on a cache, with checked
accesses; `width`, `height` are the members of the engine from which `rect1`, `rect2` are
built. -/
def moveCacheChecked (info : RenderInfo) (width height rel_px rel_py : Int) :
    Option RenderInfo :=
  (info.moveChecked rel_px rel_py).bind (fun info1 =>
    (info1.fillRectChecked (Mandelbrot.moveRects width height rel_px rel_py).1
      PixelInfo.zero).bind (fun info2 =>
        info2.fillRectChecked (Mandelbrot.moveRects width height rel_px rel_py).2
          PixelInfo.zero))

/-- The same three calls as the engine makes them (unchecked). -/
def moveCache (info : RenderInfo) (width height rel_px rel_py : Int) : RenderInfo :=
  ((info.move rel_px rel_py).fillRect (Mandelbrot.moveRects width height rel_px rel_py).1
    PixelInfo.zero).fillRect (Mandelbrot.moveRects width height rel_px rel_py).2 PixelInfo.zero

/-- The method `Mandelbrot::move` with the three calls on the cache checked: `none` when one
of them is refused (the call of the source has then no defined result), and the engine
that `move` leaves otherwise. -/
def Mandelbrot.moveChecked {K : Type} [LinearOrderedField K] [FloorRing K] (env : Extern K)
    (m : Mandelbrot K) (rel_px rel_py : Int) : Option (Mandelbrot K) :=
  let m1 := m.stop env
  (moveCacheChecked m1.render_info m1.width m1.height rel_px rel_py).map
    (fun _ => m.move env rel_px rel_py)

/-! ## The rescale rectangles, the cancelled pass, the data-parallel pass -/

section Engine

variable {K : Type} [LinearOrderedField K] [FloorRing K]

/-- The colour that `blitScaled` writes to the pixel `(w, h)` of `dst` (lines 45-51): the
cleared colour outside `in_range`, and what `get_pixel` returns for the point `map(w, h)` of
the source inside. -/
def blitValue (K : Type) [LinearOrderedField K] [FloorRing K] (src : SDL_Surface)
    (srcrect : Option SDL_Rect) (dst : SDL_Surface) (dstrect : Option SDL_Rect)
    (w h : Int) : Nat :=
  let src_rect : SDL_Rect := srcrect.getD ⟨0, 0, src.w, src.h⟩
  let dst_rect : SDL_Rect := dstrect.getD ⟨0, 0, dst.w, dst.h⟩
  let get_pixel := fun (surface : SDL_Surface) (x y : Int) =>
    if x < 0 ∨ surface.w ≤ x ∨ y < 0 ∨ surface.h ≤ y then 0
    else surface.peek (surface.w * y + x)
  let map := blitMap K src_rect dst_rect
  if !in_range w dst_rect.x (dst_rect.x + dst_rect.w) ||
      !in_range h dst_rect.y (dst_rect.y + dst_rect.h) then 0
  else get_pixel src (map w h).1 (map w h).2

namespace Mandelbrot

/-- The rectangle `rect` that `Mandelbrot::setScale` hands to `SDL_BlitScaled`
(lines 196-200), from the members of the engine and the new `scale`, computed in `double`;
`none` where the source has no defined value: the division by a `scale` of `0` gives an
infinity or a NaN, whose conversion to `int` is undefined, as is that of a product outside
the range of `int`. -/
def setScaleRect (m : Mandelbrot K) (scale : K) : Option SDL_Rect :=
  if scale = 0 then none
  else
    let mag := toDouble (m.scale / scale)
    (toInt (toDouble ((m.width : K) * toDouble (1 - mag)))).bind (fun w =>
      (toInt (toDouble ((m.height : K) * toDouble (1 - mag)))).bind (fun h =>
        some ⟨w.tdiv 2, h.tdiv 2, m.width - w, m.height - h⟩))

/-- The rectangle `rect` that `Mandelbrot::setScaleTo` hands to `blitScaled`
(lines 214-218), computed in `double`; `none` where the source has no defined value (a
`scale`, `width` or `height` of `0`, a product outside the range of `int`). -/
def setScaleToRect (m : Mandelbrot K) (scale px py : K) : Option SDL_Rect :=
  if scale = 0 ∨ m.width = 0 ∨ m.height = 0 then none
  else
    let mag := toDouble (m.scale / scale)
    (toInt (toDouble ((m.width : K) * toDouble (1 - mag)))).bind (fun w =>
      (toInt (toDouble ((m.height : K) * toDouble (1 - mag)))).bind (fun h =>
        (toInt (toDouble ((w : K) * toDouble (px / (m.width : K))))).bind (fun x =>
          (toInt (toDouble ((h : K) * toDouble (py / (m.height : K))))).bind (fun y =>
            some ⟨x, y, m.width - w, m.height - h⟩))))

/-- The framebuffer has the dimensions `W x H`. -/
def SurfaceFits (W H : Nat) (m : Mandelbrot K) : Prop :=
  m.surface.w = W ∧ m.surface.h = H ∧ m.surface.pixels.length = W * H

/-- The colour `drawSurface` computes for the pixel `(w, h)` (lines 294-312), from its
locals `c` and the members of the engine. -/
def pixelValue (env : Extern K) (m : Mandelbrot K) (c : Frame K) (h w : Int) : Nat :=
  pixelColor env m
    (mandelbrot (samplePoint c h w).1 (samplePoint c h w).2 m.iter).1
    (mandelbrot (samplePoint c h w).1 (samplePoint c h w).2 m.iter).2.1
    (mandelbrot (samplePoint c h w).1 (samplePoint c h w).2 m.iter).2.2

/-- The members that the colouring reads have in `s` the values they have in `m`. -/
def SameParams (m s : Mandelbrot K) : Prop :=
  s.iter = m.iter ∧ s.smooth = m.smooth ∧ s.color_idx = m.color_idx ∧
    s.color_scale = m.color_scale

/-- What a pass started on `m` keeps true of the engine: cache and framebuffer of the
dimensions `W x H`, no cancellation pending, the colouring members of `m`. -/
def PassInv (W H : Nat) (m s : Mandelbrot K) : Prop :=
  s.Drawable W H ∧ s.SurfaceFits W H ∧ SameParams m s

/-- The pixel `j = (w, h)` lies in the grid `W x H`. -/
def InGrid (W H : Nat) (j : Int × Int) : Prop :=
  0 ≤ j.1 ∧ j.1 < W ∧ 0 ≤ j.2 ∧ j.2 < H

/-- The cache record and the framebuffer value of the pixel `j = (w, h)`. -/
def observe (W : Nat) (s : Mandelbrot K) (j : Int × Int) : PixelInfo × Nat :=
  (s.render_info.get j.1 j.2, s.surface.peek (j.2 * W + j.1))

/-- What a visit of `drawSurface` makes of the record and the framebuffer value `v` of the
pixel `j = (w, h)`: the record becomes "rendered"; the value is kept when the record was
"rendered" and is the computed colour otherwise. -/
def visited (env : Extern K) (m : Mandelbrot K) (c : Frame K) (j : Int × Int)
    (v : PixelInfo × Nat) : PixelInfo × Nat :=
  (⟨true⟩, if v.1.rendered then v.2 else pixelValue env m c j.2 j.1)

/-- A serial `drawSurface` during which another thread raises `stop_all` after the loop has
tested the flag for row `k - 1` and before it tests it for row `k`: the rows before `k` are
drawn with the flag down, and the loop meets the raised flag at the start of row `k`. -/
def drawSurfaceCancelledAt (env : Extern K) (m : Mandelbrot K) (k : Nat) : Mandelbrot K :=
  let c := m.frame
  let s := drawRows env c (countUp 0 k) m
  drawRows env c (countUp k m.height) { s with stop_all := true }

end Mandelbrot

namespace Tutorial6

/-- A block `r` of `tbb::blocked_range2d<int, int>`: the rows
`[r.rows().begin(), r.rows().end())` and the columns `[r.cols().begin(), r.cols().end())`. -/
structure Block where
  rows_begin : Int
  rows_end : Int
  cols_begin : Int
  cols_end : Int
deriving DecidableEq, Repr

/-- The loop over the rows `hs` of a block in the body of the `parallel_for` of
`MandelbrotTBB::drawSurface` (`Tutorial6/mandelbrot_tbb.cpp`, lines 59-93): the test of
`stop_all`, then the columns of the block.  The statements for one pixel (lines 66-91) are
those of lines 289-314 of `Mandelbrot::drawSurface`, which `drawPixel` embeds. -/
def drawBlockRows (env : Extern K) (c : Frame K) (r : Block) :
    List Int → Mandelbrot K → Mandelbrot K
  | [], m => m
  | h :: hs, m =>
    if m.stop_all then m
    else drawBlockRows env c r hs
      ((countUp r.cols_begin r.cols_end).foldl (fun s w => Mandelbrot.drawPixel env s c h w) m)

/-- The body of the `parallel_for` for the block `r`. -/
def drawBlock (env : Extern K) (c : Frame K) (r : Block) (m : Mandelbrot K) : Mandelbrot K :=
  drawBlockRows env c r (countUp r.rows_begin r.rows_end) m

/-- The method `MandelbrotTBB::drawSurface`; `blocks` are the blocks into which
`parallel_for` has split the range `(0, height, 0, width)`, in the order in which they are
run. -/
def drawSurface (env : Extern K) (m : Mandelbrot K) (blocks : List Block) : Mandelbrot K :=
  blocks.foldl (fun s r => drawBlock env m.frame r s) m

/-- The blocks lie in the grid `W x H` and every pixel of the grid lies in one of them. -/
def Covers (W H : Nat) (blocks : List Block) : Prop :=
  (∀ r ∈ blocks, 0 ≤ r.rows_begin ∧ r.rows_end ≤ H ∧ 0 ≤ r.cols_begin ∧ r.cols_end ≤ W) ∧
  ∀ w h : Int, 0 ≤ w → w < W → 0 ≤ h → h < H →
    ∃ r ∈ blocks, r.rows_begin ≤ h ∧ h < r.rows_end ∧ r.cols_begin ≤ w ∧ w < r.cols_end

end Tutorial6

end Engine

/-! ## Sample data for evaluating the definitions -/

/-- A stand-in for the outside world: surfaces of zeros, blits and fills that leave the
destination as it is, a palette of zeros. -/
def sampleExtern : Extern ℚ :=
  { SDL_CreateRGBSurface := fun w h => ⟨w, h, List.replicate (w * h).toNat 0⟩,
    SDL_BlitSurface := fun _ dst _ => dst,
    SDL_FillRect := fun dst _ _ => dst,
    SDL_BlitScaled := fun _ dst _ => dst,
    colormap := fun _ _ => 0,
    lerp_color := fun col1 _ _ => col1,
    log := fun x => x }

/-- A `3 x 2` engine at rest, not yet redrawn since its last mutation, whose cache holds
the flags `1 0 1` (row 0) and `0 1 1` (row 1). -/
def sampleEngine : Mandelbrot ℚ :=
  { render_info := ⟨some [⟨true⟩, ⟨false⟩, ⟨true⟩, ⟨false⟩, ⟨true⟩, ⟨true⟩], 3, 2⟩,
    surface_temp := ⟨3, 2, [0, 0, 0, 0, 0, 0]⟩,
    surface := ⟨3, 2, [4278190080, 0, 4278190080, 0, 4278190080, 4278190080]⟩,
    width := 3,
    height := 2,
    aspect := 3 / 2,
    pos_x := 0,
    pos_y := 0,
    scale := 1,
    iter := 2,
    color_idx := 1,
    color_scale := 4,
    smooth := true,
    future := Future.idle,
    is_rendering := false,
    stop_all := false,
    updated := false,
    passes := 0 }

/-- A `3 x 2` engine, all of its cache "unrendered", on which nothing has been drawn. -/
def sampleFresh : Mandelbrot ℚ :=
  { render_info := ⟨some [⟨false⟩, ⟨false⟩, ⟨false⟩, ⟨false⟩, ⟨false⟩, ⟨false⟩], 3, 2⟩,
    surface_temp := ⟨3, 2, [0, 0, 0, 0, 0, 0]⟩,
    surface := ⟨3, 2, [0, 0, 0, 0, 0, 0]⟩,
    width := 3,
    height := 2,
    aspect := 3 / 2,
    pos_x := 0,
    pos_y := 0,
    scale := 1,
    iter := 2,
    color_idx := 1,
    color_scale := 4,
    smooth := true,
    future := Future.idle,
    is_rendering := false,
    stop_all := false,
    updated := false,
    passes := 0 }

/-- The engine `sampleFresh` after `render(true)` and two steps of the background task: the
pass is in flight, has drawn row 0 and is about to start row 1. -/
def sampleBusy : Mandelbrot ℚ :=
  { render_info := ⟨some [⟨true⟩, ⟨true⟩, ⟨true⟩, ⟨false⟩, ⟨false⟩, ⟨false⟩], 3, 2⟩,
    surface_temp := ⟨3, 2, [0, 0, 0, 0, 0, 0]⟩,
    surface := ⟨3, 2, [4278190080, 4278190080, 4278190080, 0, 0, 0]⟩,
    width := 3,
    height := 2,
    aspect := 3 / 2,
    pos_x := 0,
    pos_y := 0,
    scale := 1,
    iter := 2,
    color_idx := 1,
    color_scale := 4,
    smooth := true,
    future := Future.running ⟨-3, 2, 2, 2⟩ 1,
    is_rendering := true,
    stop_all := false,
    updated := true,
    passes := 1 }

/-- A viewport of Tutorial 2 for a `3 x 2` window. -/
def Tutorial2.sampleEngine : Tutorial2.Mandelbrot ℚ :=
  { width := 3, height := 2, aspect := 3 / 2, pos_x := 0, pos_y := 0, scale := 1, iter := 10,
    updated := false }

/-- The engine of the scenario: a new engine for a `4 x 4` window (scale 1, centre
`(0, 0)`, aspect 1) set to 10 iterations. -/
def scenarioEngine : Mandelbrot ℚ :=
  (Mandelbrot.new sampleExtern 4 4).setIteration sampleExtern 10

/-- A `3 x 2` cache all of whose records are "rendered". -/
def sampleCache : RenderInfo :=
  ⟨some [⟨true⟩, ⟨true⟩, ⟨true⟩, ⟨true⟩, ⟨true⟩, ⟨true⟩], 3, 2⟩

/-- A split of the `3 x 2` grid into three blocks, in an order that is not row-major. -/
def Tutorial6.sampleBlocks : List Tutorial6.Block :=
  [⟨1, 2, 0, 3⟩, ⟨0, 1, 2, 3⟩, ⟨0, 1, 0, 2⟩]

/-- A `2 x 2` surface holding four different colours. -/
def sampleSource : SDL_Surface := ⟨2, 2, [1, 2, 3, 4]⟩

/-- A `2 x 2` surface holding the colour `9` everywhere. -/
def sampleStaging : SDL_Surface := ⟨2, 2, [9, 9, 9, 9]⟩

/-- A new engine for a window of `1280 x 720` pixels. -/
def sampleWindow : Mandelbrot ℚ := Mandelbrot.new sampleExtern 1280 720

/-- A surface of `16777217 x 1` pixels (`2 ^ 24 + 1` columns) holding the colour `1`
everywhere. -/
def wideSource : SDL_Surface := ⟨16777217, 1, List.replicate 16777217 1⟩

/-- A surface of `16777217 x 1` pixels holding the colour `0` everywhere. -/
def wideStaging : SDL_Surface := ⟨16777217, 1, List.replicate 16777217 0⟩

/-! ## The array operations -/

theorem store_length (m : List PixelInfo) (a : Int) (v : PixelInfo) :
    (store m a v).length = m.length := by
  unfold store; split <;> simp

theorem load_store (m : List PixelInfo) (a b : Int) (v : PixelInfo) :
    load (store m a v) b = if a = b ∧ 0 ≤ a ∧ a < m.length then v else load m b := by
  unfold load store
  by_cases ha : 0 ≤ a
  · by_cases hb : 0 ≤ b
    · simp only [ha, hb, if_true, true_and]
      rw [List.getD_eq_getElem?_getD, List.getD_eq_getElem?_getD, List.getElem?_set]
      by_cases hab : a = b
      · subst hab
        by_cases hl : a < m.length
        · have : a.toNat < m.length := by omega
          simp [hl, this]
        · have : ¬ a.toNat < m.length := by omega
          have h2 : m[a.toNat]? = none := by
            apply List.getElem?_eq_none; omega
          simp [hl, this, h2]
      · have : ¬ a.toNat = b.toNat := by omega
        simp [hab, this]
    · have : ¬ a = b := by omega
      simp [ha, hb, this]
  · simp [ha]

theorem fill_n_length (m : List PixelInfo) (first : Int) (v : PixelInfo) (n : Nat) :
    (fill_n m first v n).length = m.length := by
  induction n generalizing m first with
  | zero => rfl
  | succ n ih => simp [fill_n, ih, store_length]

theorem load_fill_n (m : List PixelInfo) (first : Int) (v : PixelInfo) (n : Nat) (j : Int)
    (h0 : 0 ≤ first) (hn : first + n ≤ m.length) :
    load (fill_n m first v n) j = if first ≤ j ∧ j < first + n then v else load m j := by
  induction n generalizing m first with
  | zero =>
    simp only [fill_n]
    split_ifs with h
    · exfalso; push_cast at h; omega
    · rfl
  | succ n ih =>
    simp only [fill_n]
    push_cast at hn
    rw [ih _ _ (by omega) (by rw [store_length]; omega), load_store]
    push_cast
    split_ifs <;> first | rfl | (exfalso; omega)

theorem copyForward_length (m : List PixelInfo) (first result : Int) (n : Nat) :
    (copyForward m first result n).length = m.length := by
  induction n generalizing m first result with
  | zero => rfl
  | succ n ih => simp [copyForward, ih, store_length]

theorem copyBackward_length (m : List PixelInfo) (last result : Int) (n : Nat) :
    (copyBackward m last result n).length = m.length := by
  induction n generalizing m last result with
  | zero => rfl
  | succ n ih => simp [copyBackward, ih, store_length]

theorem load_copyForward (m : List PixelInfo) (first result : Int) (n : Nat) (j : Int)
    (hr : 0 ≤ result) (hrn : result + n ≤ m.length)
    (hdir : result ≤ first ∨ first + n ≤ result) :
    load (copyForward m first result n) j =
      if result ≤ j ∧ j < result + n then load m (j - result + first) else load m j := by
  induction n generalizing m first result with
  | zero =>
    simp only [copyForward]
    split_ifs with h
    · exfalso; push_cast at h; omega
    · rfl
  | succ n ih =>
    simp only [copyForward]
    push_cast at hrn hdir
    rw [ih _ _ _ (by omega) (by rw [store_length]; omega) (by omega)]
    simp only [load_store]
    push_cast
    split_ifs <;> first | rfl | (exfalso; omega) | (congr 1; omega)

theorem load_copyBackward (m : List PixelInfo) (last result : Int) (n : Nat) (j : Int)
    (hr : 0 ≤ result - n) (hrn : result ≤ m.length)
    (hdir : last ≤ result ∨ result ≤ last - n) :
    load (copyBackward m last result n) j =
      if result - n ≤ j ∧ j < result then load m (j - result + last) else load m j := by
  induction n generalizing m last result with
  | zero =>
    simp only [copyBackward]
    split_ifs with h
    · exfalso; push_cast at h; omega
    · rfl
  | succ n ih =>
    simp only [copyBackward]
    push_cast at hr hdir
    rw [ih _ _ _ (by omega) (by rw [store_length]; omega) (by omega)]
    simp only [load_store]
    push_cast
    split_ifs <;> first | rfl | (exfalso; omega) | (congr 1; omega)


/-! ## The loops over rows -/

theorem mem_countDown (a h : Int) : h ∈ countDown a ↔ 0 ≤ h ∧ h ≤ a := by
  unfold countDown
  simp only [List.mem_map, List.mem_range]
  constructor
  · rintro ⟨i, hi, rfl⟩; omega
  · rintro ⟨h0, h1⟩
    exact ⟨(a - h).toNat, by omega, by omega⟩

theorem mem_countUp (a b h : Int) : h ∈ countUp a b ↔ a ≤ h ∧ h < b := by
  unfold countUp
  simp only [List.mem_map, List.mem_range]
  constructor
  · rintro ⟨i, hi, rfl⟩; omega
  · rintro ⟨h0, h1⟩
    exact ⟨(h - a).toNat, by omega, by omega⟩

theorem pairwise_countDown (a : Int) : (countDown a).Pairwise (fun h1 h2 => h2 < h1) := by
  unfold countDown
  rw [List.pairwise_map]
  apply List.Pairwise.imp _ (List.pairwise_lt_range _)
  intro i j hij
  omega

theorem pairwise_countUp (a b : Int) : (countUp a b).Pairwise (fun h1 h2 => h1 < h2) := by
  unfold countUp
  rw [List.pairwise_map]
  apply List.Pairwise.imp _ (List.pairwise_lt_range _)
  intro i j hij
  omega

theorem countUp_nil (a b : Int) (h : b ≤ a) : countUp a b = [] := by
  unfold countUp
  have : (b - a).toNat = 0 := by omega
  rw [this]; rfl

theorem countUp_cons (a b : Int) (h : a < b) : countUp a b = a :: countUp (a + 1) b := by
  unfold countUp
  obtain ⟨n, hn⟩ : ∃ n : Nat, (b - a).toNat = n + 1 := ⟨(b - a).toNat - 1, by omega⟩
  have h2 : (b - (a + 1)).toNat = n := by omega
  rw [hn, h2, List.range_succ_eq_map, List.map_cons, List.map_map]
  simp only [Nat.cast_zero, add_zero, List.cons.injEq, true_and]
  apply List.map_congr_left
  intro i _
  simp only [Function.comp, Nat.cast_succ]
  ring

/-- Two segments that lie inside rows `r` and `s` of a grid of width `W` and share an
offset lie in the same row. -/
theorem same_row {W a b c d r s j : Int} (ha : 0 ≤ a) (hb : b ≤ W) (hc : 0 ≤ c) (hd : d ≤ W)
    (h1 : r * W + a ≤ j) (h2 : j < r * W + b) (h3 : s * W + c ≤ j) (h4 : j < s * W + d) :
    r = s := by
  have hW : 0 ≤ W := by linarith
  rcases lt_trichotomy r s with h | h | h
  · exfalso
    have := mul_le_mul_of_nonneg_right (show r + 1 ≤ s by omega) hW
    linarith
  · exact h
  · exfalso
    have := mul_le_mul_of_nonneg_right (show s + 1 ≤ r by omega) hW
    linarith

/-- A loop over `rows` whose body copies, for the row `h`, the `n` elements that end up at
`dst h ..` from `D` places before them, never reading what an earlier pass wrote. -/
theorem foldl_shift (op : List PixelInfo → Int → List PixelInfo) (n D : Int) (dst : Int → Int)
    (len : Nat) (rows : List Int)
    (hop : ∀ m h, h ∈ rows → m.length = len → (op m h).length = len ∧
      ∀ j, load (op m h) j = if dst h ≤ j ∧ j < dst h + n then load m (j - D) else load m j)
    (hpw : rows.Pairwise (fun h1 h2 =>
      ∀ j, dst h2 ≤ j → j < dst h2 + n → ¬ (dst h1 ≤ j - D ∧ j - D < dst h1 + n)))
    (m0 : List PixelInfo) (hlen : m0.length = len) :
    (rows.foldl op m0).length = len ∧
    (∀ h ∈ rows, ∀ j, dst h ≤ j → j < dst h + n →
      load (rows.foldl op m0) j = load m0 (j - D)) ∧
    (∀ j, (∀ h ∈ rows, ¬ (dst h ≤ j ∧ j < dst h + n)) →
      load (rows.foldl op m0) j = load m0 j) := by
  induction rows generalizing m0 with
  | nil =>
    refine ⟨hlen, ?_, ?_⟩
    · intro h hh; simp at hh
    · intro j _; rfl
  | cons h t ih =>
    obtain ⟨hl1, hs1⟩ := hop m0 h (List.mem_cons_self _ _) hlen
    rw [List.pairwise_cons] at hpw
    obtain ⟨hl, ha, hb⟩ := ih (fun m k hk => hop m k (List.mem_cons_of_mem _ hk)) hpw.2
      (op m0 h) hl1
    simp only [List.foldl_cons]
    refine ⟨hl, ?_, ?_⟩
    · intro k hk j hj1 hj2
      by_cases hex : ∃ k2 ∈ t, dst k2 ≤ j ∧ j < dst k2 + n
      · obtain ⟨k2, hk2, hj3, hj4⟩ := hex
        rw [ha k2 hk2 j hj3 hj4, hs1, if_neg (hpw.1 k2 hk2 j hj3 hj4)]
      · have hno : ∀ k2 ∈ t, ¬ (dst k2 ≤ j ∧ j < dst k2 + n) := by
          intro k2 hk2 hc; exact hex ⟨k2, hk2, hc⟩
        rw [hb j hno, hs1]
        rcases List.mem_cons.mp hk with rfl | hk'
        · rw [if_pos ⟨hj1, hj2⟩]
        · exact absurd ⟨hj1, hj2⟩ (hno k hk')
    · intro j hj
      rw [hb j (fun k hk => hj k (List.mem_cons_of_mem _ hk)), hs1,
        if_neg (hj h (List.mem_cons_self _ _))]

/-- A loop over `rows` whose body fills, for the row `h`, the `n` elements from `lo h`. -/
theorem foldl_fill (v : PixelInfo) (n : Nat) (lo : Int → Int) (len : Nat) (rows : List Int)
    (hin : ∀ h ∈ rows, 0 ≤ lo h ∧ lo h + n ≤ len)
    (m0 : List PixelInfo) (hlen : m0.length = len) :
    (rows.foldl (fun m h => fill_n m (lo h) v n) m0).length = len ∧
    (∀ h ∈ rows, ∀ j, lo h ≤ j → j < lo h + n →
      load (rows.foldl (fun m h => fill_n m (lo h) v n) m0) j = v) ∧
    (∀ j, (∀ h ∈ rows, ¬ (lo h ≤ j ∧ j < lo h + n)) →
      load (rows.foldl (fun m h => fill_n m (lo h) v n) m0) j = load m0 j) := by
  induction rows generalizing m0 with
  | nil =>
    refine ⟨hlen, ?_, ?_⟩
    · intro h hh; simp at hh
    · intro j _; rfl
  | cons h t ih =>
    obtain ⟨h0, h1⟩ := hin h (List.mem_cons_self _ _)
    have hl1 : (fill_n m0 (lo h) v n).length = len := by rw [fill_n_length, hlen]
    obtain ⟨hl, ha, hb⟩ := ih (fun k hk => hin k (List.mem_cons_of_mem _ hk))
      (fill_n m0 (lo h) v n) hl1
    simp only [List.foldl_cons]
    refine ⟨hl, ?_, ?_⟩
    · intro k hk j hj1 hj2
      by_cases hex : ∃ k2 ∈ t, lo k2 ≤ j ∧ j < lo k2 + n
      · obtain ⟨k2, hk2, hj3, hj4⟩ := hex
        exact ha k2 hk2 j hj3 hj4
      · have hno : ∀ k2 ∈ t, ¬ (lo k2 ≤ j ∧ j < lo k2 + n) := by
          intro k2 hk2 hc; exact hex ⟨k2, hk2, hc⟩
        rw [hb j hno, load_fill_n _ _ _ _ _ h0 (by rw [hlen]; exact h1)]
        rcases List.mem_cons.mp hk with rfl | hk'
        · rw [if_pos ⟨hj1, hj2⟩]
        · exact absurd ⟨hj1, hj2⟩ (hno k hk')
    · intro j hj
      rw [hb j (fun k hk => hj k (List.mem_cons_of_mem _ hk)),
        load_fill_n _ _ _ _ _ h0 (by rw [hlen]; exact h1),
        if_neg (hj h (List.mem_cons_self _ _))]

/-- One pass of the loops of `RenderInfo::move` that use `std::move_backward`
(`0 ≤ dx`): the row `h` is copied to the row `h + dy`, `dx` places to the right. -/
theorem move_backward_row (W H dx dy h : Int) (len : Nat) (m : List PixelInfo)
    (hlen : (len : Int) = W * H) (hm : m.length = len) (h0 : 0 ≤ dx) (h1 : dx ≤ W)
    (hh0 : 0 ≤ h + dy) (hhH : h + dy < H) :
    (std_move_backward m (h * W + 0) (h * W + (W - dx)) ((h + dy) * W + W)).length = len ∧
    ∀ j, load (std_move_backward m (h * W + 0) (h * W + (W - dx)) ((h + dy) * W + W)) j =
      if (h + dy) * W + dx ≤ j ∧ j < (h + dy) * W + dx + (W - dx)
      then load m (j - (dy * W + dx)) else load m j := by
  unfold std_move_backward
  have hW : 0 ≤ W := by linarith
  have hn : (((h * W + (W - dx)) - (h * W + 0)).toNat : Int) = W - dx := by
    rw [Int.toNat_of_nonneg (by linarith)]; ring
  have e1 := mul_le_mul_of_nonneg_right (show h + dy + 1 ≤ H by omega) hW
  have e2 := mul_nonneg hh0 hW
  refine ⟨by rw [copyBackward_length, hm], fun j => ?_⟩
  have hdir : h * W + (W - dx) ≤ (h + dy) * W + W ∨
      (h + dy) * W + W ≤ h * W + (W - dx) - (W - dx) := by
    rcases le_or_lt 0 dy with hd | hd
    · left
      have := mul_nonneg hd hW
      linarith
    · right
      have := mul_le_mul_of_nonneg_right (show dy + 1 ≤ 0 by omega) hW
      linarith
  rw [load_copyBackward _ _ _ _ _ (by rw [hn]; linarith) (by rw [hm, hlen]; linarith)
    (by rw [hn]; exact hdir), hn]
  have a1 : (h + dy) * W + W - (W - dx) = (h + dy) * W + dx := by ring
  have a2 : (h + dy) * W + dx + (W - dx) = (h + dy) * W + W := by ring
  have a3 : j - ((h + dy) * W + W) + (h * W + (W - dx)) = j - (dy * W + dx) := by ring
  rw [a1, a2, a3]

/-- One pass of the loops of `RenderInfo::move` that use `std::move` (`dx ≤ 0`): the row
`h` is copied to the row `h + dy`, `-dx` places to the left. -/
theorem move_forward_row (W H dx dy h : Int) (len : Nat) (m : List PixelInfo)
    (hlen : (len : Int) = W * H) (hm : m.length = len) (h0 : dx ≤ 0) (h1 : -dx ≤ W)
    (hh0 : 0 ≤ h + dy) (hhH : h + dy < H) :
    (std_move m (h * W + -dx) (h * W + W) ((h + dy) * W + 0)).length = len ∧
    ∀ j, load (std_move m (h * W + -dx) (h * W + W) ((h + dy) * W + 0)) j =
      if (h + dy) * W + 0 ≤ j ∧ j < (h + dy) * W + 0 + (W + dx)
      then load m (j - (dy * W + dx)) else load m j := by
  unfold std_move
  have hW : 0 ≤ W := by linarith
  have hn : (((h * W + W) - (h * W + -dx)).toNat : Int) = W + dx := by
    rw [Int.toNat_of_nonneg (by linarith)]; ring
  have e1 := mul_le_mul_of_nonneg_right (show h + dy + 1 ≤ H by omega) hW
  have e2 := mul_nonneg hh0 hW
  refine ⟨by rw [copyForward_length, hm], fun j => ?_⟩
  have hdir : (h + dy) * W + 0 ≤ h * W + -dx ∨
      h * W + -dx + (W + dx) ≤ (h + dy) * W + 0 := by
    rcases le_or_lt dy 0 with hd | hd
    · left
      have := mul_le_mul_of_nonneg_right hd hW
      linarith
    · right
      have := mul_le_mul_of_nonneg_right (show 1 ≤ dy by omega) hW
      linarith
  rw [load_copyForward _ _ _ _ _ (by linarith) (by rw [hn, hm, hlen]; linarith)
    (by rw [hn]; exact hdir), hn]
  have a3 : j - ((h + dy) * W + 0) + (h * W + -dx) = j - (dy * W + dx) := by ring
  rw [a3]

/-- The loops of `RenderInfo::move` that use `std::move_backward`, over any list of rows in
which no row is written before it is read. -/
theorem shift_backward_rows (W H dx dy : Int) (len : Nat) (rows : List Int)
    (p : List PixelInfo) (hlen : (len : Int) = W * H) (hp : p.length = len)
    (h0 : 0 ≤ dx) (h1 : dx ≤ W) (hrows : ∀ h ∈ rows, 0 ≤ h + dy ∧ h + dy < H)
    (hpw : rows.Pairwise (fun k1 k2 => k2 ≠ k1 + dy)) :
    (rows.foldl (fun m h =>
      std_move_backward m (h * W + 0) (h * W + (W - dx)) ((h + dy) * W + W)) p).length = len ∧
    ∀ h ∈ rows, ∀ x, dx ≤ x → x < W →
      load (rows.foldl (fun m h =>
        std_move_backward m (h * W + 0) (h * W + (W - dx)) ((h + dy) * W + W)) p)
        ((h + dy) * W + x) = load p (h * W + (x - dx)) := by
  obtain ⟨hl, ha, -⟩ := foldl_shift
    (fun m h => std_move_backward m (h * W + 0) (h * W + (W - dx)) ((h + dy) * W + W))
    (W - dx) (dy * W + dx) (fun h => (h + dy) * W + dx) len rows
    (fun m h hh hm => move_backward_row W H dx dy h len m hlen hm h0 h1
      (hrows h hh).1 (hrows h hh).2)
    (by
      apply List.Pairwise.imp _ hpw
      intro k1 k2 hne j hj1 hj2 hc
      dsimp only at hj1 hj2 hc
      apply hne
      exact same_row (W := W) (a := 0) (b := W - dx) (c := dx) (d := W) (j := j - (dy * W + dx))
        le_rfl (by linarith) h0 le_rfl (by linarith) (by linarith) (by linarith [hc.1])
        (by linarith [hc.2]))
    p hp
  refine ⟨hl, fun h hh x hx1 hx2 => ?_⟩
  rw [ha h hh _ (by linarith) (by linarith)]
  congr 1
  ring

/-- The loops of `RenderInfo::move` that use `std::move`, over any list of rows in which no
row is written before it is read. -/
theorem shift_forward_rows (W H dx dy : Int) (len : Nat) (rows : List Int)
    (p : List PixelInfo) (hlen : (len : Int) = W * H) (hp : p.length = len)
    (h0 : dx ≤ 0) (h1 : -dx ≤ W) (hrows : ∀ h ∈ rows, 0 ≤ h + dy ∧ h + dy < H)
    (hpw : rows.Pairwise (fun k1 k2 => k2 ≠ k1 + dy)) :
    (rows.foldl (fun m h =>
      std_move m (h * W + -dx) (h * W + W) ((h + dy) * W + 0)) p).length = len ∧
    ∀ h ∈ rows, ∀ x, 0 ≤ x → x < W + dx →
      load (rows.foldl (fun m h =>
        std_move m (h * W + -dx) (h * W + W) ((h + dy) * W + 0)) p)
        ((h + dy) * W + x) = load p (h * W + (x - dx)) := by
  obtain ⟨hl, ha, -⟩ := foldl_shift
    (fun m h => std_move m (h * W + -dx) (h * W + W) ((h + dy) * W + 0))
    (W + dx) (dy * W + dx) (fun h => (h + dy) * W + 0) len rows
    (fun m h hh hm => move_forward_row W H dx dy h len m hlen hm h0 h1
      (hrows h hh).1 (hrows h hh).2)
    (by
      apply List.Pairwise.imp _ hpw
      intro k1 k2 hne j hj1 hj2 hc
      dsimp only at hj1 hj2 hc
      apply hne
      exact same_row (W := W) (a := -dx) (b := W) (c := 0) (d := W + dx)
        (j := j - (dy * W + dx))
        (by linarith) le_rfl le_rfl (by linarith) (by linarith) (by linarith) (by linarith [hc.1])
        (by linarith [hc.2]))
    p hp
  refine ⟨hl, fun h hh x hx1 hx2 => ?_⟩
  rw [ha h hh _ (by linarith) (by linarith)]
  congr 1
  ring

/-- The effect of `RenderInfo::move` on the records whose source lies in the grid. -/
theorem RenderInfo.move_get (r : RenderInfo) (p : List PixelInfo) (dpx dpy : Int)
    (hp : r.pixels = some p) (hlen : p.length = r.width * r.height)
    (hdx : |dpx| ≤ r.width) :
    ∃ q, r.move dpx dpy = { r with pixels := some q } ∧ q.length = r.width * r.height ∧
      ∀ x y : Int, 0 ≤ x → x < r.width → 0 ≤ y → y < r.height →
        0 ≤ x - dpx → x - dpx < r.width → 0 ≤ y - dpy → y - dpy < r.height →
        load q (y * r.width + x) = load p ((y - dpy) * r.width + (x - dpx)) := by
  have hlen2 : ((r.width * r.height : Nat) : Int) = (r.width : Int) * (r.height : Int) := by
    push_cast; ring
  rw [abs_le] at hdx
  unfold RenderInfo.move
  simp only [hp, RenderInfo.atOffset]
  by_cases c1 : dpx ≥ 0 ∧ dpy ≥ 0
  · rw [if_pos c1]
    obtain ⟨hl, ha⟩ := shift_backward_rows r.width r.height dpx dpy _
      (countDown (r.height - dpy - 1)) p hlen2 hlen c1.1 hdx.2
      (by intro h hh; rw [mem_countDown] at hh; omega)
      (by
        apply List.Pairwise.imp _ (pairwise_countDown _)
        intro k1 k2 hk; omega)
    refine ⟨_, rfl, hl, fun x y hx0 hx1 hy0 hy1 hsx0 hsx1 hsy0 hsy1 => ?_⟩
    have := ha (y - dpy) (by rw [mem_countDown]; omega) x (by omega) hx1
    rw [← this]
    congr 2
    ring
  rw [if_neg c1]
  by_cases c2 : dpx ≥ 0 ∧ dpy ≤ 0
  · rw [if_pos c2]
    obtain ⟨hl, ha⟩ := shift_backward_rows r.width r.height dpx dpy _
      (countUp (-dpy) r.height) p hlen2 hlen c2.1 hdx.2
      (by intro h hh; rw [mem_countUp] at hh; omega)
      (by
        apply List.Pairwise.imp _ (pairwise_countUp _ _)
        intro k1 k2 hk; omega)
    refine ⟨_, rfl, hl, fun x y hx0 hx1 hy0 hy1 hsx0 hsx1 hsy0 hsy1 => ?_⟩
    have := ha (y - dpy) (by rw [mem_countUp]; omega) x (by omega) hx1
    rw [← this]
    congr 2
    ring
  rw [if_neg c2]
  by_cases c3 : dpx ≤ 0 ∧ dpy ≥ 0
  · rw [if_pos c3]
    obtain ⟨hl, ha⟩ := shift_forward_rows r.width r.height dpx dpy _
      (countDown (r.height - dpy - 1)) p hlen2 hlen c3.1 (by omega)
      (by intro h hh; rw [mem_countDown] at hh; omega)
      (by
        apply List.Pairwise.imp _ (pairwise_countDown _)
        intro k1 k2 hk; omega)
    refine ⟨_, rfl, hl, fun x y hx0 hx1 hy0 hy1 hsx0 hsx1 hsy0 hsy1 => ?_⟩
    have := ha (y - dpy) (by rw [mem_countDown]; omega) x hx0 (by omega)
    rw [← this]
    congr 2
    ring
  rw [if_neg c3]
  have c4 : dpx ≤ 0 ∧ dpy ≤ 0 := by omega
  rw [if_pos c4]
  obtain ⟨hl, ha⟩ := shift_forward_rows r.width r.height dpx dpy _
    (countUp (-dpy) r.height) p hlen2 hlen c4.1 (by omega)
    (by intro h hh; rw [mem_countUp] at hh; omega)
    (by
      apply List.Pairwise.imp _ (pairwise_countUp _ _)
      intro k1 k2 hk; omega)
  refine ⟨_, rfl, hl, fun x y hx0 hx1 hy0 hy1 hsx0 hsx1 hsy0 hsy1 => ?_⟩
  have := ha (y - dpy) (by rw [mem_countUp]; omega) x hx0 (by omega)
  rw [← this]
  congr 2
  ring

theorem SDL_clamp_eq (x b : Int) (hb : 0 ≤ b) : SDL_clamp x 0 b = max 0 (min x b) := by
  unfold SDL_clamp
  split_ifs <;> omega

/-- The effect of `RenderInfo::fillRect` for a rectangle whose left edge lies in the
grid. -/
theorem RenderInfo.fillRect_get (r : RenderInfo) (p : List PixelInfo) (rect : SDL_Rect)
    (info : PixelInfo) (hp : r.pixels = some p) (hlen : p.length = r.width * r.height)
    (hrx0 : 0 ≤ rect.x) (hrx1 : rect.x ≤ r.width) :
    ∃ q, r.fillRect rect info = { r with pixels := some q } ∧
      q.length = r.width * r.height ∧
      ∀ x y : Int, 0 ≤ x → x < r.width → 0 ≤ y → y < r.height →
        load q (y * r.width + x) =
          if rect.y ≤ y ∧ y < rect.y + rect.h ∧ rect.x ≤ x ∧ x < rect.x + rect.w then info
          else load p (y * r.width + x) := by
  have hW : (0 : Int) ≤ r.width := Int.ofNat_nonneg _
  have hH : (0 : Int) ≤ r.height := Int.ofNat_nonneg _
  unfold RenderInfo.fillRect
  simp only [hp, RenderInfo.atOffset]
  rw [SDL_clamp_eq _ _ hH, SDL_clamp_eq _ _ hH, SDL_clamp_eq _ _ hW, SDL_clamp_eq _ _ hW]
  have hwmin : max 0 (min rect.x (r.width : Int)) = rect.x := by omega
  rw [hwmin]
  obtain ⟨hl, ha, hb⟩ := foldl_fill info
    (max 0 (min (rect.x + rect.w) (r.width : Int)) - rect.x).toNat
    (fun h => h * (r.width : Int) + rect.x) (r.width * r.height)
    (countUp (max 0 (min rect.y (r.height : Int)))
      (max 0 (min (rect.y + rect.h) (r.height : Int))))
    (by
      intro h hh
      rw [mem_countUp] at hh
      have e1 := mul_le_mul_of_nonneg_right (show h + 1 ≤ (r.height : Int) by omega) hW
      have e2 := mul_nonneg (show 0 ≤ h by omega) hW
      have e3 : ((max 0 (min (rect.x + rect.w) (r.width : Int)) - rect.x).toNat : Int)
          ≤ r.width - rect.x := by omega
      push_cast
      constructor
      · linarith
      · linarith)
    p hlen
  refine ⟨_, rfl, hl, fun x y hx0 hx1 hy0 hy1 => ?_⟩
  by_cases hin : rect.y ≤ y ∧ y < rect.y + rect.h ∧ rect.x ≤ x ∧ x < rect.x + rect.w
  · rw [if_pos hin]
    apply ha y (by rw [mem_countUp]; omega)
    · linarith
    · have e3 : x - rect.x <
          ((max 0 (min (rect.x + rect.w) (r.width : Int)) - rect.x).toNat : Int) := by omega
      linarith
  · rw [if_neg hin]
    apply hb
    rintro h hh ⟨hc1, hc2⟩
    rw [mem_countUp] at hh
    apply hin
    have e3 : ((max 0 (min (rect.x + rect.w) (r.width : Int)) - rect.x).toNat : Int)
        ≤ r.width - rect.x := by omega
    have hy : h = y := same_row (W := (r.width : Int)) (a := rect.x) (b := r.width) (c := x)
      (d := x + 1) (j := y * r.width + x) hrx0 le_rfl hx0 (by omega) hc1 (by linarith)
      le_rfl (by linarith)
    subst hy
    have e4 : x - rect.x <
        ((max 0 (min (rect.x + rect.w) (r.width : Int)) - rect.x).toNat : Int) := by linarith
    omega

/-- A loop whose passes keep an invariant, never lose a property `R` of an offset once it
holds, and establish it for the offsets their element covers. -/
theorem foldl_cover {S α : Type} (step : S → α → S) (I : S → Prop) (R : S → Int → Prop)
    (covers : α → Int → Prop) (xs : List α)
    (hstep : ∀ s a, a ∈ xs → I s →
      I (step s a) ∧ (∀ j, R s j → R (step s a) j) ∧ (∀ j, covers a j → R (step s a) j))
    (s0 : S) (h0 : I s0) :
    I (xs.foldl step s0) ∧ (∀ j, R s0 j → R (xs.foldl step s0) j) ∧
      (∀ a ∈ xs, ∀ j, covers a j → R (xs.foldl step s0) j) := by
  induction xs generalizing s0 with
  | nil => exact ⟨h0, fun _ h => h, fun a ha => by simp at ha⟩
  | cons x t ih =>
    obtain ⟨i1, m1, c1⟩ := hstep s0 x (List.mem_cons_self _ _) h0
    obtain ⟨i2, m2, c2⟩ := ih (fun s a ha => hstep s a (List.mem_cons_of_mem _ ha))
      (step s0 x) i1
    simp only [List.foldl_cons]
    refine ⟨i2, fun j hj => m2 j (m1 j hj), fun a ha j hj => ?_⟩
    rcases List.mem_cons.mp ha with rfl | ha'
    · exact m2 j (c1 j hj)
    · exact c2 a ha' j hj

/-- A loop whose passes keep the value of `f` keeps it. -/
theorem foldl_keeps {S α β : Type} (f : S → β) (step : S → α → S)
    (h : ∀ s a, f (step s a) = f s) (xs : List α) (s0 : S) :
    f (xs.foldl step s0) = f s0 := by
  induction xs generalizing s0 with
  | nil => rfl
  | cons x t ih => rw [List.foldl_cons, ih, h]

/-! ## The cache predicates -/

theorem mem_load {q : List PixelInfo} {v : PixelInfo} (h : v ∈ q) :
    ∃ j : Int, 0 ≤ j ∧ j < q.length ∧ load q j = v := by
  obtain ⟨i, hi, rfl⟩ := List.mem_iff_getElem.mp h
  refine ⟨i, Int.ofNat_nonneg _, by exact_mod_cast hi, ?_⟩
  unfold load
  rw [if_pos (Int.ofNat_nonneg _), Int.toNat_ofNat, List.getD_eq_getElem?_getD,
    List.getElem?_eq_getElem hi]
  rfl

theorem RenderInfo.wellFormed_iff (r : RenderInfo) :
    r.wellFormed = true ↔ ∃ p, r.pixels = some p ∧ p.length = r.width * r.height := by
  unfold RenderInfo.wellFormed
  cases r.pixels with
  | none => simp
  | some p => simp

theorem RenderInfo.allUnrendered_iff (r : RenderInfo) :
    r.allUnrendered = true ↔
      ∃ p, r.pixels = some p ∧ p.length = r.width * r.height ∧
        ∀ j : Int, 0 ≤ j → j < p.length → (load p j).rendered = false := by
  unfold RenderInfo.allUnrendered
  cases r.pixels with
  | none => simp
  | some p =>
    simp only [Bool.and_eq_true, beq_iff_eq, List.all_eq_true, Bool.not_eq_true',
      Option.some.injEq, exists_eq_left']
    constructor
    · rintro ⟨h1, h2⟩
      refine ⟨h1, fun j hj0 hj1 => ?_⟩
      apply h2
      unfold load
      rw [if_pos hj0, List.getD_eq_getElem?_getD, List.getElem?_eq_getElem (by omega)]
      exact List.getElem_mem _
    · rintro ⟨h1, h2⟩
      refine ⟨h1, fun v hv => ?_⟩
      obtain ⟨j, hj0, hj1, rfl⟩ := mem_load hv
      exact h2 j hj0 hj1

theorem RenderInfo.allRendered_iff (r : RenderInfo) :
    r.allRendered = true ↔
      ∃ p, r.pixels = some p ∧ p.length = r.width * r.height ∧
        ∀ j : Int, 0 ≤ j → j < p.length → (load p j).rendered = true := by
  unfold RenderInfo.allRendered
  cases r.pixels with
  | none => simp
  | some p =>
    simp only [Bool.and_eq_true, beq_iff_eq, List.all_eq_true,
      Option.some.injEq, exists_eq_left']
    constructor
    · rintro ⟨h1, h2⟩
      refine ⟨h1, fun j hj0 hj1 => ?_⟩
      apply h2
      unfold load
      rw [if_pos hj0, List.getD_eq_getElem?_getD, List.getElem?_eq_getElem (by omega)]
      exact List.getElem_mem _
    · rintro ⟨h1, h2⟩
      refine ⟨h1, fun v hv => ?_⟩
      obtain ⟨j, hj0, hj1, rfl⟩ := mem_load hv
      exact h2 j hj0 hj1

/-- After `reset` with the zero record a well-formed cache is all "unrendered". -/
theorem RenderInfo.reset_allUnrendered (r : RenderInfo) (h : r.wellFormed = true) :
    (r.reset PixelInfo.zero).allUnrendered = true := by
  obtain ⟨p, hp, hl⟩ := (RenderInfo.wellFormed_iff r).mp h
  rw [RenderInfo.allUnrendered_iff]
  refine ⟨fill_n p 0 PixelInfo.zero (r.width * r.height), ?_, ?_, ?_⟩
  · simp [RenderInfo.reset, hp]
  · simp [RenderInfo.reset, hp, fill_n_length, hl]
  · intro j hj0 hj1
    rw [fill_n_length] at hj1
    rw [load_fill_n _ _ _ _ _ le_rfl (by rw [hl]; omega), if_pos ⟨hj0, by omega⟩]
    rfl

theorem RenderInfo.allUnrendered_wellFormed (r : RenderInfo) (h : r.allUnrendered = true) :
    r.wellFormed = true := by
  obtain ⟨p, hp, hl, -⟩ := (RenderInfo.allUnrendered_iff r).mp h
  exact (RenderInfo.wellFormed_iff r).mpr ⟨p, hp, hl⟩

theorem RenderInfo.resize_wellFormed (r : RenderInfo) (w h : Nat) :
    (r.resize w h).wellFormed = true := by
  simp [RenderInfo.resize, RenderInfo.wellFormed]

/-! ## The escape-time loop -/

section EscapeLemmas

variable {K : Type} [LinearOrderedField K]

/-- The loop invariant of `mandelbrot`: entered with `(zx, zy)` the `i`-th point of the
orbit, the loop leaves with the first count from `i` on at which the next point of the
orbit is not below the bailout value, and with `max_iter` if there is none. -/
theorem mandelbrotLoop_spec (cx cy : K) (N : Nat) :
    ∀ (d i : Nat) (zx zy : K), N - i = d → i < N → (zx, zy) = orbit cx cy i →
      i ≤ (mandelbrotLoop cx cy N zx zy i).1 ∧ (mandelbrotLoop cx cy N zx zy i).1 ≤ N ∧
      (∀ k, i ≤ k → k < (mandelbrotLoop cx cy N zx zy i).1 →
        normSq (orbit cx cy (k + 1)) < 65536) ∧
      ((mandelbrotLoop cx cy N zx zy i).1 < N →
        65536 ≤ normSq (orbit cx cy ((mandelbrotLoop cx cy N zx zy i).1 + 1))) := by
  intro d
  induction d with
  | zero => intro i zx zy hd hi; omega
  | succ d ih =>
    intro i zx zy hd hi hz
    have ho : orbit cx cy (i + 1) =
        (zx * zx - zy * zy + cx, 2 * zx * zy + cy) := by
      simp only [orbit, ← hz]
    rw [mandelbrotLoop]
    split_ifs with h1 h2
    · obtain ⟨a1, a2, a3, a4⟩ := ih (i + 1) _ _ (by omega) h2 ho.symm
      refine ⟨by omega, a2, fun k hk1 hk2 => ?_, a4⟩
      rcases Nat.eq_or_lt_of_le hk1 with rfl | hlt
      · rw [ho]; exact h1
      · exact a3 k hlt hk2
    · refine ⟨by simp, by simp; omega, fun k hk1 hk2 => ?_, fun hlt => ?_⟩
      · have : k = i := by simp at hk2; omega
        subst this
        rw [ho]; exact h1
      · simp at hlt; omega
    · refine ⟨le_refl _, by simp; omega, fun k hk1 hk2 => ?_, fun _ => ?_⟩
      · simp at hk2; omega
      · simp only []
        rw [ho]
        exact not_lt.mp h1

end EscapeLemmas

/-! ## The engine -/

section EngineLemmas

variable {K : Type} [LinearOrderedField K] [FloorRing K]

theorem Mandelbrot.drawRows_stop_all (env : Extern K) (c : Frame K) (rows : List Int)
    (m : Mandelbrot K) (h : m.stop_all = true) : Mandelbrot.drawRows env c rows m = m := by
  cases rows with
  | nil => rfl
  | cons a t => simp [Mandelbrot.drawRows, h]

/-- What `stop` does: a pass in flight sees `stop_all` at its next row and returns. -/
theorem Mandelbrot.stop_eq (env : Extern K) (m : Mandelbrot K) :
    m.stop env =
      if m.is_rendering then
        { m with is_rendering := false, stop_all := false, future := Future.idle }
      else m := by
  unfold Mandelbrot.stop
  by_cases h : m.is_rendering = true
  · simp only [h, if_true, Mandelbrot.wait, Mandelbrot.future_get]
    cases hf : m.future with
    | idle => simp [hf]
    | launched =>
      simp only [Mandelbrot.drawSurface]
      rw [Mandelbrot.drawRows_stop_all _ _ _ _ rfl]
    | running c k =>
      simp only []
      rw [Mandelbrot.drawRows_stop_all _ _ _ _ rfl]
  · simp [h]

/-- The viewport after `update`: nothing but the flags, the cache and the surface
changes. -/
theorem Mandelbrot.update_viewport (env : Extern K) (m : Mandelbrot K) (a b : Bool) :
    (m.update env a b).pos_x = m.pos_x ∧ (m.update env a b).pos_y = m.pos_y ∧
    (m.update env a b).scale = m.scale ∧ (m.update env a b).aspect = m.aspect ∧
    (m.update env a b).width = m.width ∧ (m.update env a b).height = m.height := by
  unfold Mandelbrot.update
  rw [Mandelbrot.stop_eq]
  cases a <;> cases b <;> cases m.is_rendering <;> simp

theorem Mandelbrot.stop_viewport (env : Extern K) (m : Mandelbrot K) :
    (m.stop env).pos_x = m.pos_x ∧ (m.stop env).pos_y = m.pos_y ∧
    (m.stop env).scale = m.scale ∧ (m.stop env).aspect = m.aspect ∧
    (m.stop env).width = m.width ∧ (m.stop env).height = m.height := by
  rw [Mandelbrot.stop_eq]
  cases m.is_rendering <;> simp

theorem Mandelbrot.setScaleTo_viewport (env : Extern K) (m : Mandelbrot K) (s px py : K) :
    (m.setScaleTo env s px py).pos_x =
      (m.pixelToComplex px py).1 + 2 * s * m.aspect - px * (4 * s * m.aspect / (m.width : K)) ∧
    (m.setScaleTo env s px py).pos_y =
      (m.pixelToComplex px py).2 - 2 * s + py * (4 * s / (m.height : K)) ∧
    (m.setScaleTo env s px py).scale = s ∧ (m.setScaleTo env s px py).aspect = m.aspect ∧
    (m.setScaleTo env s px py).width = m.width ∧
    (m.setScaleTo env s px py).height = m.height := by
  unfold Mandelbrot.setScaleTo
  obtain ⟨h1, h2, h3, h4, h5, h6⟩ := Mandelbrot.update_viewport env
    (m.setScaleTo_body s px py) true false
  rw [h1, h2, h3, h4, h5, h6]
  simp [Mandelbrot.setScaleTo_body]

theorem Mandelbrot.stop_render_info (env : Extern K) (m : Mandelbrot K) :
    (m.stop env).render_info = m.render_info := by
  rw [Mandelbrot.stop_eq]; split <;> rfl

theorem Mandelbrot.stop_width (env : Extern K) (m : Mandelbrot K) :
    (m.stop env).width = m.width := by
  rw [Mandelbrot.stop_eq]; split <;> rfl

theorem Mandelbrot.stop_height (env : Extern K) (m : Mandelbrot K) :
    (m.stop env).height = m.height := by
  rw [Mandelbrot.stop_eq]; split <;> rfl

theorem Mandelbrot.moveRects_fst_x (W H dpx dpy : Int) : (Mandelbrot.moveRects W H dpx dpy).1.x = 0 := by
  unfold Mandelbrot.moveRects; split_ifs <;> rfl

theorem Mandelbrot.moveRects_snd_x (W H dpx dpy : Int) (hW : 0 ≤ W) (hdx : |dpx| ≤ W) :
    0 ≤ (Mandelbrot.moveRects W H dpx dpy).2.x ∧ (Mandelbrot.moveRects W H dpx dpy).2.x ≤ W := by
  rw [abs_le] at hdx
  unfold Mandelbrot.moveRects; split_ifs <;> simp only [] <;> omega

/-- The two rectangles of `Mandelbrot::move` cover exactly the pixels whose source lies
outside the grid. -/
theorem Mandelbrot.moveRects_cover (W H dpx dpy x y : Int) (hx0 : 0 ≤ x) (hx1 : x < W) (hy0 : 0 ≤ y)
    (hy1 : y < H) :
    (((Mandelbrot.moveRects W H dpx dpy).1.y ≤ y ∧
        y < (Mandelbrot.moveRects W H dpx dpy).1.y + (Mandelbrot.moveRects W H dpx dpy).1.h ∧
        (Mandelbrot.moveRects W H dpx dpy).1.x ≤ x ∧
        x < (Mandelbrot.moveRects W H dpx dpy).1.x + (Mandelbrot.moveRects W H dpx dpy).1.w) ∨
      ((Mandelbrot.moveRects W H dpx dpy).2.y ≤ y ∧
        y < (Mandelbrot.moveRects W H dpx dpy).2.y + (Mandelbrot.moveRects W H dpx dpy).2.h ∧
        (Mandelbrot.moveRects W H dpx dpy).2.x ≤ x ∧
        x < (Mandelbrot.moveRects W H dpx dpy).2.x + (Mandelbrot.moveRects W H dpx dpy).2.w)) ↔
    ¬ (0 ≤ x - dpx ∧ x - dpx < W ∧ 0 ≤ y - dpy ∧ y - dpy < H) := by
  unfold Mandelbrot.moveRects; split_ifs <;> simp only [] <;> omega

theorem Mandelbrot.move_render_info (env : Extern K) (m : Mandelbrot K) (dpx dpy : Int) :
    (m.move env dpx dpy).render_info =
      ((m.render_info.move dpx dpy).fillRect (Mandelbrot.moveRects m.width m.height dpx dpy).1
        PixelInfo.zero).fillRect (Mandelbrot.moveRects m.width m.height dpx dpy).2 PixelInfo.zero := by
  simp only [Mandelbrot.move, Mandelbrot.update, Mandelbrot.stop_render_info,
    Mandelbrot.stop_width, Mandelbrot.stop_height]
  simp

theorem Mandelbrot.render_updated (env : Extern K) (m : Mandelbrot K) (a : Bool) :
    (m.render env a).updated = true := by
  unfold Mandelbrot.render
  cases hu : m.updated <;> cases a <;> simp [hu]

theorem Mandelbrot.render_of_updated (env : Extern K) (m : Mandelbrot K) (a : Bool)
    (h : m.updated = true) : m.render env a = m := by
  unfold Mandelbrot.render
  simp [h]

theorem Mandelbrot.render_passes (env : Extern K) (m : Mandelbrot K) (a : Bool) :
    (m.render env a).passes = if m.updated then m.passes else m.passes + 1 := by
  unfold Mandelbrot.render
  cases hu : m.updated <;> cases a <;> simp [hu]

theorem Mandelbrot.update_render_info (env : Extern K) (m : Mandelbrot K) (b : Bool) :
    (m.update env true b).render_info = m.render_info.reset PixelInfo.zero := by
  unfold Mandelbrot.update
  rw [Mandelbrot.stop_eq]
  cases b <;> cases m.is_rendering <;> simp

theorem Mandelbrot.update_allUnrendered (env : Extern K) (m : Mandelbrot K) (b : Bool)
    (h : m.render_info.wellFormed = true) :
    (m.update env true b).render_info.allUnrendered = true := by
  rw [Mandelbrot.update_render_info]
  exact RenderInfo.reset_allUnrendered _ h

theorem Mandelbrot.drawPixel_spec (env : Extern K) (W H : Nat) (c : Frame K) (h w : Int)
    (hh0 : 0 ≤ h) (hh1 : h < H) (hw0 : 0 ≤ w) (hw1 : w < W) (m : Mandelbrot K)
    (hm : m.Drawable W H) :
    (m.drawPixel env c h w).Drawable W H ∧
    (∀ j, m.RenderedAt j → (m.drawPixel env c h w).RenderedAt j) ∧
    (m.drawPixel env c h w).RenderedAt (h * W + w) := by
  obtain ⟨a1, a2, a3, a4, a5, p, hp, hl⟩ := hm
  have hin : h * (W : Int) + w < (p.length : Int) := by
    have := mul_le_mul_of_nonneg_right (show h + 1 ≤ (H : Int) by omega) (Int.ofNat_nonneg W)
    rw [hl]; push_cast; linarith
  have hin0 : 0 ≤ h * (W : Int) + w := by
    have := mul_nonneg hh0 (Int.ofNat_nonneg W)
    linarith
  unfold Mandelbrot.drawPixel
  by_cases hr : (m.render_info.get w h).rendered = true
  · simp only [hr, if_true]
    refine ⟨⟨a1, a2, a3, a4, a5, p, hp, hl⟩, fun j hj => hj, p, hp, ?_⟩
    simpa [RenderInfo.get, hp, RenderInfo.atOffset, a4] using hr
  · simp only [hr]
    have hs1 : (m.render_info.set w h ⟨true⟩).pixels =
        some (store p (h * (W : Int) + w) ⟨true⟩) := by
      simp [RenderInfo.set, hp, RenderInfo.atOffset, a4]
    have hs2 : (m.render_info.set w h ⟨true⟩).width = W := by
      simp [RenderInfo.set, hp, a4]
    have hs3 : (m.render_info.set w h ⟨true⟩).height = H := by
      simp [RenderInfo.set, hp, a5]
    refine ⟨⟨a1, a2, a3, hs2, hs3, _, hs1, by rw [store_length, hl]⟩, ?_, ?_⟩
    · rintro j ⟨q, hq, hj⟩
      rw [hp] at hq
      cases hq
      refine ⟨_, hs1, ?_⟩
      rw [load_store]
      split_ifs
      · rfl
      · exact hj
    · refine ⟨_, hs1, ?_⟩
      rw [load_store, if_pos ⟨rfl, hin0, hin⟩]

theorem Mandelbrot.drawRow_spec (env : Extern K) (W H : Nat) (c : Frame K) (h : Int)
    (hh0 : 0 ≤ h) (hh1 : h < H) (m : Mandelbrot K) (hm : m.Drawable W H) :
    (m.drawRow env c h).Drawable W H ∧
    (∀ j, m.RenderedAt j → (m.drawRow env c h).RenderedAt j) ∧
    (∀ w : Int, 0 ≤ w → w < W → (m.drawRow env c h).RenderedAt (h * W + w)) := by
  unfold Mandelbrot.drawRow
  rw [hm.1]
  obtain ⟨i1, i2, i3⟩ := foldl_cover (fun s w => Mandelbrot.drawPixel env s c h w)
    (Mandelbrot.Drawable W H) Mandelbrot.RenderedAt (fun w j => j = h * W + w)
    (countUp 0 W)
    (fun s w hw hs => by
      rw [mem_countUp] at hw
      obtain ⟨b1, b2, b3⟩ := Mandelbrot.drawPixel_spec env W H c h w hh0 hh1 hw.1 hw.2 s hs
      exact ⟨b1, b2, fun j hj => by rw [hj]; exact b3⟩)
    m hm
  exact ⟨i1, i2, fun w hw0 hw1 => i3 w (by rw [mem_countUp]; omega) _ rfl⟩

theorem Mandelbrot.drawRows_eq_foldl (env : Extern K) (W H : Nat) (c : Frame K)
    (rows : List Int) (hrows : ∀ h ∈ rows, 0 ≤ h ∧ h < (H : Int)) (m : Mandelbrot K)
    (hm : m.Drawable W H) :
    Mandelbrot.drawRows env c rows m = rows.foldl (fun s h => s.drawRow env c h) m := by
  induction rows generalizing m with
  | nil => rfl
  | cons h t ih =>
    have hh := hrows h (List.mem_cons_self _ _)
    simp only [Mandelbrot.drawRows, hm.2.2.1, List.foldl_cons]
    exact ih (fun k hk => hrows k (List.mem_cons_of_mem _ hk)) _
      (Mandelbrot.drawRow_spec env W H c h hh.1 hh.2 m hm).1

/-- An uncancelled pass over all rows leaves every record "rendered". -/
theorem Mandelbrot.drawRows_allRendered (env : Extern K) (W H : Nat) (c : Frame K)
    (m : Mandelbrot K) (hm : m.Drawable W H) :
    (Mandelbrot.drawRows env c (countUp 0 H) m).Drawable W H ∧
    (Mandelbrot.drawRows env c (countUp 0 H) m).render_info.allRendered = true := by
  rw [Mandelbrot.drawRows_eq_foldl env W H c _ (by intro h hh; rw [mem_countUp] at hh; omega)
    m hm]
  obtain ⟨i1, -, i3⟩ := foldl_cover (fun s h => Mandelbrot.drawRow env s c h)
    (Mandelbrot.Drawable W H) Mandelbrot.RenderedAt
    (fun h j => ∃ w : Int, 0 ≤ w ∧ w < W ∧ j = h * W + w) (countUp 0 H)
    (fun s h hh hs => by
      rw [mem_countUp] at hh
      obtain ⟨b1, b2, b3⟩ := Mandelbrot.drawRow_spec env W H c h hh.1 (by omega) s hs
      refine ⟨b1, b2, ?_⟩
      rintro j ⟨w, hw0, hw1, rfl⟩
      exact b3 w hw0 hw1)
    m hm
  refine ⟨i1, ?_⟩
  rw [RenderInfo.allRendered_iff]
  obtain ⟨a1, a2, a3, a4, a5, p, hp, hl⟩ := i1
  refine ⟨p, hp, by rw [hl, a4, a5], fun j hj0 hj1 => ?_⟩
  have hWpos : 0 < (W : Int) := by
    rcases Nat.eq_zero_or_pos W with h0 | h0
    · subst h0; simp at hl; rw [hl] at hj1; simp at hj1; omega
    · exact_mod_cast h0
  have hdiv : j / (W : Int) < H := by
    apply Int.ediv_lt_of_lt_mul hWpos
    rw [hl] at hj1; push_cast at hj1; linarith
  obtain ⟨q, hq, hr⟩ := i3 (j / W) (by
      rw [mem_countUp]
      exact ⟨Int.ediv_nonneg hj0 hWpos.le, by omega⟩) j
    ⟨j % W, Int.emod_nonneg _ hWpos.ne', Int.emod_lt_of_pos _ hWpos,
      by rw [mul_comm]; exact (Int.ediv_add_emod j W).symm⟩
  rw [hp] at hq
  cases hq
  exact hr


theorem Mandelbrot.drawSurface_allRendered (env : Extern K) (m : Mandelbrot K)
    (hwf : m.render_info.wellFormed = true)
    (hw : m.width = m.render_info.width) (hh : m.height = m.render_info.height)
    (hs : m.stop_all = false) :
    (m.drawSurface env).render_info.allRendered = true := by
  obtain ⟨p, hp, hl⟩ := (RenderInfo.wellFormed_iff _).mp hwf
  have hm : m.Drawable m.render_info.width m.render_info.height :=
    ⟨hw, hh, hs, rfl, rfl, p, hp, hl⟩
  unfold Mandelbrot.drawSurface
  rw [hh]
  exact (Mandelbrot.drawRows_allRendered env _ _ _ m hm).2

theorem Mandelbrot.drawRow_flags (env : Extern K) (m : Mandelbrot K) (c : Frame K) (h : Int) :
    (m.drawRow env c h).updated = m.updated ∧ (m.drawRow env c h).passes = m.passes := by
  unfold Mandelbrot.drawRow
  constructor
  · apply foldl_keeps (fun s : Mandelbrot K => s.updated)
    intro s w
    simp only [Mandelbrot.drawPixel]
    split <;> rfl
  · apply foldl_keeps (fun s : Mandelbrot K => s.passes)
    intro s w
    simp only [Mandelbrot.drawPixel]
    split <;> rfl

/-- The background task never touches the flag `updated` (nor the pass counter). -/
theorem Mandelbrot.threadStep_flags (env : Extern K) (m : Mandelbrot K) :
    (m.threadStep env).updated = m.updated ∧ (m.threadStep env).passes = m.passes := by
  unfold Mandelbrot.threadStep
  cases m.future with
  | idle => exact ⟨rfl, rfl⟩
  | launched => exact ⟨rfl, rfl⟩
  | running c h =>
    simp only []
    split_ifs
    · exact ⟨rfl, rfl⟩
    · exact Mandelbrot.drawRow_flags env m c h
    · exact ⟨rfl, rfl⟩

theorem Mandelbrot.iterate_threadStep_flags (env : Extern K) (k : Nat) (m : Mandelbrot K) :
    ((Mandelbrot.threadStep env)^[k] m).updated = m.updated ∧
    ((Mandelbrot.threadStep env)^[k] m).passes = m.passes := by
  induction k with
  | zero => exact ⟨rfl, rfl⟩
  | succ k ih =>
    rw [Function.iterate_succ_apply']
    obtain ⟨h1, h2⟩ := Mandelbrot.threadStep_flags env ((Mandelbrot.threadStep env)^[k] m)
    exact ⟨h1.trans ih.1, h2.trans ih.2⟩

theorem Mandelbrot.drawPixel_future (env : Extern K) (s : Mandelbrot K) (f : Future K)
    (c : Frame K) (h w : Int) :
    Mandelbrot.drawPixel env { s with future := f } c h w =
      { Mandelbrot.drawPixel env s c h w with future := f } := by
  simp only [Mandelbrot.drawPixel]
  split <;> rfl

theorem Mandelbrot.drawPixels_future (env : Extern K) (f : Future K) (c : Frame K) (h : Int)
    (ws : List Int) (s : Mandelbrot K) :
    ws.foldl (fun t w => Mandelbrot.drawPixel env t c h w) { s with future := f } =
      { ws.foldl (fun t w => Mandelbrot.drawPixel env t c h w) s with future := f } := by
  induction ws generalizing s with
  | nil => rfl
  | cons w t ih => simp only [List.foldl_cons, Mandelbrot.drawPixel_future, ih]

theorem Mandelbrot.drawRow_future (env : Extern K) (s : Mandelbrot K) (f : Future K)
    (c : Frame K) (h : Int) :
    Mandelbrot.drawRow env { s with future := f } c h =
      { Mandelbrot.drawRow env s c h with future := f } := by
  unfold Mandelbrot.drawRow
  exact Mandelbrot.drawPixels_future env f c h _ s

theorem Mandelbrot.drawRows_future (env : Extern K) (f : Future K) (c : Frame K)
    (rows : List Int) (s : Mandelbrot K) :
    Mandelbrot.drawRows env c rows { s with future := f } =
      { Mandelbrot.drawRows env c rows s with future := f } := by
  induction rows generalizing s with
  | nil => rfl
  | cons h t ih =>
    simp only [Mandelbrot.drawRows]
    split
    · rfl
    · rw [Mandelbrot.drawRow_future, ih]

theorem Mandelbrot.drawRow_height (env : Extern K) (m : Mandelbrot K) (c : Frame K) (h : Int) :
    (m.drawRow env c h).height = m.height := by
  unfold Mandelbrot.drawRow
  apply foldl_keeps (fun s : Mandelbrot K => s.height)
  intro s w
  simp only [Mandelbrot.drawPixel]
  split <;> rfl

theorem Mandelbrot.iterate_threadStep_idle (env : Extern K) (n : Nat) (m : Mandelbrot K)
    (h : m.future = Future.idle) : (Mandelbrot.threadStep env)^[n] m = m := by
  induction n with
  | zero => rfl
  | succ n ih =>
    rw [Function.iterate_succ_apply', ih]
    simp [Mandelbrot.threadStep, h]

/-- The steps of a task that is inside `drawSurface` add up to the rest of the outer loop
followed by the return of the task. -/
theorem Mandelbrot.iterate_threadStep_running (env : Extern K) (c : Frame K) (H : Int) :
    ∀ (d : Nat) (h : Int) (m : Mandelbrot K), m.future = Future.running c h →
      m.height = H → (H - h).toNat = d →
      (Mandelbrot.threadStep env)^[d + 1] m =
        { Mandelbrot.drawRows env c (countUp h H) m with
          is_rendering := false, future := Future.idle } := by
  intro d
  induction d with
  | zero =>
    intro h m hf hH hd
    rw [countUp_nil _ _ (by omega)]
    simp only [Function.iterate_succ_apply, Function.iterate_zero, id, Mandelbrot.drawRows]
    have : ¬ h < m.height := by omega
    simp [Mandelbrot.threadStep, hf, this]
  | succ d ih =>
    intro h m hf hH hd
    have hlt : h < m.height := by omega
    rw [countUp_cons _ _ (by omega), Function.iterate_succ_apply]
    by_cases hs : m.stop_all = true
    · have e : Mandelbrot.threadStep env m =
          { m with is_rendering := false, future := Future.idle } := by
        simp [Mandelbrot.threadStep, hf, hlt, hs]
      rw [e, Mandelbrot.iterate_threadStep_idle _ _ _ rfl]
      simp [Mandelbrot.drawRows, hs]
    · have e : Mandelbrot.threadStep env m =
          { Mandelbrot.drawRow env m c h with future := Future.running c (h + 1) } := by
        simp [Mandelbrot.threadStep, hf, hlt, hs]
      rw [e, ih (h + 1)
        { Mandelbrot.drawRow env m c h with future := Future.running c (h + 1) } rfl
        ((Mandelbrot.drawRow_height env m c h).trans hH) (by omega),
        Mandelbrot.drawRows_future]
      simp only [Mandelbrot.drawRows, hs]
      rfl

/-- The background task reaches its end after finitely many steps, and `future_get` is
the state it leaves. -/
theorem Mandelbrot.future_get_eq_iterate (env : Extern K) (m : Mandelbrot K) :
    ∃ n, (Mandelbrot.threadStep env)^[n] m = m.future_get env ∧
      (m.future_get env).future = Future.idle := by
  cases hf : m.future with
  | idle => exact ⟨0, by simp [Mandelbrot.future_get, hf], by simp [Mandelbrot.future_get, hf]⟩
  | launched =>
    refine ⟨(m.height - 0).toNat + 1 + 1, ?_, by simp [Mandelbrot.future_get, hf]⟩
    rw [Function.iterate_succ_apply]
    have e : Mandelbrot.threadStep env m =
        { m with is_rendering := true, future := Future.running m.frame 0 } := by
      simp [Mandelbrot.threadStep, hf]
    have key : Mandelbrot.drawRows env m.frame (countUp 0 m.height)
        { m with is_rendering := true, future := Future.running m.frame 0 } =
        { Mandelbrot.drawRows env m.frame (countUp 0 m.height) { m with is_rendering := true }
          with future := Future.running m.frame 0 } :=
      Mandelbrot.drawRows_future env _ _ _ { m with is_rendering := true }
    rw [e, Mandelbrot.iterate_threadStep_running env m.frame m.height _ 0
      { m with is_rendering := true, future := Future.running m.frame 0 } rfl rfl rfl, key]
    simp only [Mandelbrot.future_get, hf, Mandelbrot.drawSurface]
    rfl
  | running c h =>
    refine ⟨(m.height - h).toNat + 1, ?_, by simp [Mandelbrot.future_get, hf]⟩
    rw [Mandelbrot.iterate_threadStep_running env c m.height _ h m hf rfl rfl]
    simp [Mandelbrot.future_get, hf]

end EngineLemmas

/-! ## The sample engines are states the code reaches -/

/-- The engine `sampleFresh` is a new `3 x 2` engine set to 2 iterations. -/
theorem sampleFresh_reachable :
    (Mandelbrot.new sampleExtern 3 2).setIteration sampleExtern 2 = sampleFresh := by
  simp [Mandelbrot.new, Mandelbrot.setIteration, Mandelbrot.update, Mandelbrot.stop,
    sampleFresh, sampleExtern, RenderInfo.resize, RenderInfo.reset, fill_n, store,
    List.replicate, PixelInfo.zero]

/-- Two iterations from a point `cx + i` whose first two iterates stay below the bailout. -/
theorem mandelbrot_sample (cx : ℚ) (h1 : cx * cx + 1 < 65536)
    (h2 : (cx * cx - 1 + cx) * (cx * cx - 1 + cx) + (2 * cx + 1) * (2 * cx + 1) < 65536) :
    (mandelbrot cx 1 2).1 = 2 := by
  unfold mandelbrot
  rw [mandelbrotLoop]
  norm_num
  rw [if_pos (by linarith)]
  rw [mandelbrotLoop]
  norm_num
  rw [if_pos h2]

/-- The engine `sampleBusy` is `sampleFresh` after `render(true)` and two steps of the
background task. -/
theorem sampleBusy_reachable :
    Mandelbrot.threadStep sampleExtern
      (Mandelbrot.threadStep sampleExtern (sampleFresh.render sampleExtern true)) =
      sampleBusy := by
  have c0 : (mandelbrot (-2 : ℚ) 1 2).1 = 2 := mandelbrot_sample _ (by norm_num) (by norm_num)
  have c1 : (mandelbrot (0 : ℚ) 1 2).1 = 2 := mandelbrot_sample _ (by norm_num) (by norm_num)
  have c2 : (mandelbrot (2 : ℚ) 1 2).1 = 2 := mandelbrot_sample _ (by norm_num) (by norm_num)
  simp [Mandelbrot.threadStep, Mandelbrot.render, Mandelbrot.startAsync, Mandelbrot.future_get,
    Mandelbrot.frame, sampleFresh, sampleBusy, Mandelbrot.drawRow, countUp,
    List.range_succ, Mandelbrot.drawPixel, RenderInfo.get, RenderInfo.set, RenderInfo.atOffset,
    load, store, SDL_Surface.poke, Mandelbrot.pixelColor]
  norm_num [c0, c1, c2]

/-! ## Further facts about the engine -/

section MoreEngineLemmas

variable {K : Type} [LinearOrderedField K] [FloorRing K]

/-- The body of the inner loop of `drawSurface` calls `mandelbrot` at `samplePoint`. -/
theorem Mandelbrot.drawPixel_samplePoint (env : Extern K) (m : Mandelbrot K) (c : Frame K)
    (h w : Int) :
    m.drawPixel env c h w =
      if (m.render_info.get w h).rendered then m
      else
        { m with
          surface := m.surface.poke (h * m.surface.w + w)
            (Mandelbrot.pixelColor env m
              (mandelbrot (Mandelbrot.samplePoint c h w).1 (Mandelbrot.samplePoint c h w).2
                m.iter).1
              (mandelbrot (Mandelbrot.samplePoint c h w).1 (Mandelbrot.samplePoint c h w).2
                m.iter).2.1
              (mandelbrot (Mandelbrot.samplePoint c h w).1 (Mandelbrot.samplePoint c h w).2
                m.iter).2.2),
          render_info := m.render_info.set w h ⟨true⟩ } := rfl

/-- The parameters after `update`: only the flags, the cache and the surface change. -/
theorem Mandelbrot.update_params (env : Extern K) (m : Mandelbrot K) (a b : Bool) :
    (m.update env a b).pos_x = m.pos_x ∧ (m.update env a b).pos_y = m.pos_y ∧
    (m.update env a b).scale = m.scale ∧ (m.update env a b).iter = m.iter ∧
    (m.update env a b).color_idx = m.color_idx ∧
    (m.update env a b).color_scale = m.color_scale ∧
    (m.update env a b).smooth = m.smooth ∧ (m.update env a b).updated = false := by
  unfold Mandelbrot.update
  rw [Mandelbrot.stop_eq]
  cases a <;> cases b <;> cases m.is_rendering <;> simp

theorem Mandelbrot.stop_params (env : Extern K) (m : Mandelbrot K) :
    (m.stop env).pos_x = m.pos_x ∧ (m.stop env).pos_y = m.pos_y ∧
    (m.stop env).scale = m.scale ∧ (m.stop env).iter = m.iter ∧
    (m.stop env).color_idx = m.color_idx ∧ (m.stop env).color_scale = m.color_scale ∧
    (m.stop env).smooth = m.smooth := by
  rw [Mandelbrot.stop_eq]
  cases m.is_rendering <;> simp

/-- When `stop` returns no pass is in flight. -/
theorem Mandelbrot.stop_is_rendering (env : Extern K) (m : Mandelbrot K) :
    (m.stop env).is_rendering = false := by
  rw [Mandelbrot.stop_eq]
  cases h : m.is_rendering <;> simp [h]

/-- When `update` returns no pass is in flight. -/
theorem Mandelbrot.update_is_rendering (env : Extern K) (m : Mandelbrot K) (a b : Bool) :
    (m.update env a b).is_rendering = false := by
  unfold Mandelbrot.update
  rw [Mandelbrot.stop_eq]
  cases a <;> cases b <;> cases h : m.is_rendering <;> simp [h]

/-- On an engine without a pass in flight `stop` does nothing. -/
theorem Mandelbrot.stop_idle (env : Extern K) (m : Mandelbrot K)
    (h : m.is_rendering = false) : m.stop env = m := by
  rw [Mandelbrot.stop_eq, h]
  rfl

/-- On an engine without a pass in flight the `stop` of the progressive backend does
nothing. -/
theorem MandelbrotCUDA.stop_no_pass {K : Type} (pass : Mandelbrot K → RenderInfo × SDL_Surface)
    (m : Mandelbrot K) (h : m.is_rendering = false) : MandelbrotCUDA.stop pass m = m := by
  unfold MandelbrotCUDA.stop
  rw [h]
  rfl

/-- On an engine without a pass in flight the `update` of the progressive backend does what
that of `Mandelbrot` does. -/
theorem MandelbrotCUDA.update_idle (env : Extern K)
    (pass : Mandelbrot K → RenderInfo × SDL_Surface) (m : Mandelbrot K) (a b : Bool)
    (h : m.is_rendering = false) : MandelbrotCUDA.update env pass m a b = m.update env a b := by
  unfold MandelbrotCUDA.update Mandelbrot.update
  rw [MandelbrotCUDA.stop_no_pass pass m h, Mandelbrot.stop_idle env m h]

/-- The engine that the backend switch builds does not depend on the backend chosen: the
new engine has no pass in flight while the saved parameters are applied, and the overrides
of `stop` and `update` then act as the members of `Mandelbrot` do. -/
theorem GUI.acceleratorChanged_backend (env : Extern K)
    (pass : Mandelbrot K → RenderInfo × SDL_Surface) (accelerator : Acc) (win_w win_h : Int)
    (m : Mandelbrot K) :
    GUI.acceleratorChanged env pass accelerator win_w win_h m =
      GUI.acceleratorChanged env pass Acc.CPU win_w win_h m := by
  cases accelerator with
  | CPU => rfl
  | CPU_TBB => rfl
  | GPU_CUDA =>
    have h0 : (Mandelbrot.new env win_w win_h).is_rendering = false := rfl
    have e1 : ∀ x y, MandelbrotCUDA.setPosition env pass (MandelbrotCUDA.new env win_w win_h) x y =
        (Mandelbrot.new env win_w win_h).setPosition env x y := by
      intro x y
      unfold MandelbrotCUDA.setPosition Mandelbrot.setPosition MandelbrotCUDA.new
      rw [MandelbrotCUDA.stop_no_pass pass _ h0, Mandelbrot.stop_idle env _ h0]
      exact MandelbrotCUDA.update_idle env pass _ _ _ rfl
    have e2 : ∀ (s : Mandelbrot K) (x : K), s.is_rendering = false →
        MandelbrotCUDA.setScale env pass s x = s.setScale env x := by
      intro s x hs
      unfold MandelbrotCUDA.setScale Mandelbrot.setScale
      rw [MandelbrotCUDA.stop_no_pass pass _ hs, Mandelbrot.stop_idle env _ hs]
      exact MandelbrotCUDA.update_idle env pass _ _ _ hs
    have e3 : ∀ (s : Mandelbrot K) (x : Nat), s.is_rendering = false →
        MandelbrotCUDA.setIteration env pass s x = s.setIteration env x := by
      intro s x hs
      unfold MandelbrotCUDA.setIteration Mandelbrot.setIteration
      rw [MandelbrotCUDA.stop_no_pass pass _ hs, Mandelbrot.stop_idle env _ hs]
      exact MandelbrotCUDA.update_idle env pass _ _ _ hs
    have e4 : ∀ (s : Mandelbrot K) (x : Nat), s.is_rendering = false →
        MandelbrotCUDA.setColormap env pass s x = s.setColormap env x := by
      intro s x hs
      exact MandelbrotCUDA.update_idle env pass _ _ _ hs
    have e5 : ∀ (s : Mandelbrot K) (x : K), s.is_rendering = false →
        MandelbrotCUDA.setColorScale env pass s x = s.setColorScale env x := by
      intro s x hs
      exact MandelbrotCUDA.update_idle env pass _ _ _ hs
    have e6 : ∀ (s : Mandelbrot K) (x : Bool), s.is_rendering = false →
        MandelbrotCUDA.setColorSmooth env pass s x = s.setColorSmooth env x := by
      intro s x hs
      exact MandelbrotCUDA.update_idle env pass _ _ _ hs
    have r1 : ∀ (s : Mandelbrot K) (x y : K), (s.setPosition env x y).is_rendering = false :=
      fun s x y => Mandelbrot.update_is_rendering env _ _ _
    have r2 : ∀ (s : Mandelbrot K) (x : K), (s.setScale env x).is_rendering = false :=
      fun s x => Mandelbrot.update_is_rendering env _ _ _
    have r3 : ∀ (s : Mandelbrot K) (x : Nat), (s.setIteration env x).is_rendering = false :=
      fun s x => Mandelbrot.update_is_rendering env _ _ _
    have r4 : ∀ (s : Mandelbrot K) (x : Nat), (s.setColormap env x).is_rendering = false :=
      fun s x => Mandelbrot.update_is_rendering env _ _ _
    have r5 : ∀ (s : Mandelbrot K) (x : K), (s.setColorScale env x).is_rendering = false :=
      fun s x => Mandelbrot.update_is_rendering env _ _ _
    unfold GUI.acceleratorChanged
    simp only []
    rw [e1, e2 _ _ (r1 _ _ _), e3 _ _ (r2 _ _), e4 _ _ (r3 _ _), e5 _ _ (r4 _ _),
      e6 _ _ (r5 _ _)]

theorem RenderInfo.reset_width (r : RenderInfo) (v : PixelInfo) :
    (r.reset v).width = r.width := by
  unfold RenderInfo.reset
  cases r.pixels <;> rfl

theorem RenderInfo.reset_height (r : RenderInfo) (v : PixelInfo) :
    (r.reset v).height = r.height := by
  unfold RenderInfo.reset
  cases r.pixels <;> rfl

/-- After `update(true, b)` the cache has the dimensions it had, and every one of its
records is "unrendered". -/
theorem Mandelbrot.update_cache (env : Extern K) (m : Mandelbrot K) (b : Bool)
    (h : m.render_info.wellFormed = true) :
    (m.update env true b).render_info.width = m.render_info.width ∧
    (m.update env true b).render_info.height = m.render_info.height ∧
    (m.update env true b).render_info.allUnrendered = true := by
  refine ⟨?_, ?_, Mandelbrot.update_allUnrendered env m b h⟩
  · rw [Mandelbrot.update_render_info, RenderInfo.reset_width]
  · rw [Mandelbrot.update_render_info, RenderInfo.reset_height]

theorem Mandelbrot.update_cache_of (env : Extern K) (s : Mandelbrot K) (b : Bool)
    (r : RenderInfo) (hr : s.render_info = r) (h : r.wellFormed = true) :
    (s.update env true b).render_info.width = r.width ∧
    (s.update env true b).render_info.height = r.height ∧
    (s.update env true b).render_info.allUnrendered = true := by
  subst hr
  exact Mandelbrot.update_cache env s b h

theorem Mandelbrot.setPosition_cache (env : Extern K) (m : Mandelbrot K) (x y : K)
    (h : m.render_info.wellFormed = true) :
    (m.setPosition env x y).render_info.width = m.render_info.width ∧
    (m.setPosition env x y).render_info.height = m.render_info.height ∧
    (m.setPosition env x y).render_info.allUnrendered = true := by
  exact Mandelbrot.update_cache_of env _ true m.render_info (Mandelbrot.stop_render_info env m) h

theorem Mandelbrot.setScale_cache (env : Extern K) (m : Mandelbrot K) (x : K)
    (h : m.render_info.wellFormed = true) :
    (m.setScale env x).render_info.width = m.render_info.width ∧
    (m.setScale env x).render_info.height = m.render_info.height ∧
    (m.setScale env x).render_info.allUnrendered = true := by
  exact Mandelbrot.update_cache_of env _ false m.render_info (Mandelbrot.stop_render_info env m) h

theorem Mandelbrot.setIteration_cache (env : Extern K) (m : Mandelbrot K) (x : Nat)
    (h : m.render_info.wellFormed = true) :
    (m.setIteration env x).render_info.width = m.render_info.width ∧
    (m.setIteration env x).render_info.height = m.render_info.height ∧
    (m.setIteration env x).render_info.allUnrendered = true := by
  exact Mandelbrot.update_cache_of env _ false m.render_info (Mandelbrot.stop_render_info env m) h

theorem Mandelbrot.setColormap_cache (env : Extern K) (m : Mandelbrot K) (x : Nat)
    (h : m.render_info.wellFormed = true) :
    (m.setColormap env x).render_info.width = m.render_info.width ∧
    (m.setColormap env x).render_info.height = m.render_info.height ∧
    (m.setColormap env x).render_info.allUnrendered = true :=
  Mandelbrot.update_cache env { m with color_idx := x } false h

theorem Mandelbrot.setColorScale_cache (env : Extern K) (m : Mandelbrot K) (x : K)
    (h : m.render_info.wellFormed = true) :
    (m.setColorScale env x).render_info.width = m.render_info.width ∧
    (m.setColorScale env x).render_info.height = m.render_info.height ∧
    (m.setColorScale env x).render_info.allUnrendered = true :=
  Mandelbrot.update_cache env { m with color_scale := x } false h

theorem Mandelbrot.setColorSmooth_cache (env : Extern K) (m : Mandelbrot K) (x : Bool)
    (h : m.render_info.wellFormed = true) :
    (m.setColorSmooth env x).render_info.width = m.render_info.width ∧
    (m.setColorSmooth env x).render_info.height = m.render_info.height ∧
    (m.setColorSmooth env x).render_info.allUnrendered = true :=
  Mandelbrot.update_cache env { m with smooth := x } false h

/-- After `resize` the cache has the dimensions of the window, and every one of its records
is "unrendered". -/
theorem Mandelbrot.resize_cache (env : Extern K) (m : Mandelbrot K) (win_w win_h : Int) :
    (m.resize env win_w win_h).render_info.width = win_w.toNat ∧
    (m.resize env win_w win_h).render_info.height = win_h.toNat ∧
    (m.resize env win_w win_h).render_info.allUnrendered = true := by
  unfold Mandelbrot.resize
  simp only []
  exact Mandelbrot.update_cache env _ true
    (RenderInfo.resize_wellFormed (m.stop env).render_info win_w.toNat win_h.toNat)

/-- After a backend switch the cache of the new engine has the dimensions of the window,
and every one of its records is "unrendered". -/
theorem GUI.acceleratorChanged_cache (env : Extern K)
    (pass : Mandelbrot K → RenderInfo × SDL_Surface) (accelerator : Acc) (win_w win_h : Int)
    (m : Mandelbrot K) :
    (GUI.acceleratorChanged env pass accelerator win_w win_h m).render_info.width =
      win_w.toNat ∧
    (GUI.acceleratorChanged env pass accelerator win_w win_h m).render_info.height =
      win_h.toNat ∧
    (GUI.acceleratorChanged env pass accelerator win_w win_h m).render_info.allUnrendered =
      true := by
  rw [GUI.acceleratorChanged_backend]
  have h0 : (Mandelbrot.new env win_w win_h : Mandelbrot K).render_info.width = win_w.toNat ∧
      (Mandelbrot.new env win_w win_h : Mandelbrot K).render_info.height = win_h.toNat ∧
      (Mandelbrot.new env win_w win_h : Mandelbrot K).render_info.wellFormed = true :=
    ⟨rfl, rfl, RenderInfo.resize_wellFormed ⟨none, 0, 0⟩ win_w.toNat win_h.toNat⟩
  have s1 := Mandelbrot.setPosition_cache env (Mandelbrot.new env win_w win_h) m.pos_x m.pos_y
    h0.2.2
  have s2 := Mandelbrot.setScale_cache env _ m.scale
    (RenderInfo.allUnrendered_wellFormed _ s1.2.2)
  have s3 := Mandelbrot.setIteration_cache env _ m.iter
    (RenderInfo.allUnrendered_wellFormed _ s2.2.2)
  have s4 := Mandelbrot.setColormap_cache env _ m.color_idx
    (RenderInfo.allUnrendered_wellFormed _ s3.2.2)
  have s5 := Mandelbrot.setColorScale_cache env _ m.color_scale
    (RenderInfo.allUnrendered_wellFormed _ s4.2.2)
  have s6 := Mandelbrot.setColorSmooth_cache env _ m.smooth
    (RenderInfo.allUnrendered_wellFormed _ s5.2.2)
  refine ⟨?_, ?_, s6.2.2⟩
  · exact s6.1.trans (s5.1.trans (s4.1.trans (s3.1.trans (s2.1.trans (s1.1.trans h0.1)))))
  · exact s6.2.1.trans (s5.2.1.trans (s4.2.1.trans (s3.2.1.trans (s2.2.1.trans
      (s1.2.1.trans h0.2.1)))))

/-- The parameters of the engine that `GUI::acceleratorChanged` builds. -/
theorem GUI.acceleratorChanged_params (env : Extern K)
    (pass : Mandelbrot K → RenderInfo × SDL_Surface) (accelerator : Acc) (win_w win_h : Int)
    (m : Mandelbrot K) :
    (GUI.acceleratorChanged env pass accelerator win_w win_h m).pos_x = m.pos_x ∧
    (GUI.acceleratorChanged env pass accelerator win_w win_h m).pos_y = m.pos_y ∧
    (GUI.acceleratorChanged env pass accelerator win_w win_h m).scale = m.scale ∧
    (GUI.acceleratorChanged env pass accelerator win_w win_h m).iter = m.iter ∧
    (GUI.acceleratorChanged env pass accelerator win_w win_h m).color_idx = m.color_idx ∧
    (GUI.acceleratorChanged env pass accelerator win_w win_h m).color_scale = m.color_scale ∧
    (GUI.acceleratorChanged env pass accelerator win_w win_h m).smooth = m.smooth ∧
    (GUI.acceleratorChanged env pass accelerator win_w win_h m).updated = false := by
  rw [GUI.acceleratorChanged_backend]
  unfold GUI.acceleratorChanged
  simp only [Mandelbrot.setColorSmooth, Mandelbrot.setColorScale, Mandelbrot.setColormap,
    Mandelbrot.setIteration, Mandelbrot.setScale, Mandelbrot.setPosition]
  refine ⟨?_, ?_, ?_, ?_, ?_, ?_, ?_, ?_⟩ <;>
    simp only [(Mandelbrot.update_params env _ _ _).1, (Mandelbrot.update_params env _ _ _).2.1,
      (Mandelbrot.update_params env _ _ _).2.2.1, (Mandelbrot.update_params env _ _ _).2.2.2.1,
      (Mandelbrot.update_params env _ _ _).2.2.2.2.1,
      (Mandelbrot.update_params env _ _ _).2.2.2.2.2.1,
      (Mandelbrot.update_params env _ _ _).2.2.2.2.2.2.1,
      (Mandelbrot.update_params env _ _ _).2.2.2.2.2.2.2,
      (Mandelbrot.stop_params env _).1, (Mandelbrot.stop_params env _).2.1,
      (Mandelbrot.stop_params env _).2.2.1, (Mandelbrot.stop_params env _).2.2.2.1,
      (Mandelbrot.stop_params env _).2.2.2.2.1, (Mandelbrot.stop_params env _).2.2.2.2.2.1,
      (Mandelbrot.stop_params env _).2.2.2.2.2.2]

/-- The dimensions of the engine that `GUI::acceleratorChanged` builds are those of the
window. -/
theorem GUI.acceleratorChanged_size (env : Extern K)
    (pass : Mandelbrot K → RenderInfo × SDL_Surface) (accelerator : Acc) (win_w win_h : Int)
    (m : Mandelbrot K) :
    (GUI.acceleratorChanged env pass accelerator win_w win_h m).width = win_w ∧
    (GUI.acceleratorChanged env pass accelerator win_w win_h m).height = win_h := by
  rw [GUI.acceleratorChanged_backend]
  unfold GUI.acceleratorChanged
  simp only [Mandelbrot.setColorSmooth, Mandelbrot.setColorScale, Mandelbrot.setColormap,
    Mandelbrot.setIteration, Mandelbrot.setScale, Mandelbrot.setPosition]
  refine ⟨?_, ?_⟩ <;>
    simp only [(Mandelbrot.update_viewport env _ _ _).2.2.2.2.1,
      (Mandelbrot.update_viewport env _ _ _).2.2.2.2.2, Mandelbrot.stop_width,
      Mandelbrot.stop_height] <;> rfl

theorem Mandelbrot.update_scale (env : Extern K) (m : Mandelbrot K) (a b : Bool) :
    (m.update env a b).scale = m.scale := by
  unfold Mandelbrot.update
  rw [Mandelbrot.stop_eq]
  cases a <;> cases b <;> cases m.is_rendering <;> simp

theorem Mandelbrot.stop_scale (env : Extern K) (m : Mandelbrot K) :
    (m.stop env).scale = m.scale := by
  rw [Mandelbrot.stop_eq]
  cases m.is_rendering <;> simp

/-- The scale an engine stores after one call: the argument of `setScale` and of
`setScaleTo`, as it is, and the scale it had before any other call. -/
theorem Call.run_scale (env : Extern K) (c : Call K) (m : Mandelbrot K) :
    (c.run env m).scale =
      match c with
      | Call.setScale scale => scale
      | Call.setScaleTo scale _ _ => scale
      | _ => m.scale := by
  cases c <;>
    simp only [Call.run, Mandelbrot.setPosition, Mandelbrot.move, Mandelbrot.setScale,
      Mandelbrot.setScaleTo, Mandelbrot.setScaleTo_body, Mandelbrot.setIteration,
      Mandelbrot.setColormap, Mandelbrot.setColorScale, Mandelbrot.setColorSmooth,
      Mandelbrot.resize, Mandelbrot.update_scale, Mandelbrot.stop_scale]

end MoreEngineLemmas

/-! ## The escape counts at the origin and in the `4 x 4` scenario -/

/-- The orbit of `c = 0` stays at `0`. -/
theorem orbit_zero {K : Type} [LinearOrderedField K] (k : Nat) : orbit (0 : K) 0 k = (0, 0) := by
  induction k with
  | zero => rfl
  | succ k ih => simp [orbit, ih]

/-- From one iteration on, `mandelbrot` returns `max_iter` at `c = 0`. -/
theorem mandelbrot_zero {K : Type} [LinearOrderedField K] (max_iter : Nat)
    (h : 1 ≤ max_iter) : (mandelbrot (0 : K) 0 max_iter).1 = max_iter := by
  obtain ⟨-, a2, -, a4⟩ := mandelbrotLoop_spec (0 : K) 0 max_iter max_iter 0 0 0 rfl
    (by omega) rfl
  by_contra hne
  have hlt : (mandelbrot (0 : K) 0 max_iter).1 < max_iter :=
    lt_of_le_of_ne a2 hne
  have := a4 hlt
  rw [orbit_zero] at this
  norm_num [normSq] at this

/-- The escape counts of the sixteen sample points of the `4 x 4` scenario, row by row. -/
theorem scenario_counts :
    (mandelbrot (-(3 / 2) : ℚ) (3 / 2) 10).1 = 4 ∧ (mandelbrot (-(1 / 2) : ℚ) (3 / 2) 10).1 = 4 ∧
    (mandelbrot (1 / 2 : ℚ) (3 / 2) 10).1 = 4 ∧ (mandelbrot (3 / 2 : ℚ) (3 / 2) 10).1 = 3 ∧
    (mandelbrot (-(3 / 2) : ℚ) (1 / 2) 10).1 = 5 ∧ (mandelbrot (-(1 / 2) : ℚ) (1 / 2) 10).1 = 10 ∧
    (mandelbrot (1 / 2 : ℚ) (1 / 2) 10).1 = 7 ∧ (mandelbrot (3 / 2 : ℚ) (1 / 2) 10).1 = 3 ∧
    (mandelbrot (-(3 / 2) : ℚ) (-(1 / 2)) 10).1 = 5 ∧
    (mandelbrot (-(1 / 2) : ℚ) (-(1 / 2)) 10).1 = 10 ∧
    (mandelbrot (1 / 2 : ℚ) (-(1 / 2)) 10).1 = 7 ∧ (mandelbrot (3 / 2 : ℚ) (-(1 / 2)) 10).1 = 3 ∧
    (mandelbrot (-(3 / 2) : ℚ) (-(3 / 2)) 10).1 = 4 ∧
    (mandelbrot (-(1 / 2) : ℚ) (-(3 / 2)) 10).1 = 4 ∧
    (mandelbrot (1 / 2 : ℚ) (-(3 / 2)) 10).1 = 4 ∧
    (mandelbrot (3 / 2 : ℚ) (-(3 / 2)) 10).1 = 3 := by
  refine ⟨?_, ?_, ?_, ?_, ?_, ?_, ?_, ?_, ?_, ?_, ?_, ?_, ?_, ?_, ?_, ?_⟩ <;>
    (unfold mandelbrot; repeat (rw [mandelbrotLoop]; norm_num))

/-- The engine of the scenario, field by field. -/
theorem scenarioEngine_eq :
    scenarioEngine =
      { render_info := ⟨some (List.replicate 16 ⟨false⟩), 4, 4⟩,
        surface_temp := ⟨4, 4, List.replicate 16 0⟩,
        surface := ⟨4, 4, List.replicate 16 0⟩,
        width := 4, height := 4, aspect := 1, pos_x := 0, pos_y := 0, scale := 1, iter := 10,
        color_idx := 1, color_scale := 4, smooth := true, future := Future.idle,
        is_rendering := false, stop_all := false, updated := false, passes := 0 } := by
  simp [scenarioEngine, Mandelbrot.new, Mandelbrot.setIteration, Mandelbrot.update,
    Mandelbrot.stop, sampleExtern, RenderInfo.resize, RenderInfo.reset, fill_n, store,
    List.replicate, PixelInfo.zero]

/-- The framebuffer and the cache of the scenario after the synchronous pass. -/
theorem scenario_render :
    (scenarioEngine.render sampleExtern false).surface =
      ⟨4, 4, [0, 0, 0, 0, 0, 4278190080, 0, 0, 0, 4278190080, 0, 0, 0, 0, 0, 0]⟩ ∧
    (scenarioEngine.render sampleExtern false).render_info =
      ⟨some (List.replicate 16 ⟨true⟩), 4, 4⟩ := by
  obtain ⟨a0, a1, a2, a3, b0, b1, b2, b3, c0, c1, c2, c3, d0, d1, d2, d3⟩ := scenario_counts
  rw [scenarioEngine_eq]
  simp [Mandelbrot.render, Mandelbrot.drawSurface, Mandelbrot.drawRows,
    Mandelbrot.frame, Mandelbrot.drawRow, countUp,
    List.range_succ, Mandelbrot.drawPixel, RenderInfo.get, RenderInfo.set, RenderInfo.atOffset,
    load, store, SDL_Surface.poke, Mandelbrot.pixelColor, sampleExtern, List.replicate]
  norm_num [a0, a1, a2, a3, b0, b1, b2, b3, c0, c1, c2, c3, d0, d1, d2, d3]

/-- The counts of the `for` loop of Tutorial 1 at the two sample points of the scenario. -/
theorem Tutorial1.mandelbrot_scenario :
    Tutorial1.mandelbrot ((-(1 / 2) : ℚ), (1 / 2 : ℚ)) 10 = 10 ∧
    Tutorial1.mandelbrot ((-(3 / 2) : ℚ), (3 / 2 : ℚ)) 10 = 0 := by
  constructor
  · unfold Tutorial1.mandelbrot
    iterate 11 (rw [Tutorial1.mandelbrotLoop]; norm_num)
  · unfold Tutorial1.mandelbrot
    rw [Tutorial1.mandelbrotLoop]; norm_num

/-! ## The packed colour -/

/-- The wrapped value differs from the exact one by a multiple of `2^32`. -/
theorem wrapInt32_spec (x : Int) : ∃ k : Int, wrapInt32 x = x + k * 4294967296 := by
  unfold wrapInt32
  exact ⟨-((x + 2147483648) / 4294967296), by omega⟩

/-- The value of `make_color` on 8-bit channels. -/
theorem make_color_eq (r g b a : Nat) (hr : r < 256) (hg : g < 256) (hb : b < 256)
    (ha : a < 256) :
    make_color r g b a = a * 16777216 + r * 65536 + g * 256 + b := by
  have p24 : (2 : Int) ^ 24 = 16777216 := by norm_num
  have p16 : (2 : Int) ^ 16 = 65536 := by norm_num
  have p8 : (2 : Int) ^ 8 = 256 := by norm_num
  unfold make_color
  simp only [Nat.mod_eq_of_lt hr, Nat.mod_eq_of_lt hg, Nat.mod_eq_of_lt hb,
    Nat.mod_eq_of_lt ha, p24, p16, p8]
  obtain ⟨k1, e1⟩ := wrapInt32_spec ((a : Int) * 16777216)
  obtain ⟨k2, e2⟩ := wrapInt32_spec ((r : Int) * 65536)
  obtain ⟨k3, e3⟩ := wrapInt32_spec ((g : Int) * 256)
  obtain ⟨k4, e4⟩ := wrapInt32_spec
    (wrapInt32 ((a : Int) * 16777216) + wrapInt32 ((r : Int) * 65536))
  obtain ⟨k5, e5⟩ := wrapInt32_spec
    (wrapInt32 (wrapInt32 ((a : Int) * 16777216) + wrapInt32 ((r : Int) * 65536)) +
      wrapInt32 ((g : Int) * 256))
  obtain ⟨k6, e6⟩ := wrapInt32_spec
    (wrapInt32 (wrapInt32 (wrapInt32 ((a : Int) * 16777216) + wrapInt32 ((r : Int) * 65536)) +
      wrapInt32 ((g : Int) * 256)) + (b : Int))
  rw [e6, e5, e4, e3, e2, e1]
  clear e6 e5 e4 e3 e2 e1
  omega

/-! ## Truncation, the escape loops, the rescale rectangles -/


section More
variable {K : Type} [LinearOrderedField K] [FloorRing K]

/-- The truncation of an integer is the integer. -/
theorem trunc_intCast (n : Int) : trunc (n : K) = n := by
  unfold trunc
  split_ifs <;> simp

/-- The function `fmod(x, 1)` vanishes at every integer. -/
theorem fmod_natCast_one (n : Nat) : fmod (n : K) 1 = 0 := by
  unfold fmod
  rw [div_one]
  have h : trunc (n : K) = (n : Int) := by
    have := trunc_intCast (K := K) (n : Int)
    simpa using this
  rw [h]
  simp

end More



section EscapeMore
variable {K : Type} [LinearOrderedField K]

/-- The values the loop of `mandelbrot` leaves in `zx`, `zy`: the point of the orbit after
the returned count when the count is below `max_iter`, and the point number `max_iter`
otherwise. -/
theorem mandelbrotLoop_final (cx cy : K) (N : Nat) :
    ∀ (d i : Nat) (zx zy : K), N - i = d → i < N → (zx, zy) = orbit cx cy i →
      ((mandelbrotLoop cx cy N zx zy i).1 < N →
        (mandelbrotLoop cx cy N zx zy i).2 =
          orbit cx cy ((mandelbrotLoop cx cy N zx zy i).1 + 1)) ∧
      ((mandelbrotLoop cx cy N zx zy i).1 = N →
        (mandelbrotLoop cx cy N zx zy i).2 = orbit cx cy N) := by
  intro d
  induction d with
  | zero => intro i zx zy hd hi; omega
  | succ d ih =>
    intro i zx zy hd hi hz
    have ho : orbit cx cy (i + 1) =
        (zx * zx - zy * zy + cx, 2 * zx * zy + cy) := by
      simp only [orbit, ← hz]
    rw [mandelbrotLoop]
    split_ifs with h1 h2
    · exact ih (i + 1) _ _ (by omega) h2 ho.symm
    · refine ⟨fun hlt => ?_, fun _ => ?_⟩
      · simp at hlt; omega
      · simp only []
        have : i + 1 = N := by omega
        rw [← this, ho]
    · refine ⟨fun _ => ?_, fun he => ?_⟩
      · simp only []
        rw [ho]
      · simp at he; omega

/-- The `for` loop of Tutorials 1 and 2 returns at least the count it is entered with. -/
theorem Tutorial1.mandelbrotLoop_ge (c : K × K) (N : Nat) :
    ∀ (d i : Nat) (z : K × K), N - i = d → i ≤ N → i ≤ Tutorial1.mandelbrotLoop c N z i := by
  intro d
  induction d with
  | zero =>
    intro i z hd hi
    rw [Tutorial1.mandelbrotLoop, if_neg (by omega)]
    exact hi
  | succ d ih =>
    intro i z hd hi
    rw [Tutorial1.mandelbrotLoop, if_pos (by omega)]
    simp only []
    split_ifs
    · exact le_refl _
    · exact le_trans (Nat.le_succ i) (ih (i + 1) _ (by omega) (by omega))

/-- The two bailout-4 loops, entered at the same point of the orbit: the `do ... while` loop
of Tutorial 5 never returns more than the `for` loop of Tutorials 1 and 2, and they return the
same count when no later point of the orbit up to number `N` has squared modulus `4`. -/
theorem bailout4_loops (cx cy : K) (N : Nat) :
    ∀ (d i : Nat) (z : K × K), N - i = d → i < N → z = orbit cx cy i →
      Tutorial5.mandelbrotLoop cx cy N z.1 z.2 i ≤ Tutorial1.mandelbrotLoop (cx, cy) N z i ∧
      ((∀ k, i < k → k ≤ N → normSq (orbit cx cy k) ≠ 4) →
        Tutorial1.mandelbrotLoop (cx, cy) N z i =
          Tutorial5.mandelbrotLoop cx cy N z.1 z.2 i) := by
  intro d
  induction d with
  | zero => intro i z hd hi; omega
  | succ d ih =>
    intro i z hd hi hz
    have ho : orbit cx cy (i + 1) =
        (z.1 * z.1 - z.2 * z.2 + cx, 2 * z.1 * z.2 + cy) := by
      simp only [orbit, ← hz]
    have hb : z.1 * z.2 + z.2 * z.1 + cy = 2 * z.1 * z.2 + cy := by ring
    have hn : (z.1 * z.1 - z.2 * z.2 + cx) * (z.1 * z.1 - z.2 * z.2 + cx) +
        (2 * z.1 * z.2 + cy) * (2 * z.1 * z.2 + cy) = normSq (orbit cx cy (i + 1)) := by
      rw [ho]; rfl
    rw [Tutorial1.mandelbrotLoop, Tutorial5.mandelbrotLoop, if_pos hi]
    simp only [hb, hn]
    by_cases hlt : normSq (orbit cx cy (i + 1)) < 4
    · rw [if_pos hlt, if_neg (not_lt.mpr (le_of_lt hlt))]
      by_cases h2 : i + 1 < N
      · rw [if_pos h2]
        obtain ⟨b1, b2⟩ := ih (i + 1) (z.1 * z.1 - z.2 * z.2 + cx, 2 * z.1 * z.2 + cy)
          (by omega) h2 ho.symm
        exact ⟨b1, fun hk => b2 (fun k hk1 hk2 => hk k (by omega) hk2)⟩
      · rw [if_neg h2, Tutorial1.mandelbrotLoop, if_neg h2]
        have : i + 1 = N := by omega
        exact ⟨by omega, fun _ => this.symm⟩
    · rw [if_neg hlt]
      by_cases hgt : normSq (orbit cx cy (i + 1)) > 4
      · rw [if_pos hgt]
        exact ⟨le_refl _, fun _ => rfl⟩
      · rw [if_neg hgt]
        refine ⟨le_trans (Nat.le_succ i)
          (Tutorial1.mandelbrotLoop_ge (cx, cy) N _ (i + 1) _ rfl (by omega)), fun hk => ?_⟩
        exfalso
        exact hk (i + 1) (by omega) (by omega) (le_antisymm (not_lt.mp hgt) (not_lt.mp hlt))

end EscapeMore



/-- The C quotient `c / 2` of `int`s: twice it differs from `c` by at most one. -/
theorem tdiv_two_near (c : Int) : -1 ≤ 2 * c.tdiv 2 - c ∧ 2 * c.tdiv 2 - c ≤ 1 := by
  rcases le_or_lt 0 c with h | h
  · rw [Int.tdiv_eq_ediv h (by decide)]
    omega
  · have e : c.tdiv 2 = -((-c) / 2) := by
      rw [← Int.tdiv_eq_ediv (by omega) (by decide), Int.neg_tdiv, neg_neg]
    rw [e]
    omega

section More
variable {K : Type} [LinearOrderedField K] [FloorRing K]

/-- Truncation moves a value by less than one. -/
theorem trunc_near (x : K) : |(trunc x : K) - x| < 1 := by
  unfold trunc
  rw [abs_lt]
  split_ifs
  · have h1 := Int.floor_le x
    have h2 := Int.lt_floor_add_one x
    constructor <;> linarith
  · have h1 := Int.le_ceil x
    have h2 := Int.ceil_lt_add_one x
    constructor <;> linarith

/-- The truncation of a non-negative value lying between `n` and `n + 1`. -/
theorem trunc_eq_of_nonneg (x : K) (n : Int) (h0 : 0 ≤ x) (h1 : (n : K) ≤ x)
    (h2 : x < (n : K) + 1) : trunc x = n := by
  unfold trunc
  rw [if_pos h0, Int.floor_eq_iff]
  exact ⟨h1, h2⟩

end More

/-! ## Rounding to a floating-point format -/

section Rounding
variable {K : Type} [LinearOrderedField K] [FloorRing K]

/-- The rounding to the nearest integer moves a value by at most one half. -/
theorem roundEven_near (x : K) : |(roundEven x : K) - x| ≤ 1 / 2 := by
  have h1 := Int.floor_le x
  have h2 := Int.lt_floor_add_one x
  unfold roundEven
  rw [abs_le]
  split_ifs with a b c
  · constructor <;> linarith
  · push_cast; constructor <;> linarith
  · constructor <;> linarith
  · push_cast; constructor <;> linarith

/-- A value less than one half from an integer rounds to it. -/
theorem roundEven_of_near (x : K) (n : Int) (h : |x - (n : K)| < 1 / 2) : roundEven x = n := by
  rw [abs_lt] at h
  have hn := roundEven_near x
  rw [abs_le] at hn
  have h3 : ((roundEven x : Int) : K) < ((n + 1 : Int) : K) := by push_cast; linarith
  have h4 : ((n - 1 : Int) : K) < ((roundEven x : Int) : K) := by push_cast; linarith
  have h5 := Int.cast_lt.mp h3
  have h6 := Int.cast_lt.mp h4
  omega

/-- An integer rounds to itself. -/
theorem roundEven_intCast (n : Int) : roundEven (n : K) = n :=
  roundEven_of_near _ n (by simp)

/-- A value halfway between two integers rounds to the even one. -/
theorem roundEven_half (n : Int) :
    roundEven ((n : K) + 1 / 2) = if n % 2 = 0 then n else n + 1 := by
  have hf : ⌊(n : K) + 1 / 2⌋ = n := by
    rw [Int.floor_eq_iff]
    constructor <;> linarith
  unfold roundEven
  rw [hf]
  have e : (n : K) + 1 / 2 - (n : K) = 1 / 2 := by ring
  rw [e, if_neg (lt_irrefl _), if_neg (lt_irrefl _)]

/-- A value less than one half from an integer is rounded to it by `roundf`. -/
theorem roundf_of_near (x : K) (n : Int) (h : |x - (n : K)| < 1 / 2) : roundf x = n := by
  rw [abs_lt] at h
  unfold roundf
  split_ifs
  · rw [Int.floor_eq_iff]
    constructor <;> linarith
  · rw [Int.ceil_eq_iff]
    constructor <;> linarith

theorem roundTo_zero (p : Nat) : roundTo p (0 : K) = 0 := by
  unfold roundTo
  rw [if_pos rfl]

/-- The rounding to `p` significant bits has a relative error of at most `2 ^ (-p)`. -/
theorem roundTo_near (p : Nat) (x : K) : |roundTo p x - x| ≤ |x| / 2 ^ p := by
  by_cases hx : x = 0
  · rw [hx, roundTo_zero]; simp
  have hpos : 0 < |x| := abs_pos.mpr hx
  have hlo := Int.zpow_log_le_self (b := 2) (by decide) hpos
  have h2 : (0 : K) < 2 := by norm_num
  have hulp : (0 : K) < (2 : K) ^ (Int.log 2 |x| - ((p : Int) - 1)) := zpow_pos h2 _
  have hp : (0 : K) < 2 ^ p := pow_pos h2 _
  have e : (2 : K) ^ (Int.log 2 |x| - ((p : Int) - 1)) =
      (2 : K) ^ (Int.log 2 |x|) * 2 / 2 ^ p := by
    rw [zpow_sub₀ (ne_of_gt h2), zpow_sub₀ (ne_of_gt h2), zpow_natCast, zpow_one]
    field_simp
  have hb : (2 : K) ^ (Int.log 2 |x| - ((p : Int) - 1)) / 2 ≤ |x| / 2 ^ p := by
    rw [e]
    have : (2 : K) ^ (Int.log 2 |x|) * 2 / 2 ^ p / 2 = (2 : K) ^ (Int.log 2 |x|) / 2 ^ p := by
      field_simp
      ring
    rw [this]
    exact div_le_div_of_nonneg_right (by exact_mod_cast hlo) (le_of_lt hp)
  unfold roundTo
  rw [if_neg hx]
  simp only []
  generalize (2 : K) ^ (Int.log 2 |x| - ((p : Int) - 1)) = ulp at hulp hb
  split_ifs with h0
  · have hn := roundEven_near (x / ulp)
    have e2 : (roundEven (x / ulp) : K) * ulp - x = ((roundEven (x / ulp) : K) - x / ulp) * ulp := by
      field_simp
    rw [e2, abs_mul, abs_of_pos hulp]
    calc |(roundEven (x / ulp) : K) - x / ulp| * ulp ≤ 1 / 2 * ulp :=
          mul_le_mul_of_nonneg_right hn (le_of_lt hulp)
      _ = ulp / 2 := by ring
      _ ≤ |x| / 2 ^ p := hb
  · have hn := roundEven_near (-x / ulp)
    have e2 : -((roundEven (-x / ulp) : K) * ulp) - x =
        -(((roundEven (-x / ulp) : K) - -x / ulp) * ulp) := by
      field_simp
      ring
    rw [e2, abs_neg, abs_mul, abs_of_pos hulp]
    calc |(roundEven (-x / ulp) : K) - -x / ulp| * ulp ≤ 1 / 2 * ulp :=
          mul_le_mul_of_nonneg_right hn (le_of_lt hulp)
      _ = ulp / 2 := by ring
      _ ≤ |x| / 2 ^ p := hb

/-- The rounding of a value that is not negative lies between `(1 - 2 ^ (-p)) x` and
`(1 + 2 ^ (-p)) x`. -/
theorem roundTo_between (p : Nat) (x : K) (hx : 0 ≤ x) :
    (1 - 1 / 2 ^ p) * x ≤ roundTo p x ∧ roundTo p x ≤ (1 + 1 / 2 ^ p) * x := by
  have h := roundTo_near p x
  rw [abs_of_nonneg hx, abs_le] at h
  constructor
  · have : (1 - 1 / 2 ^ p) * x = x - x / 2 ^ p := by ring
    rw [this]; linarith
  · have : (1 + 1 / 2 ^ p) * x = x + x / 2 ^ p := by ring
    rw [this]; linarith

/-- The value that `roundTo` gives to a positive `x` with `2 ^ e ≤ x < 2 ^ (e + 1)`. -/
theorem roundTo_of_pos (p : Nat) (x : K) (e : Int) (hx : 0 < x) (h1 : (2 : K) ^ e ≤ x)
    (h2 : x < (2 : K) ^ (e + 1)) :
    roundTo p x = (roundEven (x / (2 : K) ^ (e - ((p : Int) - 1))) : K) *
      (2 : K) ^ (e - ((p : Int) - 1)) := by
  have hl : Int.log 2 |x| = e := by
    rw [abs_of_pos hx]
    have a1 : e ≤ Int.log 2 x := (Int.zpow_le_iff_le_log (by decide) hx).mp (by exact_mod_cast h1)
    have a2 : Int.log 2 x < e + 1 := (Int.lt_zpow_iff_log_lt (by decide) hx).mp (by exact_mod_cast h2)
    omega
  unfold roundTo
  rw [if_neg (ne_of_gt hx), hl]
  simp only []
  rw [if_pos (le_of_lt hx)]

/-- A positive value with at most `p` significant bits is not changed by the rounding. -/
theorem roundTo_of_exact (p : Nat) (x : K) (e n : Int) (hx : 0 < x) (h1 : (2 : K) ^ e ≤ x)
    (h2 : x < (2 : K) ^ (e + 1)) (hn : x / (2 : K) ^ (e - ((p : Int) - 1)) = (n : K)) :
    roundTo p x = x := by
  rw [roundTo_of_pos p x e hx h1 h2, hn, roundEven_intCast, ← hn]
  have : (2 : K) ^ (e - ((p : Int) - 1)) ≠ 0 := ne_of_gt (zpow_pos (by norm_num) _)
  field_simp

/-- A value that is not negative stays so under the rounding. -/
theorem roundTo_nonneg (p : Nat) (x : K) (hx : 0 ≤ x) : 0 ≤ roundTo p x := by
  have h := (roundTo_between p x hx).1
  have hp : (1 : K) / 2 ^ p ≤ 1 := by
    rw [div_le_one (pow_pos (by norm_num) _)]
    exact one_le_pow₀ (by norm_num)
  have : 0 ≤ (1 - 1 / 2 ^ p) * x := mul_nonneg (by linarith) hx
  linarith

/-- A positive value stays positive under the rounding to at least one bit. -/
theorem roundTo_pos (p : Nat) (hp1 : 1 ≤ p) (x : K) (hx : 0 < x) : 0 < roundTo p x := by
  have h := (roundTo_between p x (le_of_lt hx)).1
  have hp : (1 : K) / 2 ^ p < 1 := by
    rw [div_lt_one (pow_pos (by norm_num) _)]
    exact one_lt_pow₀ (by norm_num) (by omega)
  have : 0 < (1 - 1 / 2 ^ p) * x := mul_pos (by linarith) hx
  linarith

/-- The rounding of a positive `x` with `2 ^ e ≤ x < 2 ^ (e + 1)` whose quotient by
`2 ^ (e - (p - 1))` lies less than one half from the integer `n`. -/
theorem roundTo_eval (p : Nat) (x : K) (e n : Int) (hx : 0 < x) (h1 : (2 : K) ^ e ≤ x)
    (h2 : x < (2 : K) ^ (e + 1))
    (hn : |x / (2 : K) ^ (e - ((p : Int) - 1)) - (n : K)| < 1 / 2) :
    roundTo p x = (n : K) * (2 : K) ^ (e - ((p : Int) - 1)) := by
  rw [roundTo_of_pos p x e hx h1 h2, roundEven_of_near _ n hn]

/-- The conversion `(int)x`, where it is defined, is the truncation. -/
theorem toInt_eq_some (x : K) (n : Int) (h : toInt x = some n) : n = trunc x := by
  unfold toInt at h
  split_ifs at h
  exact (Option.some.inj h).symm

/-- The `int` to which `w * (px / width)` converts in `double` arithmetic lies less than one
and the rounding of the two operations from the exact product. -/
theorem rescale_origin_near (w : Int) (a : K) :
    |(trunc (toDouble ((w : K) * toDouble a)) : K) - (w : K) * a| <
      1 + 3 * |(w : K) * a| / 2 ^ 53 := by
  unfold toDouble
  have h1 := roundTo_near 53 a
  have h2 := roundTo_near 53 ((w : K) * roundTo 53 a)
  have h3 := trunc_near (roundTo 53 ((w : K) * roundTo 53 a))
  generalize roundTo 53 a = y1 at h1 h2 h3
  generalize roundTo 53 ((w : K) * y1) = y2 at h2 h3
  have hw : |(w : K) * y1 - (w : K) * a| ≤ |(w : K) * a| / 2 ^ 53 := by
    rw [← mul_sub, abs_mul, abs_mul, mul_div_assoc]
    exact mul_le_mul_of_nonneg_left h1 (abs_nonneg _)
  have hy : |(w : K) * y1| ≤ |(w : K) * a| + |(w : K) * a| / 2 ^ 53 := by
    have := abs_add ((w : K) * y1 - (w : K) * a) ((w : K) * a)
    rw [sub_add_cancel] at this
    linarith
  have hp : (0 : K) < 2 ^ 53 := by norm_num
  have h2' : |y2 - (w : K) * y1| ≤ (|(w : K) * a| + |(w : K) * a| / 2 ^ 53) / 2 ^ 53 :=
    le_trans h2 (div_le_div_of_nonneg_right hy (le_of_lt hp))
  have t : ((trunc y2 : Int) : K) - (w : K) * a =
      (((trunc y2 : Int) : K) - y2) + (y2 - (w : K) * y1) + ((w : K) * y1 - (w : K) * a) := by
    ring
  rw [t]
  have n0 := abs_nonneg ((w : K) * a)
  generalize |(w : K) * a| = c at hw h2' n0
  have b1 := abs_add (((trunc y2 : Int) : K) - y2 + (y2 - (w : K) * y1))
    ((w : K) * y1 - (w : K) * a)
  have b2 := abs_add (((trunc y2 : Int) : K) - y2) (y2 - (w : K) * y1)
  have e : (c + c / 2 ^ 53) / 2 ^ 53 + c / 2 ^ 53 ≤ 3 * c / 2 ^ 53 := by
    have : c / 2 ^ 53 / 2 ^ 53 ≤ c / 2 ^ 53 := by
      apply div_le_self (div_nonneg n0 (le_of_lt hp))
      norm_num
    have e2 : (c + c / 2 ^ 53) / 2 ^ 53 = c / 2 ^ 53 + c / 2 ^ 53 / 2 ^ 53 := by ring
    rw [e2]
    have e3 : 3 * c / 2 ^ 53 = c / 2 ^ 53 + c / 2 ^ 53 + c / 2 ^ 53 := by ring
    rw [e3]
    linarith
  linarith

end Rounding


/-! ## One visit of a pixel -/


/-- A loop whose step `a` touches the places `j` with `key a j` and sets them to
`fin j` of their value, `fin j` being idempotent: after the loop a place touched by some
step holds `fin j` of its first value and the others hold their first value. -/
theorem foldl_pointwise {S A J V : Type} (step : S → A → S) (Inv : S → Prop)
    (O : S → J → V) (G : J → Prop) (key : A → J → Prop) (fin : J → V → V)
    (hfin : ∀ j v, fin j (fin j v) = fin j v) (L : List A)
    (hstep : ∀ a ∈ L, ∀ s, Inv s → Inv (step s a) ∧ ∀ j, G j →
      (key a j → O (step s a) j = fin j (O s j)) ∧ (¬ key a j → O (step s a) j = O s j))
    (s : S) (hs : Inv s) :
    Inv (L.foldl step s) ∧ ∀ j, G j →
      ((∃ a ∈ L, key a j) → O (L.foldl step s) j = fin j (O s j)) ∧
      ((¬ ∃ a ∈ L, key a j) → O (L.foldl step s) j = O s j) := by
  induction L generalizing s with
  | nil =>
    refine ⟨hs, fun j _ => ⟨?_, fun _ => rfl⟩⟩
    rintro ⟨a, ha, -⟩
    simp at ha
  | cons a t ih =>
    obtain ⟨i1, o1⟩ := hstep a (List.mem_cons_self _ _) s hs
    obtain ⟨i2, o2⟩ := ih (fun b hb => hstep b (List.mem_cons_of_mem _ hb)) (step s a) i1
    rw [List.foldl_cons]
    refine ⟨i2, fun j hj => ?_⟩
    obtain ⟨p1, p2⟩ := o1 j hj
    obtain ⟨q1, q2⟩ := o2 j hj
    by_cases ht : ∃ b ∈ t, key b j
    · constructor
      · intro _
        rw [q1 ht]
        by_cases hk : key a j
        · rw [p1 hk, hfin]
        · rw [p2 hk]
      · intro hn
        exfalso
        obtain ⟨b, hb, hbj⟩ := ht
        exact hn ⟨b, List.mem_cons_of_mem _ hb, hbj⟩
    · constructor
      · rintro ⟨b, hb, hbj⟩
        rw [q2 ht]
        rcases List.mem_cons.mp hb with rfl | hb2
        · exact p1 hbj
        · exact absurd ⟨b, hb2, hbj⟩ ht
      · intro hn
        rw [q2 ht]
        exact p2 (fun hk => hn ⟨a, List.mem_cons_self _ _, hk⟩)

/-- The read of a surface after a write. -/
theorem SDL_Surface.peek_poke (s : SDL_Surface) (a b : Int) (v : Nat) :
    (s.poke a v).peek b =
      if a = b ∧ 0 ≤ a ∧ a < s.pixels.length then v else s.peek b := by
  unfold SDL_Surface.peek SDL_Surface.poke
  by_cases ha : 0 ≤ a
  · by_cases hb : 0 ≤ b
    · simp only [ha, hb, if_true, true_and]
      rw [List.getD_eq_getElem?_getD, List.getD_eq_getElem?_getD, List.getElem?_set]
      by_cases hab : a = b
      · subst hab
        by_cases hl : a < s.pixels.length
        · have : a.toNat < s.pixels.length := by omega
          simp [hl, this]
        · have : ¬ a.toNat < s.pixels.length := by omega
          have h2 : s.pixels[a.toNat]? = none := by
            apply List.getElem?_eq_none; omega
          simp [hl, this, h2]
      · have : ¬ a.toNat = b.toNat := by omega
        simp [hab, this]
    · have : ¬ a = b := by omega
      simp [ha, hb, this]
  · simp [ha]

theorem SDL_Surface.poke_w (s : SDL_Surface) (a : Int) (v : Nat) : (s.poke a v).w = s.w := by
  unfold SDL_Surface.poke; split <;> rfl

theorem SDL_Surface.poke_h (s : SDL_Surface) (a : Int) (v : Nat) : (s.poke a v).h = s.h := by
  unfold SDL_Surface.poke; split <;> rfl

theorem SDL_Surface.poke_length (s : SDL_Surface) (a : Int) (v : Nat) :
    (s.poke a v).pixels.length = s.pixels.length := by
  unfold SDL_Surface.poke; split <;> simp

/-- The offset of a pixel of the grid `W x H` is an index of an array of `W * H` elements. -/
theorem offset_in_bounds {W H : Nat} {w h : Int} (hw0 : 0 ≤ w) (hw1 : w < W) (hh0 : 0 ≤ h)
    (hh1 : h < H) : 0 ≤ h * (W : Int) + w ∧ h * (W : Int) + w < ((W * H : Nat) : Int) := by
  have h1 := mul_le_mul_of_nonneg_right (show h + 1 ≤ (H : Int) by omega) (Int.ofNat_nonneg W)
  have h2 := mul_nonneg hh0 (Int.ofNat_nonneg W)
  push_cast
  constructor <;> nlinarith

/-- Two pixels of the grid with the same offset are the same pixel. -/
theorem offset_injective {W : Nat} {w h w2 h2 : Int} (hw0 : 0 ≤ w) (hw1 : w < W)
    (hv0 : 0 ≤ w2) (hv1 : w2 < W) (he : h * (W : Int) + w = h2 * (W : Int) + w2) :
    w = w2 ∧ h = h2 := by
  have hh : h = h2 :=
    same_row (W := (W : Int)) (a := 0) (b := W) (c := 0) (d := W) (j := h * (W : Int) + w)
      (le_refl _) (le_refl _) (le_refl _) (le_refl _) (by omega) (by omega) (by omega)
      (by omega)
  subst hh
  exact ⟨by omega, rfl⟩

section Pass
variable {K : Type} [LinearOrderedField K] [FloorRing K]

theorem Mandelbrot.visited_idem (env : Extern K) (m : Mandelbrot K) (c : Frame K)
    (j : Int × Int) (v : PixelInfo × Nat) :
    Mandelbrot.visited env m c j (Mandelbrot.visited env m c j v) =
      Mandelbrot.visited env m c j v := by
  simp [Mandelbrot.visited]

/-- The colour computed in a state that has the colouring members of `m`. -/
theorem Mandelbrot.pixelValue_sameParams (env : Extern K) (m s : Mandelbrot K) (c : Frame K)
    (h w : Int) (hp : Mandelbrot.SameParams m s) :
    Mandelbrot.pixelValue env s c h w = Mandelbrot.pixelValue env m c h w := by
  obtain ⟨h1, h2, h3, h4⟩ := hp
  simp only [Mandelbrot.pixelValue, Mandelbrot.pixelColor, h1, h2, h3, h4]

/-- One visit of a pixel of the grid: the invariant of the pass is kept, the visited pixel
receives `visited`, every other pixel of the grid keeps its record and its value. -/
theorem Mandelbrot.drawPixel_observe (env : Extern K) (W H : Nat) (m s : Mandelbrot K)
    (c : Frame K) (h w : Int) (hw0 : 0 ≤ w) (hw1 : w < W) (hh0 : 0 ≤ h) (hh1 : h < H)
    (hs : Mandelbrot.PassInv W H m s) :
    Mandelbrot.PassInv W H m (s.drawPixel env c h w) ∧
    ∀ j, Mandelbrot.InGrid W H j →
      (j = (w, h) → Mandelbrot.observe W (s.drawPixel env c h w) j =
        Mandelbrot.visited env m c j (Mandelbrot.observe W s j)) ∧
      (¬ j = (w, h) → Mandelbrot.observe W (s.drawPixel env c h w) j =
        Mandelbrot.observe W s j) := by
  obtain ⟨⟨a1, a2, a3, a4, a5, p, hp, hl⟩, ⟨f1, f3, f2⟩, hpar⟩ := hs
  obtain ⟨hin0, hin⟩ := offset_in_bounds hw0 hw1 hh0 hh1
  have hget : ∀ x y : Int, s.render_info.get x y = load p (y * (W : Int) + x) := by
    intro x y
    simp [RenderInfo.get, hp, RenderInfo.atOffset, a4]
  have hdp := Mandelbrot.drawPixel_samplePoint env s c h w
  by_cases hr : (s.render_info.get w h).rendered = true
  · rw [hdp, if_pos hr]
    refine ⟨⟨⟨a1, a2, a3, a4, a5, p, hp, hl⟩, ⟨f1, f3, f2⟩, hpar⟩,
      fun j _ => ⟨?_, fun _ => rfl⟩⟩
    rintro rfl
    simp only [Mandelbrot.observe, Mandelbrot.visited, hr, if_true]
    have : s.render_info.get w h = ⟨true⟩ := by
      cases hg : s.render_info.get w h with
      | mk b => rw [hg] at hr; simp at hr; rw [hr]
    rw [this]
  · rw [hdp, if_neg hr]
    have hs1 : (s.render_info.set w h ⟨true⟩).pixels =
        some (store p (h * (W : Int) + w) ⟨true⟩) := by
      simp [RenderInfo.set, hp, RenderInfo.atOffset, a4]
    have hs2 : (s.render_info.set w h ⟨true⟩).width = W := by
      simp [RenderInfo.set, hp, a4]
    have hs3 : (s.render_info.set w h ⟨true⟩).height = H := by
      simp [RenderInfo.set, hp, a5]
    have hget2 : ∀ x y : Int, (s.render_info.set w h ⟨true⟩).get x y =
        load (store p (h * (W : Int) + w) ⟨true⟩) (y * (W : Int) + x) := by
      intro x y
      simp [RenderInfo.get, hs1, RenderInfo.atOffset, hs2]
    refine ⟨⟨⟨a1, a2, a3, hs2, hs3, _, hs1, by rw [store_length, hl]⟩,
      ⟨by simp only [SDL_Surface.poke_w]; exact f1,
       by simp only [SDL_Surface.poke_h]; exact f3,
       by simp only [SDL_Surface.poke_length]; exact f2⟩, hpar⟩, fun j hj => ?_⟩
    obtain ⟨g1, g2, g3, g4⟩ := hj
    have hval : Mandelbrot.pixelColor env s
        (mandelbrot (Mandelbrot.samplePoint c h w).1 (Mandelbrot.samplePoint c h w).2 s.iter).1
        (mandelbrot (Mandelbrot.samplePoint c h w).1
          (Mandelbrot.samplePoint c h w).2 s.iter).2.1
        (mandelbrot (Mandelbrot.samplePoint c h w).1
          (Mandelbrot.samplePoint c h w).2 s.iter).2.2 =
        Mandelbrot.pixelValue env m c h w :=
      Mandelbrot.pixelValue_sameParams env m s c h w hpar
    constructor
    · rintro rfl
      simp only [Mandelbrot.observe, Mandelbrot.visited, hget2, hget, load_store,
        SDL_Surface.peek_poke, f1, f2, hl]
      have hr2 : ¬ (load p (h * (W : Int) + w)).rendered = true := by
        rw [← hget]; exact hr
      rw [if_pos ⟨trivial, hin0, hin⟩, if_pos ⟨trivial, hin0, hin⟩, if_neg hr2, hval]
    · intro hne
      have hoff : ¬ h * (W : Int) + w = j.2 * (W : Int) + j.1 := by
        intro he
        obtain ⟨e1, e2⟩ := offset_injective hw0 hw1 g1 g2 he
        exact hne (Prod.ext e1.symm e2.symm)
      simp only [Mandelbrot.observe, hget2, hget, load_store, SDL_Surface.peek_poke, f1]
      rw [if_neg (fun hc => hoff hc.1), if_neg (fun hc => hoff hc.1)]

end Pass

section Pass
variable {K : Type} [LinearOrderedField K] [FloorRing K]

/-- The columns `[a, b)` of the row `h` visited in order: the pixels of the row in these
columns receive `visited`, the other pixels of the grid are left as they are. -/
theorem Mandelbrot.drawCols_observe (env : Extern K) (W H : Nat) (m s : Mandelbrot K)
    (c : Frame K) (h a b : Int) (ha : 0 ≤ a) (hb : b ≤ W) (hh0 : 0 ≤ h) (hh1 : h < H)
    (hs : Mandelbrot.PassInv W H m s) :
    Mandelbrot.PassInv W H m
      ((countUp a b).foldl (fun t w => Mandelbrot.drawPixel env t c h w) s) ∧
    ∀ j, Mandelbrot.InGrid W H j →
      ((j.2 = h ∧ a ≤ j.1 ∧ j.1 < b) →
        Mandelbrot.observe W
          ((countUp a b).foldl (fun t w => Mandelbrot.drawPixel env t c h w) s) j =
          Mandelbrot.visited env m c j (Mandelbrot.observe W s j)) ∧
      (¬ (j.2 = h ∧ a ≤ j.1 ∧ j.1 < b) →
        Mandelbrot.observe W
          ((countUp a b).foldl (fun t w => Mandelbrot.drawPixel env t c h w) s) j =
          Mandelbrot.observe W s j) := by
  obtain ⟨i1, o1⟩ := foldl_pointwise (fun t w => Mandelbrot.drawPixel env t c h w)
    (Mandelbrot.PassInv W H m) (Mandelbrot.observe W) (Mandelbrot.InGrid W H)
    (fun w j => j = (w, h)) (Mandelbrot.visited env m c) (Mandelbrot.visited_idem env m c)
    (countUp a b)
    (fun w hw t ht => by
      rw [mem_countUp] at hw
      exact Mandelbrot.drawPixel_observe env W H m t c h w (by omega) (by omega) hh0 hh1 ht)
    s hs
  refine ⟨i1, fun j hj => ⟨fun hk => (o1 j hj).1 ?_, fun hk => (o1 j hj).2 ?_⟩⟩
  · exact ⟨j.1, by rw [mem_countUp]; exact ⟨hk.2.1, hk.2.2⟩, Prod.ext rfl hk.1⟩
  · rintro ⟨w, hw, rfl⟩
    rw [mem_countUp] at hw
    exact hk ⟨rfl, hw.1, hw.2⟩

/-- The rows `rows` visited in order, each over the columns `[a, b)`. -/
theorem Mandelbrot.drawRowsCols_observe (env : Extern K) (W H : Nat) (m s : Mandelbrot K)
    (c : Frame K) (rows : List Int) (a b : Int) (ha : 0 ≤ a) (hb : b ≤ W)
    (hrows : ∀ h ∈ rows, 0 ≤ h ∧ h < (H : Int)) (hs : Mandelbrot.PassInv W H m s) :
    Mandelbrot.PassInv W H m
      (rows.foldl (fun t h =>
        (countUp a b).foldl (fun u w => Mandelbrot.drawPixel env u c h w) t) s) ∧
    ∀ j, Mandelbrot.InGrid W H j →
      ((j.2 ∈ rows ∧ a ≤ j.1 ∧ j.1 < b) →
        Mandelbrot.observe W (rows.foldl (fun t h =>
          (countUp a b).foldl (fun u w => Mandelbrot.drawPixel env u c h w) t) s) j =
          Mandelbrot.visited env m c j (Mandelbrot.observe W s j)) ∧
      (¬ (j.2 ∈ rows ∧ a ≤ j.1 ∧ j.1 < b) →
        Mandelbrot.observe W (rows.foldl (fun t h =>
          (countUp a b).foldl (fun u w => Mandelbrot.drawPixel env u c h w) t) s) j =
          Mandelbrot.observe W s j) := by
  obtain ⟨i1, o1⟩ := foldl_pointwise
    (fun t h => (countUp a b).foldl (fun u w => Mandelbrot.drawPixel env u c h w) t)
    (Mandelbrot.PassInv W H m) (Mandelbrot.observe W) (Mandelbrot.InGrid W H)
    (fun h j => j.2 = h ∧ a ≤ j.1 ∧ j.1 < b) (Mandelbrot.visited env m c)
    (Mandelbrot.visited_idem env m c) rows
    (fun h hh t ht =>
      Mandelbrot.drawCols_observe env W H m t c h a b ha hb (hrows h hh).1 (hrows h hh).2 ht)
    s hs
  refine ⟨i1, fun j hj => ⟨fun hk => (o1 j hj).1 ?_, fun hk => (o1 j hj).2 ?_⟩⟩
  · exact ⟨j.2, hk.1, rfl, hk.2⟩
  · rintro ⟨h, hh, rfl, hab⟩
    exact hk ⟨hh, hab⟩

/-- The loop of the serial `drawSurface`, not cancelled, is a loop over the rows and the
columns `[0, W)`. -/
theorem Mandelbrot.drawRows_eq_visits (env : Extern K) (W H : Nat) (m : Mandelbrot K)
    (c : Frame K) (rows : List Int) (hrows : ∀ h ∈ rows, 0 ≤ h ∧ h < (H : Int))
    (s : Mandelbrot K) (hs : Mandelbrot.PassInv W H m s) :
    Mandelbrot.drawRows env c rows s =
      rows.foldl (fun t h =>
        (countUp 0 W).foldl (fun u w => Mandelbrot.drawPixel env u c h w) t) s := by
  induction rows generalizing s with
  | nil => rfl
  | cons h t ih =>
    have hh := hrows h (List.mem_cons_self _ _)
    have hi := (Mandelbrot.drawCols_observe env W H m s c h 0 W (le_refl _) (le_refl _)
      hh.1 hh.2 hs).1
    simp only [Mandelbrot.drawRows, hs.1.2.2.1, List.foldl_cons, Mandelbrot.drawRow, hs.1.1]
    exact ih (fun k hk => hrows k (List.mem_cons_of_mem _ hk)) _ hi

/-- The loop over the rows of a block of the data-parallel `drawSurface`, not cancelled, is
a loop over the rows and the columns of the block. -/
theorem Tutorial6.drawBlockRows_eq_visits (env : Extern K) (W H : Nat) (m : Mandelbrot K)
    (c : Frame K) (r : Tutorial6.Block) (hc0 : 0 ≤ r.cols_begin) (hc1 : r.cols_end ≤ W)
    (rows : List Int) (hrows : ∀ h ∈ rows, 0 ≤ h ∧ h < (H : Int))
    (s : Mandelbrot K) (hs : Mandelbrot.PassInv W H m s) :
    Tutorial6.drawBlockRows env c r rows s =
      rows.foldl (fun t h =>
        (countUp r.cols_begin r.cols_end).foldl
          (fun u w => Mandelbrot.drawPixel env u c h w) t) s := by
  induction rows generalizing s with
  | nil => rfl
  | cons h t ih =>
    have hh := hrows h (List.mem_cons_self _ _)
    have hi := (Mandelbrot.drawCols_observe env W H m s c h r.cols_begin r.cols_end hc0 hc1
      hh.1 hh.2 hs).1
    simp only [Tutorial6.drawBlockRows, hs.1.2.2.1, List.foldl_cons]
    exact ih (fun k hk => hrows k (List.mem_cons_of_mem _ hk)) _ hi

/-- The loop of the serial `drawSurface` over the rows `rows`, not cancelled: the pixels of
these rows receive `visited`, the others are left as they are. -/
theorem Mandelbrot.drawRows_observe (env : Extern K) (W H : Nat) (m s : Mandelbrot K)
    (c : Frame K) (rows : List Int) (hrows : ∀ h ∈ rows, 0 ≤ h ∧ h < (H : Int))
    (hs : Mandelbrot.PassInv W H m s) :
    Mandelbrot.PassInv W H m (Mandelbrot.drawRows env c rows s) ∧
    ∀ j, Mandelbrot.InGrid W H j →
      (j.2 ∈ rows → Mandelbrot.observe W (Mandelbrot.drawRows env c rows s) j =
        Mandelbrot.visited env m c j (Mandelbrot.observe W s j)) ∧
      (¬ j.2 ∈ rows → Mandelbrot.observe W (Mandelbrot.drawRows env c rows s) j =
        Mandelbrot.observe W s j) := by
  rw [Mandelbrot.drawRows_eq_visits env W H m c rows hrows s hs]
  obtain ⟨i1, o1⟩ := Mandelbrot.drawRowsCols_observe env W H m s c rows 0 W (le_refl _)
    (le_refl _) hrows hs
  refine ⟨i1, fun j hj => ⟨fun hk => (o1 j hj).1 ⟨hk, hj.1, hj.2.1⟩,
    fun hk => (o1 j hj).2 (fun hc => hk hc.1)⟩⟩

/-- The body of the `parallel_for` for one block lying in the grid, not cancelled: the pixels
of the block receive `visited`, the others are left as they are. -/
theorem Tutorial6.drawBlock_observe (env : Extern K) (W H : Nat) (m s : Mandelbrot K)
    (c : Frame K) (r : Tutorial6.Block)
    (hr : 0 ≤ r.rows_begin ∧ r.rows_end ≤ H ∧ 0 ≤ r.cols_begin ∧ r.cols_end ≤ W)
    (hs : Mandelbrot.PassInv W H m s) :
    Mandelbrot.PassInv W H m (Tutorial6.drawBlock env c r s) ∧
    ∀ j, Mandelbrot.InGrid W H j →
      ((r.rows_begin ≤ j.2 ∧ j.2 < r.rows_end ∧ r.cols_begin ≤ j.1 ∧ j.1 < r.cols_end) →
        Mandelbrot.observe W (Tutorial6.drawBlock env c r s) j =
          Mandelbrot.visited env m c j (Mandelbrot.observe W s j)) ∧
      (¬ (r.rows_begin ≤ j.2 ∧ j.2 < r.rows_end ∧ r.cols_begin ≤ j.1 ∧ j.1 < r.cols_end) →
        Mandelbrot.observe W (Tutorial6.drawBlock env c r s) j = Mandelbrot.observe W s j) := by
  have hrows : ∀ h ∈ countUp r.rows_begin r.rows_end, 0 ≤ h ∧ h < (H : Int) := by
    intro h hh
    rw [mem_countUp] at hh
    omega
  unfold Tutorial6.drawBlock
  rw [Tutorial6.drawBlockRows_eq_visits env W H m c r hr.2.2.1 hr.2.2.2 _ hrows s hs]
  obtain ⟨i1, o1⟩ := Mandelbrot.drawRowsCols_observe env W H m s c
    (countUp r.rows_begin r.rows_end) r.cols_begin r.cols_end hr.2.2.1 hr.2.2.2 hrows hs
  refine ⟨i1, fun j hj => ⟨fun hk => (o1 j hj).1 ?_, fun hk => (o1 j hj).2 ?_⟩⟩
  · rw [mem_countUp]
    exact ⟨⟨hk.1, hk.2.1⟩, hk.2.2⟩
  · rw [mem_countUp]
    rintro ⟨⟨h1, h2⟩, h3⟩
    exact hk ⟨h1, h2, h3⟩

/-- The data-parallel `drawSurface` over blocks lying in the grid, not cancelled: the
pixels of the blocks receive `visited`, the others are left as they are. -/
theorem Tutorial6.drawSurface_observe (env : Extern K) (W H : Nat) (m : Mandelbrot K)
    (blocks : List Tutorial6.Block)
    (hin : ∀ r ∈ blocks,
      0 ≤ r.rows_begin ∧ r.rows_end ≤ H ∧ 0 ≤ r.cols_begin ∧ r.cols_end ≤ W)
    (hs : Mandelbrot.PassInv W H m m) :
    Mandelbrot.PassInv W H m (Tutorial6.drawSurface env m blocks) ∧
    ∀ j, Mandelbrot.InGrid W H j →
      ((∃ r ∈ blocks,
          r.rows_begin ≤ j.2 ∧ j.2 < r.rows_end ∧ r.cols_begin ≤ j.1 ∧ j.1 < r.cols_end) →
        Mandelbrot.observe W (Tutorial6.drawSurface env m blocks) j =
          Mandelbrot.visited env m m.frame j (Mandelbrot.observe W m j)) ∧
      ((¬ ∃ r ∈ blocks,
          r.rows_begin ≤ j.2 ∧ j.2 < r.rows_end ∧ r.cols_begin ≤ j.1 ∧ j.1 < r.cols_end) →
        Mandelbrot.observe W (Tutorial6.drawSurface env m blocks) j =
          Mandelbrot.observe W m j) :=
  foldl_pointwise (fun t r => Tutorial6.drawBlock env m.frame r t)
    (Mandelbrot.PassInv W H m) (Mandelbrot.observe W) (Mandelbrot.InGrid W H)
    (fun r j =>
      r.rows_begin ≤ j.2 ∧ j.2 < r.rows_end ∧ r.cols_begin ≤ j.1 ∧ j.1 < r.cols_end)
    (Mandelbrot.visited env m m.frame) (Mandelbrot.visited_idem env m m.frame) blocks
    (fun r hr t ht => Tutorial6.drawBlock_observe env W H m t m.frame r (hin r hr) ht)
    m hs

/-- Two surfaces of the dimensions `W x H` that agree at every pixel of the grid are
equal. -/
theorem SDL_Surface.ext_grid (W H : Nat) (a b : SDL_Surface) (ha : a.w = W) (hb : b.w = W)
    (ha2 : a.h = H) (hb2 : b.h = H) (la : a.pixels.length = W * H)
    (lb : b.pixels.length = W * H)
    (h : ∀ x y : Int, 0 ≤ x → x < W → 0 ≤ y → y < H →
      a.peek (y * W + x) = b.peek (y * W + x)) : a = b := by
  have hp : a.pixels = b.pixels := by
    apply List.ext_getElem (by rw [la, lb])
    intro i h1 h2
    have hW : 0 < W := by
      rcases Nat.eq_zero_or_pos W with h0 | h0
      · rw [la, h0] at h1; simp at h1
      · exact h0
    have hlt : i / W < H := by
      rw [Nat.div_lt_iff_lt_mul hW]
      rw [la] at h1
      rw [Nat.mul_comm]; exact h1
    have := h ((i % W : Nat) : Int) ((i / W : Nat) : Int) (Int.ofNat_nonneg _)
      (by exact_mod_cast Nat.mod_lt i hW) (Int.ofNat_nonneg _) (by exact_mod_cast hlt)
    have e : (((i / W : Nat) : Int) * (W : Int) + ((i % W : Nat) : Int)) = ((i : Nat) : Int) := by
      have := Nat.div_add_mod i W
      rw [Nat.mul_comm] at this
      exact_mod_cast this
    rw [e] at this
    unfold SDL_Surface.peek at this
    rw [if_pos (Int.ofNat_nonneg _), if_pos (Int.ofNat_nonneg _), Int.toNat_ofNat,
      List.getD_eq_getElem?_getD, List.getD_eq_getElem?_getD,
      List.getElem?_eq_getElem h1, List.getElem?_eq_getElem h2] at this
    simpa using this
  cases a
  cases b
  simp only [] at ha hb ha2 hb2 hp
  simp only [SDL_Surface.mk.injEq]
  exact ⟨by rw [ha, hb], by rw [ha2, hb2], hp⟩

/-- Two arrays of `W * H` records that agree at the offset of every pixel of the grid are
equal. -/
theorem records_ext_grid (W H : Nat) (p q : List PixelInfo) (lp : p.length = W * H)
    (lq : q.length = W * H)
    (h : ∀ x y : Int, 0 ≤ x → x < W → 0 ≤ y → y < H →
      load p (y * W + x) = load q (y * W + x)) : p = q := by
  apply List.ext_getElem (by rw [lp, lq])
  intro i h1 h2
  have hW : 0 < W := by
    rcases Nat.eq_zero_or_pos W with h0 | h0
    · rw [lp, h0] at h1; simp at h1
    · exact h0
  have hlt : i / W < H := by
    rw [Nat.div_lt_iff_lt_mul hW]
    rw [lp] at h1
    rw [Nat.mul_comm]; exact h1
  have := h ((i % W : Nat) : Int) ((i / W : Nat) : Int) (Int.ofNat_nonneg _)
    (by exact_mod_cast Nat.mod_lt i hW) (Int.ofNat_nonneg _) (by exact_mod_cast hlt)
  have e : (((i / W : Nat) : Int) * (W : Int) + ((i % W : Nat) : Int)) = ((i : Nat) : Int) := by
    have := Nat.div_add_mod i W
    rw [Nat.mul_comm] at this
    exact_mod_cast this
  rw [e] at this
  unfold load at this
  rw [if_pos (Int.ofNat_nonneg _), if_pos (Int.ofNat_nonneg _), Int.toNat_ofNat,
    List.getD_eq_getElem?_getD, List.getD_eq_getElem?_getD,
    List.getElem?_eq_getElem h1, List.getElem?_eq_getElem h2] at this
  simpa using this

end Pass

/-- Two states of a pass that show the same record and the same value at every pixel of the
grid have the same framebuffer and the same cache. -/
theorem Mandelbrot.PassInv_ext {K : Type} (W H : Nat) (m s t : Mandelbrot K)
    (hs : Mandelbrot.PassInv W H m s) (ht : Mandelbrot.PassInv W H m t)
    (h : ∀ j, Mandelbrot.InGrid W H j → Mandelbrot.observe W s j = Mandelbrot.observe W t j) :
    s.surface = t.surface ∧ s.render_info = t.render_info := by
  obtain ⟨⟨-, -, -, a4, a5, p, hp, hl⟩, ⟨f1, f3, f2⟩, -⟩ := hs
  obtain ⟨⟨-, -, -, b4, b5, q, hq, hm⟩, ⟨g1, g3, g2⟩, -⟩ := ht
  constructor
  · apply SDL_Surface.ext_grid W H _ _ f1 g1 f3 g3 f2 g2
    intro x y hx0 hx1 hy0 hy1
    have := congrArg Prod.snd (h (x, y) ⟨hx0, hx1, hy0, hy1⟩)
    exact this
  · have e : p = q := by
      apply records_ext_grid W H p q hl hm
      intro x y hx0 hx1 hy0 hy1
      have := congrArg Prod.fst (h (x, y) ⟨hx0, hx1, hy0, hy1⟩)
      simpa [Mandelbrot.observe, RenderInfo.get, hp, hq, RenderInfo.atOffset, a4, b4] using this
    cases hs : s.render_info
    cases ht : t.render_info
    rw [hs] at a4 a5 hp
    rw [ht] at b4 b5 hq
    simp only [] at a4 a5 hp b4 b5 hq
    rw [RenderInfo.mk.injEq]
    exact ⟨by rw [hp, hq, e], by rw [a4, b4], by rw [a5, b5]⟩

theorem countUp_append (a b c : Int) (hab : a ≤ b) (hbc : b ≤ c) :
    countUp a c = countUp a b ++ countUp b c := by
  unfold countUp
  have e : (c - a).toNat = (b - a).toNat + (c - b).toNat := by omega
  rw [e, List.range_add, List.map_append, List.map_map]
  congr 1
  apply List.map_congr_left
  intro i _
  simp only [Function.comp]
  push_cast
  omega

section Pass
variable {K : Type} [LinearOrderedField K] [FloorRing K]

theorem Mandelbrot.drawRow_stop_all (env : Extern K) (m : Mandelbrot K) (c : Frame K)
    (h : Int) : (m.drawRow env c h).stop_all = m.stop_all := by
  unfold Mandelbrot.drawRow
  apply foldl_keeps (fun s : Mandelbrot K => s.stop_all)
  intro s w
  simp only [Mandelbrot.drawPixel]
  split <;> rfl

theorem Mandelbrot.drawRows_keeps_stop_all (env : Extern K) (c : Frame K) (rows : List Int)
    (m : Mandelbrot K) : (Mandelbrot.drawRows env c rows m).stop_all = m.stop_all := by
  induction rows generalizing m with
  | nil => rfl
  | cons h t ih =>
    simp only [Mandelbrot.drawRows]
    split
    · rfl
    · rw [ih, Mandelbrot.drawRow_stop_all]

/-- The loop of `drawSurface` over the rows `a ++ b` is the loop over `a` followed by the
loop over `b`. -/
theorem Mandelbrot.drawRows_append (env : Extern K) (c : Frame K) (a b : List Int)
    (m : Mandelbrot K) :
    Mandelbrot.drawRows env c (a ++ b) m =
      Mandelbrot.drawRows env c b (Mandelbrot.drawRows env c a m) := by
  induction a generalizing m with
  | nil => rfl
  | cons h t ih =>
    simp only [List.cons_append, Mandelbrot.drawRows]
    by_cases hs : m.stop_all = true
    · rw [if_pos hs, if_pos hs, Mandelbrot.drawRows_stop_all env c b m hs]
    · rw [if_neg hs, if_neg hs]
      exact ih _

end Pass

theorem Mandelbrot.PassInv_self {K : Type} (W H : Nat) (m : Mandelbrot K)
    (hd : m.Drawable W H) (hf : m.SurfaceFits W H) : Mandelbrot.PassInv W H m m :=
  ⟨hd, hf, rfl, rfl, rfl, rfl⟩

theorem loadChecked_eq (m : List PixelInfo) (a : Int) (h0 : 0 ≤ a) (h1 : a < m.length) :
    loadChecked m a = some (load m a) := by
  unfold loadChecked
  rw [if_pos ⟨h0, h1⟩]

theorem storeChecked_eq (m : List PixelInfo) (a : Int) (v : PixelInfo) (h0 : 0 ≤ a)
    (h1 : a < m.length) : storeChecked m a v = some (store m a v) := by
  unfold storeChecked
  rw [if_pos ⟨h0, h1⟩]

/-- A fill whose range lies in the array makes no access outside it. -/
theorem fill_nChecked_eq (m : List PixelInfo) (first : Int) (v : PixelInfo) (n : Nat)
    (h0 : 0 ≤ first) (h1 : first + n ≤ m.length) :
    fill_nChecked m first v n = some (fill_n m first v n) := by
  induction n generalizing m first with
  | zero => rfl
  | succ n ih =>
    push_cast at h1
    simp only [fill_nChecked, fill_n]
    rw [storeChecked_eq m first v h0 (by omega), Option.some_bind]
    exact ih _ _ (by omega) (by rw [store_length]; omega)

/-- A forward copy whose source and destination ranges lie in the array makes no access
outside it. -/
theorem copyForwardChecked_eq (m : List PixelInfo) (first result : Int) (n : Nat)
    (hf0 : 0 ≤ first) (hf1 : first + n ≤ m.length) (hr0 : 0 ≤ result)
    (hr1 : result + n ≤ m.length) :
    copyForwardChecked m first result n = some (copyForward m first result n) := by
  induction n generalizing m first result with
  | zero => rfl
  | succ n ih =>
    push_cast at hf1 hr1
    simp only [copyForwardChecked, copyForward]
    rw [loadChecked_eq m first hf0 (by omega), Option.some_bind,
      storeChecked_eq m result _ hr0 (by omega), Option.some_bind]
    exact ih _ _ _ (by omega) (by rw [store_length]; omega) (by omega)
      (by rw [store_length]; omega)

/-- A backward copy whose source and destination ranges lie in the array makes no access
outside it. -/
theorem copyBackwardChecked_eq (m : List PixelInfo) (last result : Int) (n : Nat)
    (hl0 : 0 ≤ last - n) (hl1 : last ≤ m.length) (hr0 : 0 ≤ result - n)
    (hr1 : result ≤ m.length) :
    copyBackwardChecked m last result n = some (copyBackward m last result n) := by
  induction n generalizing m last result with
  | zero => rfl
  | succ n ih =>
    push_cast at hl0 hr0
    simp only [copyBackwardChecked, copyBackward]
    rw [loadChecked_eq m (last - 1) (by omega) (by omega), Option.some_bind,
      storeChecked_eq m (result - 1) _ (by omega) (by omega), Option.some_bind]
    exact ih _ _ _ (by omega) (by rw [store_length]; omega) (by omega)
      (by rw [store_length]; omega)

/-- A checked loop all of whose steps succeed is the unchecked loop. -/
theorem foldlM_eq_some {S A : Type} (f : S → A → Option S) (g : S → A → S) (I : S → Prop)
    (L : List A) (h : ∀ a ∈ L, ∀ s, I s → f s a = some (g s a) ∧ I (g s a))
    (s : S) (hs : I s) : L.foldlM f s = some (L.foldl g s) := by
  induction L generalizing s with
  | nil => rfl
  | cons a t ih =>
    obtain ⟨e, i⟩ := h a (List.mem_cons_self _ _) s hs
    rw [List.foldlM_cons, e, List.foldl_cons]
    exact ih (fun b hb => h b (List.mem_cons_of_mem _ hb)) _ i

/-- The first and the last offset of the row `h` of a grid `W x H`. -/
theorem row_bounds (W H : Nat) (h : Int) (h0 : 0 ≤ h) (h1 : h < H) :
    0 ≤ h * (W : Int) ∧ h * (W : Int) + W ≤ ((W * H : Nat) : Int) := by
  have a := mul_nonneg h0 (Int.ofNat_nonneg W)
  have b := mul_le_mul_of_nonneg_right (show h + 1 ≤ (H : Int) by omega) (Int.ofNat_nonneg W)
  push_cast
  constructor <;> nlinarith

/-- With `|rel_px| ≤ width`, `RenderInfo::move` reads and writes only elements of the
array. -/
theorem RenderInfo.moveChecked_eq (r : RenderInfo) (p : List PixelInfo) (dpx dpy : Int)
    (hp : r.pixels = some p) (hlen : p.length = r.width * r.height)
    (hdx : |dpx| ≤ r.width) : r.moveChecked dpx dpy = some (r.move dpx dpy) := by
  rw [abs_le] at hdx
  unfold RenderInfo.moveChecked RenderInfo.move
  simp only [hp, RenderInfo.atChecked, RenderInfo.atOffset]
  by_cases c1 : dpx ≥ 0 ∧ dpy ≥ 0
  · rw [if_pos c1, if_pos c1]
    rw [foldlM_eq_some _ (fun m h => std_move_backward m (h * (r.width : Int) + 0)
      (h * (r.width : Int) + ((r.width : Int) - dpx)) ((h + dpy) * (r.width : Int) + r.width))
      (fun m => m.length = r.width * r.height) _ _ p hlen]
    · rfl
    · intro h hh m hm
      rw [mem_countDown] at hh
      obtain ⟨b1, b2⟩ := row_bounds r.width r.height h hh.1 (by omega)
      obtain ⟨b3, b4⟩ := row_bounds r.width r.height (h + dpy) (by omega) (by omega)
      refine ⟨?_, by dsimp only; unfold std_move_backward; rw [copyBackward_length, hm]⟩
      dsimp only
      rw [if_pos ⟨le_refl _, by omega⟩, Option.some_bind, if_pos ⟨by omega, by omega⟩,
        Option.some_bind, if_pos ⟨Int.ofNat_nonneg _, by omega⟩, Option.some_bind]
      unfold std_move_backwardChecked std_move_backward
      rw [if_neg (by omega)]
      apply copyBackwardChecked_eq <;> (try rw [hm]) <;> omega
  rw [if_neg c1, if_neg c1]
  by_cases c2 : dpx ≥ 0 ∧ dpy ≤ 0
  · rw [if_pos c2, if_pos c2]
    rw [foldlM_eq_some _ (fun m h => std_move_backward m (h * (r.width : Int) + 0)
      (h * (r.width : Int) + ((r.width : Int) - dpx)) ((h + dpy) * (r.width : Int) + r.width))
      (fun m => m.length = r.width * r.height) _ _ p hlen]
    · rfl
    · intro h hh m hm
      rw [mem_countUp] at hh
      obtain ⟨b1, b2⟩ := row_bounds r.width r.height h (by omega) hh.2
      obtain ⟨b3, b4⟩ := row_bounds r.width r.height (h + dpy) (by omega) (by omega)
      refine ⟨?_, by dsimp only; unfold std_move_backward; rw [copyBackward_length, hm]⟩
      dsimp only
      rw [if_pos ⟨le_refl _, by omega⟩, Option.some_bind, if_pos ⟨by omega, by omega⟩,
        Option.some_bind, if_pos ⟨Int.ofNat_nonneg _, by omega⟩, Option.some_bind]
      unfold std_move_backwardChecked std_move_backward
      rw [if_neg (by omega)]
      apply copyBackwardChecked_eq <;> (try rw [hm]) <;> omega
  rw [if_neg c2, if_neg c2]
  by_cases c3 : dpx ≤ 0 ∧ dpy ≥ 0
  · rw [if_pos c3, if_pos c3]
    rw [foldlM_eq_some _ (fun m h => std_move m (h * (r.width : Int) + -dpx)
      (h * (r.width : Int) + (r.width : Int)) ((h + dpy) * (r.width : Int) + 0))
      (fun m => m.length = r.width * r.height) _ _ p hlen]
    · rfl
    · intro h hh m hm
      rw [mem_countDown] at hh
      obtain ⟨b1, b2⟩ := row_bounds r.width r.height h hh.1 (by omega)
      obtain ⟨b3, b4⟩ := row_bounds r.width r.height (h + dpy) (by omega) (by omega)
      refine ⟨?_, by dsimp only; unfold std_move; rw [copyForward_length, hm]⟩
      dsimp only
      rw [if_pos ⟨by omega, by omega⟩, Option.some_bind,
        if_pos ⟨Int.ofNat_nonneg _, by omega⟩, Option.some_bind,
        if_pos ⟨le_refl _, by omega⟩, Option.some_bind]
      unfold std_moveChecked std_move
      rw [if_neg (by omega)]
      apply copyForwardChecked_eq <;> (try rw [hm]) <;> omega
  rw [if_neg c3, if_neg c3]
  by_cases c4 : dpx ≤ 0 ∧ dpy ≤ 0
  · rw [if_pos c4, if_pos c4]
    rw [foldlM_eq_some _ (fun m h => std_move m (h * (r.width : Int) + -dpx)
      (h * (r.width : Int) + (r.width : Int)) ((h + dpy) * (r.width : Int) + 0))
      (fun m => m.length = r.width * r.height) _ _ p hlen]
    · rfl
    · intro h hh m hm
      rw [mem_countUp] at hh
      obtain ⟨b1, b2⟩ := row_bounds r.width r.height h (by omega) hh.2
      obtain ⟨b3, b4⟩ := row_bounds r.width r.height (h + dpy) (by omega) (by omega)
      refine ⟨?_, by dsimp only; unfold std_move; rw [copyForward_length, hm]⟩
      dsimp only
      rw [if_pos ⟨by omega, by omega⟩, Option.some_bind,
        if_pos ⟨Int.ofNat_nonneg _, by omega⟩, Option.some_bind,
        if_pos ⟨le_refl _, by omega⟩, Option.some_bind]
      unfold std_moveChecked std_move
      rw [if_neg (by omega)]
      apply copyForwardChecked_eq <;> (try rw [hm]) <;> omega
  rw [if_neg c4, if_neg c4]

/-- For a rectangle whose left edge lies in the grid, `RenderInfo::fillRect` writes only
elements of the array. -/
theorem RenderInfo.fillRectChecked_eq (r : RenderInfo) (p : List PixelInfo) (rect : SDL_Rect)
    (info : PixelInfo) (hp : r.pixels = some p) (hlen : p.length = r.width * r.height)
    (hrx0 : 0 ≤ rect.x) (hrx1 : rect.x ≤ r.width) :
    r.fillRectChecked rect info = some (r.fillRect rect info) := by
  have hW : (0 : Int) ≤ r.width := Int.ofNat_nonneg _
  have hH : (0 : Int) ≤ r.height := Int.ofNat_nonneg _
  unfold RenderInfo.fillRectChecked RenderInfo.fillRect
  simp only [hp, RenderInfo.atOffset]
  rw [foldlM_eq_some _ (fun m h => fill_n m (h * (r.width : Int) + SDL_clamp rect.x 0 r.width)
    info (SDL_clamp (rect.x + rect.w) 0 r.width - rect.x).toNat)
    (fun m => m.length = r.width * r.height) _ _ p hlen]
  · rfl
  · intro h hh m hm
    rw [mem_countUp] at hh
    rw [SDL_clamp_eq _ _ hH, SDL_clamp_eq _ _ hH] at hh
    obtain ⟨b1, b2⟩ := row_bounds r.width r.height h (by omega) (by omega)
    refine ⟨?_, by dsimp only; rw [fill_n_length, hm]⟩
    rw [SDL_clamp_eq _ _ hW, SDL_clamp_eq _ _ hW]
    apply fill_nChecked_eq <;> (try rw [hm]) <;> omega

/-- The checked pan shift does refuse a shift that leaves the array: on a `3 x 2` cache a
shift by `-4` columns reads outside it. -/
theorem moveCacheChecked_refuses : moveCacheChecked sampleCache 3 2 (-4) 0 = none := by
  decide

/-- With `|rel_px| ≤ width`, the three calls that `Mandelbrot::move` makes on the cache
read and write only elements of the array. -/
theorem moveCacheChecked_eq (info : RenderInfo) (p : List PixelInfo) (dpx dpy : Int)
    (hp : info.pixels = some p) (hlen : p.length = info.width * info.height)
    (hdx : |dpx| ≤ info.width) :
    moveCacheChecked info info.width info.height dpx dpy =
      some (moveCache info info.width info.height dpx dpy) := by
  unfold moveCacheChecked moveCache
  rw [RenderInfo.moveChecked_eq info p dpx dpy hp hlen hdx, Option.some_bind]
  obtain ⟨q, hq, hql, -⟩ := RenderInfo.move_get info p dpx dpy hp hlen hdx
  rw [hq]
  have hx1 := Mandelbrot.moveRects_fst_x info.width info.height dpx dpy
  obtain ⟨hx2, hx3⟩ := Mandelbrot.moveRects_snd_x info.width info.height dpx dpy
    (Int.ofNat_nonneg _) hdx
  rw [RenderInfo.fillRectChecked_eq { info with pixels := some q } q _ PixelInfo.zero rfl hql
    (by rw [hx1]) (by rw [hx1]; exact Int.ofNat_nonneg _), Option.some_bind]
  obtain ⟨q2, hq2, hql2, -⟩ := RenderInfo.fillRect_get { info with pixels := some q } q
    (Mandelbrot.moveRects info.width info.height dpx dpy).1 PixelInfo.zero rfl hql
    (by rw [hx1]) (by rw [hx1]; exact Int.ofNat_nonneg _)
  rw [hq2]
  exact RenderInfo.fillRectChecked_eq _ q2 _ PixelInfo.zero rfl hql2 hx2 hx3

/-! ## The scaled blit -/


section Blit
variable {K : Type} [LinearOrderedField K] [FloorRing K]

/-- The function `roundf` leaves an integer as it is. -/
theorem roundf_intCast (n : Int) : roundf (n : K) = n := by
  unfold roundf
  split_ifs
  · rw [Int.floor_eq_iff]
    constructor <;> linarith
  · rw [Int.ceil_eq_iff]
    constructor <;> linarith

/-- The function `blitScaled` writes `blitValue` to each pixel of `dst`, row by row. -/
theorem blitScaled_eq_pokes (src : SDL_Surface) (srcrect : Option SDL_Rect)
    (dst : SDL_Surface) (dstrect : Option SDL_Rect) :
    blitScaled K src srcrect dst dstrect =
      (countUp 0 dst.h).foldl (fun d h =>
        (countUp 0 dst.w).foldl (fun d w =>
          d.poke (dst.w * h + w) (blitValue K src srcrect dst dstrect w h)) d) dst := by
  unfold blitScaled blitValue
  simp only []
  congr 1
  funext d h
  congr 1
  funext d w
  split <;> rfl

end Blit

/-- One row of writes to the pixels of a surface of the dimensions `W x H`. -/
theorem pokeRow_observe (W H : Nat) (val : Int → Int → Nat) (h : Int) (hh0 : 0 ≤ h)
    (hh1 : h < H) (d : SDL_Surface) (hl : d.pixels.length = W * H) :
    ((countUp 0 W).foldl (fun d w => d.poke ((W : Int) * h + w) (val w h)) d).pixels.length =
      W * H ∧
    ∀ j, Mandelbrot.InGrid W H j →
      (j.2 = h →
        ((countUp 0 W).foldl (fun d w => d.poke ((W : Int) * h + w) (val w h)) d).peek
          ((W : Int) * j.2 + j.1) = val j.1 j.2) ∧
      (¬ j.2 = h →
        ((countUp 0 W).foldl (fun d w => d.poke ((W : Int) * h + w) (val w h)) d).peek
          ((W : Int) * j.2 + j.1) = d.peek ((W : Int) * j.2 + j.1)) := by
  obtain ⟨i1, o1⟩ := foldl_pointwise
    (fun (d : SDL_Surface) (w : Int) => d.poke ((W : Int) * h + w) (val w h))
    (fun d => d.pixels.length = W * H)
    (fun d (j : Int × Int) => d.peek ((W : Int) * j.2 + j.1)) (Mandelbrot.InGrid W H)
    (fun w j => j = (w, h)) (fun j _ => val j.1 j.2) (fun _ _ => rfl) (countUp 0 W)
    (fun w hw t ht => by
      rw [mem_countUp] at hw
      obtain ⟨b0, b1⟩ := offset_in_bounds (W := W) (H := H) hw.1 (by omega) hh0 hh1
      refine ⟨by dsimp only; rw [SDL_Surface.poke_length]; exact ht, fun j hj => ⟨?_, ?_⟩⟩
      · rintro rfl
        simp only [SDL_Surface.peek_poke]
        rw [if_pos ⟨trivial, by rw [mul_comm]; exact b0, by rw [ht, mul_comm]; exact b1⟩]
      · intro hne
        simp only [SDL_Surface.peek_poke]
        rw [if_neg]
        rintro ⟨he, -⟩
        have he2 : h * (W : Int) + w = j.2 * (W : Int) + j.1 := by
          rw [mul_comm h, mul_comm j.2]; exact he
        obtain ⟨e1, e2⟩ := offset_injective hw.1 (by omega) hj.1 hj.2.1 he2
        exact hne (Prod.ext e1.symm e2.symm))
    d hl
  refine ⟨i1, fun j hj => ⟨fun hk => (o1 j hj).1 ?_, fun hk => (o1 j hj).2 ?_⟩⟩
  · exact ⟨j.1, by rw [mem_countUp]; exact ⟨hj.1, by simpa using hj.2.1⟩, Prod.ext rfl hk⟩
  · rintro ⟨w, -, rfl⟩
    exact hk rfl

/-- All rows of writes: every pixel of the grid holds the value written to it. -/
theorem pokeGrid_observe (W H : Nat) (val : Int → Int → Nat) (d : SDL_Surface)
    (hl : d.pixels.length = W * H) :
    ∀ j, Mandelbrot.InGrid W H j →
      ((countUp 0 H).foldl (fun d h =>
        (countUp 0 W).foldl (fun d w => d.poke ((W : Int) * h + w) (val w h)) d) d).peek
          ((W : Int) * j.2 + j.1) = val j.1 j.2 := by
  obtain ⟨-, o1⟩ := foldl_pointwise
    (fun (d : SDL_Surface) (h : Int) =>
      (countUp 0 W).foldl (fun d w => d.poke ((W : Int) * h + w) (val w h)) d)
    (fun d => d.pixels.length = W * H)
    (fun d (j : Int × Int) => d.peek ((W : Int) * j.2 + j.1)) (Mandelbrot.InGrid W H)
    (fun h j => j.2 = h) (fun j _ => val j.1 j.2) (fun _ _ => rfl) (countUp 0 H)
    (fun h hh t ht => by
      rw [mem_countUp] at hh
      exact pokeRow_observe W H val h hh.1 (by omega) t ht)
    d hl
  intro j hj
  exact (o1 j hj).1 ⟨j.2, by rw [mem_countUp]; exact ⟨hj.2.2.1, by simpa using hj.2.2.2⟩, rfl⟩

/-! ## The pan with its cache calls checked -/

section MoveChecked

variable {K : Type} [LinearOrderedField K] [FloorRing K]

end MoveChecked

section Rect

variable {K : Type} [LinearOrderedField K] [FloorRing K]

/-- Where `setScaleRect` is defined it is the rectangle `{ w / 2, h / 2, width - w,
height - h }` of the truncated products `w` and `h`. -/
theorem Mandelbrot.setScaleRect_eq (m : Mandelbrot K) (scale : K) (rect : SDL_Rect)
    (h : m.setScaleRect scale = some rect) :
    rect =
      ⟨(trunc (toDouble ((m.width : K) * toDouble (1 - toDouble (m.scale / scale))))).tdiv 2,
        (trunc (toDouble ((m.height : K) * toDouble (1 - toDouble (m.scale / scale))))).tdiv 2,
        m.width - trunc (toDouble ((m.width : K) * toDouble (1 - toDouble (m.scale / scale)))),
        m.height -
          trunc (toDouble ((m.height : K) * toDouble (1 - toDouble (m.scale / scale))))⟩ := by
  unfold Mandelbrot.setScaleRect at h
  split_ifs at h
  simp only [] at h
  cases hw : toInt (toDouble ((m.width : K) * toDouble (1 - toDouble (m.scale / scale)))) with
  | none => rw [hw] at h; exact Option.noConfusion h
  | some w =>
    cases hh : toInt (toDouble ((m.height : K) * toDouble (1 - toDouble (m.scale / scale)))) with
    | none => rw [hw, hh] at h; exact Option.noConfusion h
    | some h' =>
      rw [hw, hh] at h
      rw [← toInt_eq_some _ _ hw, ← toInt_eq_some _ _ hh]
      exact (Option.some.inj h).symm

/-- Where `setScaleToRect` is defined, `width` and `height` are not `0` and it is the
rectangle `{ w * (px / width), h * (py / height), width - w, height - h }` of the truncated
products. -/
theorem Mandelbrot.setScaleToRect_eq (m : Mandelbrot K) (scale px py : K) (rect : SDL_Rect)
    (h : m.setScaleToRect scale px py = some rect) :
    m.width ≠ 0 ∧ m.height ≠ 0 ∧
    rect =
      ⟨trunc (toDouble (((trunc (toDouble ((m.width : K) *
          toDouble (1 - toDouble (m.scale / scale)))) : Int) : K) *
          toDouble (px / (m.width : K)))),
        trunc (toDouble (((trunc (toDouble ((m.height : K) *
          toDouble (1 - toDouble (m.scale / scale)))) : Int) : K) *
          toDouble (py / (m.height : K)))),
        m.width - trunc (toDouble ((m.width : K) * toDouble (1 - toDouble (m.scale / scale)))),
        m.height -
          trunc (toDouble ((m.height : K) * toDouble (1 - toDouble (m.scale / scale))))⟩ := by
  unfold Mandelbrot.setScaleToRect at h
  split_ifs at h with c
  rw [not_or, not_or] at c
  refine ⟨c.2.1, c.2.2, ?_⟩
  simp only [] at h
  cases hw : toInt (toDouble ((m.width : K) * toDouble (1 - toDouble (m.scale / scale)))) with
  | none => rw [hw] at h; exact Option.noConfusion h
  | some w =>
    cases hh : toInt (toDouble ((m.height : K) * toDouble (1 - toDouble (m.scale / scale)))) with
    | none => rw [hw, hh] at h; exact Option.noConfusion h
    | some h' =>
      rw [hw, hh] at h
      simp only [Option.some_bind] at h
      cases hx : toInt (toDouble ((w : K) * toDouble (px / (m.width : K)))) with
      | none => rw [hx] at h; exact Option.noConfusion h
      | some x =>
        cases hy : toInt (toDouble ((h' : K) * toDouble (py / (m.height : K)))) with
        | none => rw [hx, hy] at h; exact Option.noConfusion h
        | some y =>
          rw [hx, hy] at h
          rw [← toInt_eq_some _ _ hw, ← toInt_eq_some _ _ hh, ← toInt_eq_some _ _ hx,
            ← toInt_eq_some _ _ hy]
          exact (Option.some.inj h).symm

/-- For a new scale of `0` the source divides by zero and converts an infinity or a NaN to
`int`: the rectangles have no defined value. -/
theorem Mandelbrot.setScaleRect_zero (m : Mandelbrot K) (px py : K) :
    m.setScaleRect 0 = none ∧ m.setScaleToRect 0 px py = none := by
  constructor
  · unfold Mandelbrot.setScaleRect
    rw [if_pos rfl]
  · unfold Mandelbrot.setScaleToRect
    rw [if_pos (Or.inl rfl)]

/-- The rectangle of `setScale` is computed after `stop`, which changes none of the members
it is computed from. -/
theorem Mandelbrot.stop_setScaleRect (env : Extern K) (m : Mandelbrot K) (scale : K) :
    (m.stop env).setScaleRect scale = m.setScaleRect scale := by
  obtain ⟨-, -, h3, -, h5, h6⟩ := Mandelbrot.stop_viewport env m
  simp only [Mandelbrot.setScaleRect, h3, h5, h6]

/-- The method `setScale` hands the rectangle `setScaleRect` to `SDL_BlitScaled`. -/
theorem Mandelbrot.setScale_uses_rect (env : Extern K) (m : Mandelbrot K) (scale : K)
    (rect : SDL_Rect) (h : m.setScaleRect scale = some rect) :
    m.setScale env scale =
      Mandelbrot.update env
        { m.stop env with
          surface := env.SDL_BlitScaled (m.stop env).surface
            (env.SDL_FillRect (m.stop env).surface_temp none 0) rect,
          surface_temp := (m.stop env).surface,
          scale := scale } true false := by
  rw [← Mandelbrot.stop_setScaleRect env] at h
  rw [Mandelbrot.setScaleRect_eq _ _ _ h]
  rfl

/-- The method `setScaleTo` hands the rectangle `setScaleToRect` to `blitScaled`. -/
theorem Mandelbrot.setScaleTo_uses_rect (m : Mandelbrot K) (scale px py : K)
    (rect : SDL_Rect) (h : m.setScaleToRect scale px py = some rect) :
    (m.setScaleTo_body scale px py).surface =
      blitScaled K m.surface none m.surface_temp (some rect) := by
  rw [(Mandelbrot.setScaleToRect_eq _ _ _ _ _ h).2.2]
  rfl

end Rect

/-! ## The rescale rectangles of the sample engines -/

theorem toDouble_four_fifths :
    toDouble (4 / 5 : ℚ) = 3602879701896397 / 4503599627370496 := by
  unfold toDouble
  rw [roundTo_eval 53 _ (-1) 7205759403792794 (by norm_num) (by norm_num) (by norm_num)
    (by norm_num [abs_lt])]
  norm_num

theorem toDouble_one_fifth :
    toDouble (900719925474099 / 4503599627370496 : ℚ) = 900719925474099 / 4503599627370496 := by
  unfold toDouble
  exact roundTo_of_exact 53 _ (-3) 7205759403792792 (by norm_num) (by norm_num) (by norm_num)
    (by norm_num)


theorem toDouble_w :
    toDouble (4503599627370495 / 17592186044416 : ℚ) = 4503599627370495 / 17592186044416 := by
  unfold toDouble
  exact roundTo_of_exact 53 _ 7 9007199254740990 (by norm_num) (by norm_num) (by norm_num)
    (by norm_num)

theorem toDouble_h :
    toDouble (40532396646334455 / 281474976710656 : ℚ) =
      5066549580791807 / 35184372088832 := by
  unfold toDouble
  rw [roundTo_eval 53 _ 7 5066549580791807 (by norm_num) (by norm_num) (by norm_num)
    (by norm_num [abs_lt])]
  norm_num

theorem toDouble_half : toDouble (1 / 2 : ℚ) = 1 / 2 := by
  unfold toDouble
  exact roundTo_of_exact 53 _ (-1) 4503599627370496 (by norm_num) (by norm_num) (by norm_num)
    (by norm_num)

theorem toInt_eval (x : ℚ) (n : Int) (h0 : 0 ≤ x) (h1 : (n : ℚ) ≤ x) (h2 : x < (n : ℚ) + 1)
    (h3 : x < 2147483648) : toInt x = some n := by
  unfold toInt
  rw [if_pos ⟨by linarith, h3⟩, trunc_eq_of_nonneg x n h0 h1 h2]

theorem sampleWindow_setScaleRect :
    sampleWindow.setScaleRect (5 / 4) = some ⟨127, 71, 1025, 577⟩ := by
  have hs : sampleWindow.scale = 1 := rfl
  have hw : sampleWindow.width = 1280 := rfl
  have hh : sampleWindow.height = 720 := rfl
  unfold Mandelbrot.setScaleRect
  rw [if_neg (by norm_num)]
  simp only [hs, hw, hh]
  have a : (1 : ℚ) / (5 / 4) = 4 / 5 := by norm_num
  have b : (1 : ℚ) - 3602879701896397 / 4503599627370496 =
      900719925474099 / 4503599627370496 := by norm_num
  have c : ((1280 : Int) : ℚ) * (900719925474099 / 4503599627370496) =
      4503599627370495 / 17592186044416 := by norm_num
  have d : ((720 : Int) : ℚ) * (900719925474099 / 4503599627370496) =
      40532396646334455 / 281474976710656 := by norm_num
  rw [a, toDouble_four_fifths, b, toDouble_one_fifth, c, d, toDouble_w, toDouble_h]
  rw [toInt_eval _ 255 (by norm_num) (by norm_num) (by norm_num) (by norm_num),
    toInt_eval _ 143 (by norm_num) (by norm_num) (by norm_num) (by norm_num)]
  rfl


theorem toDouble_x : toDouble (255 / 2 : ℚ) = 255 / 2 := by
  unfold toDouble
  exact roundTo_of_exact 53 _ 6 8972014882652160 (by norm_num) (by norm_num) (by norm_num)
    (by norm_num)

theorem toDouble_y : toDouble (143 / 2 : ℚ) = 143 / 2 := by
  unfold toDouble
  exact roundTo_of_exact 53 _ 6 5031365208702976 (by norm_num) (by norm_num) (by norm_num)
    (by norm_num)

theorem sampleWindow_setScaleToRect :
    sampleWindow.setScaleToRect (5 / 4) 640 360 = some ⟨127, 71, 1025, 577⟩ := by
  have hs : sampleWindow.scale = 1 := rfl
  have hw : sampleWindow.width = 1280 := rfl
  have hh : sampleWindow.height = 720 := rfl
  unfold Mandelbrot.setScaleToRect
  rw [if_neg (by rw [hw, hh]; norm_num)]
  simp only [hs, hw, hh]
  have a : (1 : ℚ) / (5 / 4) = 4 / 5 := by norm_num
  have b : (1 : ℚ) - 3602879701896397 / 4503599627370496 =
      900719925474099 / 4503599627370496 := by norm_num
  have c : ((1280 : Int) : ℚ) * (900719925474099 / 4503599627370496) =
      4503599627370495 / 17592186044416 := by norm_num
  have d : ((720 : Int) : ℚ) * (900719925474099 / 4503599627370496) =
      40532396646334455 / 281474976710656 := by norm_num
  rw [a, toDouble_four_fifths, b, toDouble_one_fifth, c, d, toDouble_w, toDouble_h]
  rw [toInt_eval _ 255 (by norm_num) (by norm_num) (by norm_num) (by norm_num),
    toInt_eval _ 143 (by norm_num) (by norm_num) (by norm_num) (by norm_num)]
  simp only [Option.some_bind]
  have f : (640 : ℚ) / ((1280 : Int) : ℚ) = 1 / 2 := by norm_num
  have g : (360 : ℚ) / ((720 : Int) : ℚ) = 1 / 2 := by norm_num
  have i : ((255 : Int) : ℚ) * (1 / 2) = 255 / 2 := by norm_num
  have j : ((143 : Int) : ℚ) * (1 / 2) = 143 / 2 := by norm_num
  rw [f, g, toDouble_half, i, j, toDouble_x, toDouble_y]
  rw [toInt_eval _ 127 (by norm_num) (by norm_num) (by norm_num) (by norm_num),
    toInt_eval _ 71 (by norm_num) (by norm_num) (by norm_num) (by norm_num)]
  rfl

theorem toDouble_three_halves : toDouble (3 / 2 : ℚ) = 3 / 2 := by
  unfold toDouble
  exact roundTo_of_exact 53 _ 0 6755399441055744 (by norm_num) (by norm_num) (by norm_num)
    (by norm_num)

theorem toDouble_one : toDouble (1 : ℚ) = 1 := by
  unfold toDouble
  exact roundTo_of_exact 53 _ 0 4503599627370496 (by norm_num) (by norm_num) (by norm_num)
    (by norm_num)

theorem toDouble_third :
    toDouble (1 / 3 : ℚ) = 6004799503160661 / 18014398509481984 := by
  unfold toDouble
  rw [roundTo_eval 53 _ (-2) 6004799503160661 (by norm_num) (by norm_num) (by norm_num)
    (by norm_num [abs_lt])]
  norm_num

theorem toDouble_third_again :
    toDouble (6004799503160661 / 18014398509481984 : ℚ) =
      6004799503160661 / 18014398509481984 := by
  unfold toDouble
  exact roundTo_of_exact 53 _ (-2) 6004799503160661 (by norm_num) (by norm_num) (by norm_num)
    (by norm_num)

/-- The margins and the rectangles of the `3 x 2` sample engine rescaled from `1` to `2`,
with the cursor at `(1, 1)`. -/
theorem sampleEngine_setScaleRect :
    trunc (toDouble ((sampleEngine.width : ℚ) *
      toDouble (1 - toDouble (sampleEngine.scale / 2)))) = 1 ∧
    trunc (toDouble ((sampleEngine.height : ℚ) *
      toDouble (1 - toDouble (sampleEngine.scale / 2)))) = 1 ∧
    sampleEngine.setScaleRect 2 = some ⟨0, 0, 2, 1⟩ ∧
    sampleEngine.setScaleToRect 2 1 1 = some ⟨0, 0, 2, 1⟩ := by
  have hs : sampleEngine.scale = 1 := rfl
  have hw : sampleEngine.width = 3 := rfl
  have hh : sampleEngine.height = 2 := rfl
  have a : (1 : ℚ) - 1 / 2 = 1 / 2 := by norm_num
  have c : ((3 : Int) : ℚ) * (1 / 2) = 3 / 2 := by norm_num
  have d : ((2 : Int) : ℚ) * (1 / 2) = 1 := by norm_num
  have e1 : trunc (toDouble ((sampleEngine.width : ℚ) *
      toDouble (1 - toDouble (sampleEngine.scale / 2)))) = 1 := by
    rw [hs, hw, toDouble_half, a, toDouble_half, c, toDouble_three_halves]
    exact trunc_eq_of_nonneg _ 1 (by norm_num) (by norm_num) (by norm_num)
  have e2 : trunc (toDouble ((sampleEngine.height : ℚ) *
      toDouble (1 - toDouble (sampleEngine.scale / 2)))) = 1 := by
    rw [hs, hh, toDouble_half, a, toDouble_half, d, toDouble_one]
    exact trunc_eq_of_nonneg _ 1 (by norm_num) (by norm_num) (by norm_num)
  refine ⟨e1, e2, ?_, ?_⟩
  · unfold Mandelbrot.setScaleRect
    rw [if_neg (by norm_num)]
    simp only [hs, hw, hh]
    rw [toDouble_half, a, toDouble_half, c, d, toDouble_three_halves, toDouble_one]
    rw [toInt_eval _ 1 (by norm_num) (by norm_num) (by norm_num) (by norm_num),
      toInt_eval _ 1 (by norm_num) (by norm_num) (by norm_num) (by norm_num)]
    rfl
  · unfold Mandelbrot.setScaleToRect
    rw [if_neg (by rw [hw, hh]; norm_num)]
    simp only [hs, hw, hh]
    rw [toDouble_half, a, toDouble_half, c, d, toDouble_three_halves, toDouble_one]
    rw [toInt_eval _ 1 (by norm_num) (by norm_num) (by norm_num) (by norm_num),
      toInt_eval _ 1 (by norm_num) (by norm_num) (by norm_num) (by norm_num)]
    simp only [Option.some_bind]
    have f : (1 : ℚ) / ((3 : Int) : ℚ) = 1 / 3 := by norm_num
    have g : (1 : ℚ) / ((2 : Int) : ℚ) = 1 / 2 := by norm_num
    have i : ((1 : Int) : ℚ) * (6004799503160661 / 18014398509481984) =
        6004799503160661 / 18014398509481984 := by norm_num
    have j : ((1 : Int) : ℚ) * (1 / 2) = 1 / 2 := by norm_num
    rw [f, g, toDouble_third, toDouble_half, i, j, toDouble_third_again, toDouble_half]
    rw [toInt_eval _ 0 (by norm_num) (by norm_num) (by norm_num) (by norm_num),
      toInt_eval _ 0 (by norm_num) (by norm_num) (by norm_num) (by norm_num)]
    rfl

/-! ## The source point of a destination pixel -/

section BlitMap

variable {K : Type} [LinearOrderedField K] [FloorRing K]

/-- The coordinate that `map` computes in `float` before `roundf`, for a source of `W`
columns from `0`, a destination rectangle of `rw` columns and a pixel `d` columns into it:
the six roundings move it from the exact `W / rw * d` by at most `7 / 2 ^ 24` of that
value. -/
theorem blit_coordinate_near (W rw d : Int) (hW : 0 ≤ W) (hrw : 0 < rw) (hd : 0 ≤ d) :
    |toFloat (toFloat (toFloat (toFloat (W : K) / toFloat (rw : K)) * toFloat (d : K)) +
      toFloat (((0 : Int) : K))) - (W : K) / (rw : K) * (d : K)| ≤
      7 / 2 ^ 24 * ((W : K) / (rw : K) * (d : K)) := by
  have hWk : (0 : K) ≤ (W : K) := by exact_mod_cast hW
  have hrk : (0 : K) < (rw : K) := by exact_mod_cast hrw
  have hdk : (0 : K) ≤ (d : K) := by exact_mod_cast hd
  unfold toFloat
  have z : roundTo 24 (((0 : Int) : K)) = 0 := by rw [Int.cast_zero, roundTo_zero]
  rw [z, add_zero]
  have hlo : (0 : K) < 1 - 1 / 2 ^ 24 := by norm_num
  have hhi : (0 : K) < 1 + 1 / 2 ^ 24 := by norm_num
  obtain ⟨a1, a2⟩ := roundTo_between 24 (W : K) hWk
  have a0 := roundTo_nonneg 24 (W : K) hWk
  obtain ⟨b1, b2⟩ := roundTo_between 24 (rw : K) (le_of_lt hrk)
  have b0 := roundTo_pos 24 (by decide) (rw : K) hrk
  obtain ⟨c1, c2⟩ := roundTo_between 24 (d : K) hdk
  have c0 := roundTo_nonneg 24 (d : K) hdk
  generalize roundTo 24 (W : K) = a at a0 a1 a2
  generalize roundTo 24 (rw : K) = b at b0 b1 b2
  generalize roundTo 24 (d : K) = c at c0 c1 c2
  have r0 : (0 : K) ≤ (W : K) / (rw : K) := div_nonneg hWk (le_of_lt hrk)
  have q0 : 0 ≤ a / b := div_nonneg a0 (le_of_lt b0)
  have ab2 : a / b ≤ (1 + 1 / 2 ^ 24) / (1 - 1 / 2 ^ 24) * ((W : K) / (rw : K)) := by
    calc a / b ≤ ((1 + 1 / 2 ^ 24) * (W : K)) / ((1 - 1 / 2 ^ 24) * (rw : K)) :=
          div_le_div₀ (mul_nonneg (le_of_lt hhi) hWk) a2 (mul_pos hlo hrk) b1
      _ = (1 + 1 / 2 ^ 24) / (1 - 1 / 2 ^ 24) * ((W : K) / (rw : K)) := by
          rw [mul_div_mul_comm]
  have ab1 : (1 - 1 / 2 ^ 24) / (1 + 1 / 2 ^ 24) * ((W : K) / (rw : K)) ≤ a / b := by
    calc (1 - 1 / 2 ^ 24) / (1 + 1 / 2 ^ 24) * ((W : K) / (rw : K))
        = ((1 - 1 / 2 ^ 24) * (W : K)) / ((1 + 1 / 2 ^ 24) * (rw : K)) := by
          rw [mul_div_mul_comm]
      _ ≤ a / b := div_le_div₀ a0 a1 b0 b2
  generalize (W : K) / (rw : K) = r at r0 ab1 ab2 ⊢
  obtain ⟨q1, q2⟩ := roundTo_between 24 (a / b) q0
  have qn := roundTo_nonneg 24 (a / b) q0
  generalize roundTo 24 (a / b) = q at q1 q2 qn
  generalize a / b = ab at q1 q2 ab1 ab2
  have m0 : 0 ≤ q * c := mul_nonneg qn c0
  obtain ⟨p1, p2⟩ := roundTo_between 24 (q * c) m0
  have pn := roundTo_nonneg 24 (q * c) m0
  generalize roundTo 24 (q * c) = pr at p1 p2 pn
  obtain ⟨s1, s2⟩ := roundTo_between 24 pr pn
  generalize roundTo 24 pr = s at s1 s2
  -- the product `q * c` between multiples of `r * d`
  have t0 : 0 ≤ r * (d : K) := mul_nonneg r0 hdk
  have qhi : q ≤ (1 + 1 / 2 ^ 24) * ((1 + 1 / 2 ^ 24) / (1 - 1 / 2 ^ 24) * r) :=
    le_trans q2 (mul_le_mul_of_nonneg_left ab2 (le_of_lt hhi))
  have qlo : (1 - 1 / 2 ^ 24) * ((1 - 1 / 2 ^ 24) / (1 + 1 / 2 ^ 24) * r) ≤ q :=
    le_trans (mul_le_mul_of_nonneg_left ab1 (le_of_lt hlo)) q1
  have mhi : q * c ≤ (1 + 1 / 2 ^ 24) * ((1 + 1 / 2 ^ 24) / (1 - 1 / 2 ^ 24) * r) *
      ((1 + 1 / 2 ^ 24) * (d : K)) :=
    mul_le_mul qhi c2 c0 (le_trans qn qhi)
  have mlo : (1 - 1 / 2 ^ 24) * ((1 - 1 / 2 ^ 24) / (1 + 1 / 2 ^ 24) * r) *
      ((1 - 1 / 2 ^ 24) * (d : K)) ≤ q * c :=
    mul_le_mul qlo c1 (mul_nonneg (le_of_lt hlo) hdk) qn
  have e1 : (1 + 1 / 2 ^ 24) * ((1 + 1 / 2 ^ 24) / (1 - 1 / 2 ^ 24) * r) *
      ((1 + 1 / 2 ^ 24) * (d : K)) =
      ((1 + 1 / 2 ^ 24) ^ 3 / (1 - 1 / 2 ^ 24)) * (r * (d : K)) := by ring
  have e2 : (1 - 1 / 2 ^ 24) * ((1 - 1 / 2 ^ 24) / (1 + 1 / 2 ^ 24) * r) *
      ((1 - 1 / 2 ^ 24) * (d : K)) =
      ((1 - 1 / 2 ^ 24) ^ 3 / (1 + 1 / 2 ^ 24)) * (r * (d : K)) := by ring
  rw [e1] at mhi
  rw [e2] at mlo
  generalize r * (d : K) = t at t0 mhi mlo ⊢
  generalize q * c = m at mhi mlo p1 p2
  have k2 : (1 + 1 / 2 ^ 24) * ((1 + 1 / 2 ^ 24) * ((1 + 1 / 2 ^ 24) ^ 3 / (1 - 1 / 2 ^ 24))) ≤
      (1 + 7 / 2 ^ 24 : K) := by norm_num
  have k1 : (1 - 7 / 2 ^ 24 : K) ≤
      (1 - 1 / 2 ^ 24) * ((1 - 1 / 2 ^ 24) * ((1 - 1 / 2 ^ 24) ^ 3 / (1 + 1 / 2 ^ 24))) := by
    norm_num
  have u2 : s ≤ (1 + 7 / 2 ^ 24) * t := by
    calc s ≤ (1 + 1 / 2 ^ 24) * pr := s2
      _ ≤ (1 + 1 / 2 ^ 24) * ((1 + 1 / 2 ^ 24) * m) :=
          mul_le_mul_of_nonneg_left p2 (le_of_lt hhi)
      _ ≤ (1 + 1 / 2 ^ 24) * ((1 + 1 / 2 ^ 24) *
            ((1 + 1 / 2 ^ 24) ^ 3 / (1 - 1 / 2 ^ 24) * t)) :=
          mul_le_mul_of_nonneg_left (mul_le_mul_of_nonneg_left mhi (le_of_lt hhi))
            (le_of_lt hhi)
      _ = (1 + 1 / 2 ^ 24) * ((1 + 1 / 2 ^ 24) *
            ((1 + 1 / 2 ^ 24) ^ 3 / (1 - 1 / 2 ^ 24))) * t := by ring
      _ ≤ (1 + 7 / 2 ^ 24) * t := mul_le_mul_of_nonneg_right k2 t0
  have u1 : (1 - 7 / 2 ^ 24) * t ≤ s := by
    calc (1 - 7 / 2 ^ 24) * t
        ≤ (1 - 1 / 2 ^ 24) * ((1 - 1 / 2 ^ 24) *
            ((1 - 1 / 2 ^ 24) ^ 3 / (1 + 1 / 2 ^ 24))) * t := mul_le_mul_of_nonneg_right k1 t0
      _ = (1 - 1 / 2 ^ 24) * ((1 - 1 / 2 ^ 24) *
            ((1 - 1 / 2 ^ 24) ^ 3 / (1 + 1 / 2 ^ 24) * t)) := by ring
      _ ≤ (1 - 1 / 2 ^ 24) * ((1 - 1 / 2 ^ 24) * m) :=
          mul_le_mul_of_nonneg_left (mul_le_mul_of_nonneg_left mlo (le_of_lt hlo))
            (le_of_lt hlo)
      _ ≤ (1 - 1 / 2 ^ 24) * pr := mul_le_mul_of_nonneg_left p1 (le_of_lt hlo)
      _ ≤ s := s1
  rw [abs_le]
  constructor <;> linarith

end BlitMap

section BlitMap2

variable {K : Type} [LinearOrderedField K] [FloorRing K]

/-- The function `roundf` moves a value by at most one half. -/
theorem roundf_near (x : K) : |(roundf x : K) - x| ≤ 1 / 2 := by
  unfold roundf
  rw [abs_le]
  split_ifs
  · have h1 := Int.floor_le (x + 1 / 2)
    have h2 := Int.lt_floor_add_one (x + 1 / 2)
    constructor <;> linarith
  · have h1 := Int.le_ceil (x - 1 / 2)
    have h2 := Int.ceil_lt_add_one (x - 1 / 2)
    constructor <;> linarith

/-- After `blitScaled` into a surface of the dimensions `W x H`, each pixel of the grid holds
the colour `blitValue`. -/
theorem blitScaled_peek (src dst : SDL_Surface) (rect : SDL_Rect) (W H : Nat) (w h : Int)
    (hdw : dst.w = W) (hdh : dst.h = H) (hl : dst.pixels.length = W * H)
    (hw0 : 0 ≤ w) (hw1 : w < W) (hh0 : 0 ≤ h) (hh1 : h < H) :
    (blitScaled K src none dst (some rect)).peek (dst.w * h + w) =
      blitValue K src none dst (some rect) w h := by
  rw [blitScaled_eq_pokes, hdw, hdh]
  exact pokeGrid_observe W H (fun w h => blitValue K src none dst (some rect) w h) dst hl (w, h)
    ⟨hw0, hw1, hh0, hh1⟩

/-- The column of the source that `map` gives for a pixel at or right of the left edge of
the destination rectangle lies within one half, and the rounding of the operations on
`float`, of the exact `W / rect.w * (w - rect.x)`. -/
theorem blitMap_fst_near (W H : Int) (rect : SDL_Rect) (w h : Int) (hW : 0 ≤ W)
    (hrw : 0 < rect.w) (hw : rect.x ≤ w) :
    |((blitMap K ⟨0, 0, W, H⟩ rect w h).1 : K) -
        (W : K) / (rect.w : K) * ((w - rect.x : Int) : K)| ≤
      1 / 2 + 7 / 2 ^ 24 * ((W : K) / (rect.w : K) * ((w - rect.x : Int) : K)) := by
  have h1 := blit_coordinate_near (K := K) W rect.w (w - rect.x) hW hrw (by omega)
  have h2 := roundf_near (toFloat (toFloat (toFloat (toFloat (W : K) / toFloat (rect.w : K)) *
    toFloat ((w - rect.x : Int) : K)) + toFloat (((0 : Int) : K))))
  unfold blitMap
  simp only []
  rw [abs_le] at h1 h2 ⊢
  constructor <;> linarith

/-- The row of the source that `map` gives for a pixel at or below the upper edge of the
destination rectangle. -/
theorem blitMap_snd_near (W H : Int) (rect : SDL_Rect) (w h : Int) (hH : 0 ≤ H)
    (hrh : 0 < rect.h) (hh : rect.y ≤ h) :
    |((blitMap K ⟨0, 0, W, H⟩ rect w h).2 : K) -
        (H : K) / (rect.h : K) * ((h - rect.y : Int) : K)| ≤
      1 / 2 + 7 / 2 ^ 24 * ((H : K) / (rect.h : K) * ((h - rect.y : Int) : K)) := by
  have h1 := blit_coordinate_near (K := K) H rect.h (h - rect.y) hH hrh (by omega)
  have h2 := roundf_near (toFloat (toFloat (toFloat (toFloat (H : K) / toFloat (rect.h : K)) *
    toFloat ((h - rect.y : Int) : K)) + toFloat (((0 : Int) : K))))
  unfold blitMap
  simp only []
  rw [abs_le] at h1 h2 ⊢
  constructor <;> linarith

/-- For a source of at most `2 ^ 20` columns, `map` sends the closed right edge of the
destination rectangle to the column `W`, which is outside the source. -/
theorem blitMap_fst_edge (W H : Int) (rect : SDL_Rect) (h : Int) (hW : 0 ≤ W)
    (hW2 : W ≤ 1048576) (hrw : 0 < rect.w) :
    (blitMap K ⟨0, 0, W, H⟩ rect (rect.x + rect.w) h).1 = W := by
  have h1 := blit_coordinate_near (K := K) W rect.w rect.w hW hrw (le_of_lt hrw)
  have hWk0 : (0 : K) ≤ (W : K) := by exact_mod_cast hW
  have hWk : (W : K) ≤ 1048576 := by exact_mod_cast hW2
  have hrk : (rect.w : K) ≠ 0 := by
    have : (0 : K) < (rect.w : K) := by exact_mod_cast hrw
    exact ne_of_gt this
  have e : (W : K) / (rect.w : K) * (rect.w : K) = (W : K) := by field_simp
  rw [e] at h1
  have e2 : rect.x + rect.w - rect.x = rect.w := by ring
  unfold blitMap
  simp only [e2]
  apply roundf_of_near
  rw [abs_le] at h1
  rw [abs_lt]
  norm_num at h1 ⊢
  constructor <;> linarith

/-- For a source of at most `2 ^ 20` rows, `map` sends the closed lower edge of the
destination rectangle to the row `H`, which is outside the source. -/
theorem blitMap_snd_edge (W H : Int) (rect : SDL_Rect) (w : Int) (hH : 0 ≤ H)
    (hH2 : H ≤ 1048576) (hrh : 0 < rect.h) :
    (blitMap K ⟨0, 0, W, H⟩ rect w (rect.y + rect.h)).2 = H := by
  have h1 := blit_coordinate_near (K := K) H rect.h rect.h hH hrh (le_of_lt hrh)
  have hHk0 : (0 : K) ≤ (H : K) := by exact_mod_cast hH
  have hHk : (H : K) ≤ 1048576 := by exact_mod_cast hH2
  have hrk : (rect.h : K) ≠ 0 := by
    have : (0 : K) < (rect.h : K) := by exact_mod_cast hrh
    exact ne_of_gt this
  have e : (H : K) / (rect.h : K) * (rect.h : K) = (H : K) := by field_simp
  rw [e] at h1
  have e2 : rect.y + rect.h - rect.y = rect.h := by ring
  unfold blitMap
  simp only [e2]
  apply roundf_of_near
  rw [abs_le] at h1
  rw [abs_lt]
  norm_num at h1 ⊢
  constructor <;> linarith

end BlitMap2

/-! ## The scaled blit on sample surfaces -/

/-- The source point for column `11` of a destination rectangle of `22` columns, from a
source of `13` columns: `rx` is `13 / 22` rounded down to `float`, the product
`6.4999995...` lies below the exact `6.5`, and `roundf` gives column `6`. -/
theorem blitMap_sample : blitMap ℚ ⟨0, 0, 13, 1⟩ ⟨0, 0, 22, 1⟩ 11 0 = (6, 0) := by
  have f13 : toFloat (13 : ℚ) = 13 := by
    unfold toFloat
    exact roundTo_of_exact 24 _ 3 13631488 (by norm_num) (by norm_num) (by norm_num)
      (by norm_num)
  have f22 : toFloat (22 : ℚ) = 22 := by
    unfold toFloat
    exact roundTo_of_exact 24 _ 4 11534336 (by norm_num) (by norm_num) (by norm_num)
      (by norm_num)
  have f11 : toFloat (11 : ℚ) = 11 := by
    unfold toFloat
    exact roundTo_of_exact 24 _ 3 11534336 (by norm_num) (by norm_num) (by norm_num)
      (by norm_num)
  have f1 : toFloat (1 : ℚ) = 1 := by
    unfold toFloat
    exact roundTo_of_exact 24 _ 0 8388608 (by norm_num) (by norm_num) (by norm_num)
      (by norm_num)
  have f0 : toFloat (0 : ℚ) = 0 := roundTo_zero 24
  have frx : toFloat (13 / 22 : ℚ) = 9913809 / 16777216 := by
    unfold toFloat
    rw [roundTo_eval 24 _ (-1) 9913809 (by norm_num) (by norm_num) (by norm_num)
      (by norm_num [abs_lt])]
    norm_num
  have fp : toFloat (109051899 / 16777216 : ℚ) = 13631487 / 2097152 := by
    unfold toFloat
    rw [roundTo_eval 24 _ 2 13631487 (by norm_num) (by norm_num) (by norm_num)
      (by norm_num [abs_lt])]
    norm_num
  have fs : toFloat (13631487 / 2097152 : ℚ) = 13631487 / 2097152 := by
    unfold toFloat
    exact roundTo_of_exact 24 _ 2 13631487 (by norm_num) (by norm_num) (by norm_num)
      (by norm_num)
  have r6 : roundf (13631487 / 2097152 : ℚ) = 6 :=
    roundf_of_near _ 6 (by norm_num [abs_lt])
  have r0 : roundf (0 : ℚ) = 0 := roundf_of_near _ 0 (by norm_num)
  unfold blitMap
  norm_num [f13, f22, f11, f1, f0, frx, fp, fs, r6, r0]

/-- The source point for the column `8388608`, the closed right edge of a destination
rectangle of `8388608` columns, from a source of `16777217` columns: `(float)16777217` is
`16777216`, `rx` is `2`, and `map` gives the column `16777216`, which is a column of the
source. -/
theorem blitMap_wide :
    blitMap ℚ ⟨0, 0, 16777217, 1⟩ ⟨0, 0, 8388608, 1⟩ 8388608 0 = (16777216, 0) := by
  have fW : toFloat (16777217 : ℚ) = 16777216 := by
    unfold toFloat
    rw [roundTo_of_pos 24 _ 24 (by norm_num) (by norm_num) (by norm_num)]
    have e : (16777217 : ℚ) / 2 ^ ((24 : Int) - (((24 : Nat) : Int) - 1)) =
        ((8388608 : Int) : ℚ) + 1 / 2 := by norm_num
    rw [e, roundEven_half, if_pos (by decide)]
    norm_num
  have fr : toFloat (8388608 : ℚ) = 8388608 := by
    unfold toFloat
    exact roundTo_of_exact 24 _ 23 8388608 (by norm_num) (by norm_num) (by norm_num)
      (by norm_num)
  have f2 : toFloat (2 : ℚ) = 2 := by
    unfold toFloat
    exact roundTo_of_exact 24 _ 1 8388608 (by norm_num) (by norm_num) (by norm_num)
      (by norm_num)
  have fp : toFloat (16777216 : ℚ) = 16777216 := by
    unfold toFloat
    exact roundTo_of_exact 24 _ 24 8388608 (by norm_num) (by norm_num) (by norm_num)
      (by norm_num)
  have f1 : toFloat (1 : ℚ) = 1 := by
    unfold toFloat
    exact roundTo_of_exact 24 _ 0 8388608 (by norm_num) (by norm_num) (by norm_num)
      (by norm_num)
  have f0 : toFloat (0 : ℚ) = 0 := roundTo_zero 24
  have rW : roundf (16777216 : ℚ) = 16777216 := roundf_of_near _ 16777216 (by norm_num)
  have r0 : roundf (0 : ℚ) = 0 := roundf_of_near _ 0 (by norm_num)
  unfold blitMap
  norm_num [fW, fr, f2, fp, f1, f0, rW, r0]

/-- The colour that `blitScaled` writes to the pixel `(8388608, 0)` of the wide staging
surface is the colour `1` of the source. -/
theorem blitScaled_wide :
    (blitScaled ℚ wideSource none wideStaging (some ⟨0, 0, 8388608, 1⟩)).peek
      (wideStaging.w * 0 + 8388608) = 1 := by
  rw [blitScaled_peek wideSource wideStaging ⟨0, 0, 8388608, 1⟩ 16777217 1 8388608 0
    (by norm_num [wideStaging]) (by norm_num [wideStaging])
    (by simp only [wideStaging, List.length_replicate, mul_one])
    (by norm_num) (by norm_num) (by norm_num) (by norm_num)]
  have hm : blitMap ℚ ⟨0, 0, wideSource.w, wideSource.h⟩ ⟨0, 0, 8388608, 1⟩ 8388608 0 =
      (16777216, 0) := blitMap_wide
  unfold blitValue
  simp only [Option.getD_none, Option.getD_some, hm]
  have hin1 : in_range 8388608 0 (0 + 8388608) = true := by decide
  have hin2 : in_range 0 0 (0 + 1) = true := by decide
  rw [hin1, hin2]
  have hb : ¬ ((16777216 : Int) < 0 ∨ wideSource.w ≤ 16777216 ∨ (0 : Int) < 0 ∨
      wideSource.h ≤ 0) := by
    simp only [wideSource]
    decide
  simp only [Bool.not_true, Bool.or_self, Bool.false_eq_true, if_false, if_neg hb]
  unfold SDL_Surface.peek
  simp only [wideSource]
  rw [if_pos (by norm_num)]
  have e : ((16777217 : Int) * 0 + 16777216).toNat = 16777216 := by decide
  rw [e, List.getD_eq_getElem?_getD, List.getElem?_replicate_of_lt (by norm_num)]
  rfl

/-! ## The claims -/

/-- Claim C1 (pan cache shift).  For a cache of size `width x height` and a shift
`(dpx, dpy)` with `|dpx| ≤ width`, after `Mandelbrot::move(dpx, dpy)` the record at every
pixel `(x, y)` of the grid is the old record at `(x - dpx, y - dpy)` when that pixel lies
in the grid, and is the zero ("unrendered") record otherwise: the records are relocated
without being corrupted by the overlapping copy, and exactly the two exposed bands are
invalidated. -/
theorem Mandelbrot.move_shifts_cache {K : Type} [LinearOrderedField K] [FloorRing K]
    (env : Extern K) (m : Mandelbrot K) (p : List PixelInfo) (dpx dpy : Int)
    (hw : (m.render_info.width : Int) = m.width)
    (hh : (m.render_info.height : Int) = m.height)
    (hp : m.render_info.pixels = some p)
    (hlen : p.length = m.render_info.width * m.render_info.height)
    (hdx : |dpx| ≤ m.width) :
    ∀ x y : Int, 0 ≤ x → x < m.width → 0 ≤ y → y < m.height →
      (m.move env dpx dpy).render_info.get x y =
        if 0 ≤ x - dpx ∧ x - dpx < m.width ∧ 0 ≤ y - dpy ∧ y - dpy < m.height then
          m.render_info.get (x - dpx) (y - dpy)
        else PixelInfo.zero := by
  intro x y hx0 hx1 hy0 hy1
  rw [Mandelbrot.move_render_info]
  have hW : (0 : Int) ≤ m.width := by rw [← hw]; exact Int.ofNat_nonneg _
  obtain ⟨q0, e0, l0, g0⟩ := RenderInfo.move_get m.render_info p dpx dpy hp hlen
    (by rw [hw]; exact hdx)
  obtain ⟨q1, e1, l1, g1⟩ := RenderInfo.fillRect_get (m.render_info.move dpx dpy) q0
    (Mandelbrot.moveRects m.width m.height dpx dpy).1 PixelInfo.zero (by rw [e0])
    (by rw [e0]; exact l0)
    (by rw [Mandelbrot.moveRects_fst_x])
    (by rw [Mandelbrot.moveRects_fst_x, e0]; exact Int.ofNat_nonneg _)
  obtain ⟨q2, e2, l2, g2⟩ := RenderInfo.fillRect_get
    ((m.render_info.move dpx dpy).fillRect (Mandelbrot.moveRects m.width m.height dpx dpy).1
      PixelInfo.zero) q1
    (Mandelbrot.moveRects m.width m.height dpx dpy).2 PixelInfo.zero (by rw [e1])
    (by rw [e1, e0]; rw [e0] at l1; exact l1)
    (Mandelbrot.moveRects_snd_x _ _ _ _ hW hdx).1
    (by rw [e1, e0]; simp only []; rw [hw]; exact (Mandelbrot.moveRects_snd_x _ _ _ _ hW hdx).2)
  rw [e2, e1, e0]
  rw [e1, e0] at g2
  rw [e0] at g1
  simp only [RenderInfo.get, RenderInfo.atOffset, hp]
  have g2' := g2 x y hx0 (by simp only []; rw [hw]; exact hx1) hy0
    (by simp only []; rw [hh]; exact hy1)
  have g1' := g1 x y hx0 (by simp only []; rw [hw]; exact hx1) hy0
    (by simp only []; rw [hh]; exact hy1)
  simp only [] at g1' g2'
  rw [g2', g1']
  have hc := Mandelbrot.moveRects_cover m.width m.height dpx dpy x y hx0 hx1 hy0 hy1
  by_cases hs : 0 ≤ x - dpx ∧ x - dpx < m.width ∧ 0 ≤ y - dpy ∧ y - dpy < m.height
  · have hn := (not_congr hc).mpr (not_not.mpr hs)
    rw [not_or] at hn
    rw [if_pos hs, if_neg hn.2, if_neg hn.1]
    exact g0 x y hx0 (by rw [hw]; exact hx1) hy0 (by rw [hh]; exact hy1) hs.1
      (by rw [hw]; exact hs.2.1) hs.2.2.1 (by rw [hh]; exact hs.2.2.2)
  · rw [if_neg hs]
    rcases hc.mpr hs with h1 | h2
    · rw [if_pos h1]; split_ifs <;> rfl
    · rw [if_pos h2]

/-- Witness of C1: the `3 x 2` sample engine shifted by `(1, -1)`, at the pixel `(1, 0)`. -/
theorem Mandelbrot.move_shifts_cache_witness :
    ((sampleEngine.render_info.width : Int) = sampleEngine.width ∧
      (sampleEngine.render_info.height : Int) = sampleEngine.height ∧
      sampleEngine.render_info.pixels =
        some [⟨true⟩, ⟨false⟩, ⟨true⟩, ⟨false⟩, ⟨true⟩, ⟨true⟩] ∧
      [(⟨true⟩ : PixelInfo), ⟨false⟩, ⟨true⟩, ⟨false⟩, ⟨true⟩, ⟨true⟩].length =
        sampleEngine.render_info.width * sampleEngine.render_info.height ∧
      |(1 : Int)| ≤ sampleEngine.width ∧
      (0 : Int) ≤ 1 ∧ (1 : Int) < sampleEngine.width ∧
      (0 : Int) ≤ 0 ∧ (0 : Int) < sampleEngine.height) ∧
    (sampleEngine.move sampleExtern 1 (-1)).render_info.get 1 0 =
      if 0 ≤ (1 : Int) - 1 ∧ (1 : Int) - 1 < sampleEngine.width ∧
          0 ≤ (0 : Int) - -1 ∧ (0 : Int) - -1 < sampleEngine.height
      then sampleEngine.render_info.get (1 - 1) (0 - -1)
      else PixelInfo.zero :=
  ⟨⟨rfl, rfl, rfl, rfl, by decide, by decide, by decide, by decide, by decide⟩,
    Mandelbrot.move_shifts_cache sampleExtern sampleEngine _ 1 (-1) rfl rfl rfl rfl
      (by decide) 1 0 (by decide) (by decide) (by decide) (by decide)⟩

/-- Claim C2 as the code has it (escape-time rule).  For `max_iter ≥ 1`, with `z 0 = 0` and
`z (k + 1) = (z k) ^ 2 + c`, the count `n` returned by `mandelbrot(cx, cy, max_iter)` is at
most `max_iter`; `|z (k + 1)|²` is below `65536` for every `k < n`; and when
`n < max_iter`, `|z (n + 1)|²` is at least `65536`.  So `n` is the smallest count in
`[0, max_iter)` at which `|z (n + 1)|²` is not below the bailout value, and `max_iter` when
there is none. -/
theorem mandelbrot_escape_count {K : Type} [LinearOrderedField K]
    (cx cy : K) (max_iter : Nat) (h : 1 ≤ max_iter) :
    (mandelbrot cx cy max_iter).1 ≤ max_iter ∧
    (∀ k, k < (mandelbrot cx cy max_iter).1 → normSq (orbit cx cy (k + 1)) < 65536) ∧
    ((mandelbrot cx cy max_iter).1 < max_iter →
      65536 ≤ normSq (orbit cx cy ((mandelbrot cx cy max_iter).1 + 1))) := by
  obtain ⟨-, a2, a3, a4⟩ := mandelbrotLoop_spec cx cy max_iter max_iter 0 0 0 rfl
    (by omega) rfl
  exact ⟨a2, fun k hk => a3 k (Nat.zero_le _) hk, a4⟩

/-- Witness of C2 (amended): `c = 256`, `max_iter = 2`. -/
theorem mandelbrot_escape_count_witness :
    1 ≤ 2 ∧ (mandelbrot (256 : ℚ) 0 2).1 ≤ 2 ∧
    (∀ k, k < (mandelbrot (256 : ℚ) 0 2).1 → normSq (orbit (256 : ℚ) 0 (k + 1)) < 65536) ∧
    ((mandelbrot (256 : ℚ) 0 2).1 < 2 →
      65536 ≤ normSq (orbit (256 : ℚ) 0 ((mandelbrot (256 : ℚ) 0 2).1 + 1))) :=
  ⟨by decide, mandelbrot_escape_count 256 0 2 (by decide)⟩

/-- Counterexample to C2 as stated: for `c = 256` and `max_iter = 2` the function returns
`0`, although `|z 1|² = 65536` does not exceed the bailout value; the smallest count at
which the orbit exceeds it is `1`, since `|z 2|² > 65536`. -/
theorem mandelbrot_boundary_counterexample :
    (mandelbrot (256 : ℚ) 0 2).1 = 0 ∧
    ¬ (65536 < normSq (orbit (256 : ℚ) 0 1)) ∧
    65536 < normSq (orbit (256 : ℚ) 0 2) := by
  refine ⟨?_, ?_, ?_⟩
  · unfold mandelbrot
    rw [mandelbrotLoop]
    norm_num
  · norm_num [normSq, orbit]
  · norm_num [normSq, orbit]

/-- Claim C3 (zoom to cursor).  With `width, height ≠ 0`, for every new scale and every
cursor `(px, py)`, `pixelToComplex(px, py)` after `setScaleTo(newScale, px, py)` equals
`pixelToComplex(px, py)` before the call. -/
theorem Mandelbrot.setScaleTo_fixes_cursor {K : Type} [LinearOrderedField K] [FloorRing K]
    (env : Extern K) (m : Mandelbrot K) (newScale px py : K)
    (_hw : m.width ≠ 0) (_hh : m.height ≠ 0) :
    (m.setScaleTo env newScale px py).pixelToComplex px py = m.pixelToComplex px py := by
  obtain ⟨h1, h2, h3, h4, h5, h6⟩ := Mandelbrot.setScaleTo_viewport env m newScale px py
  apply Prod.ext
  · simp only [Mandelbrot.pixelToComplex, h1, h3, h4, h5]; ring
  · simp only [Mandelbrot.pixelToComplex, h2, h3, h6]; ring

/-- Witness of C3: the sample engine zoomed to scale `1/2` at the cursor `(1, 1)`. -/
theorem Mandelbrot.setScaleTo_fixes_cursor_witness :
    (sampleEngine.width ≠ 0 ∧ sampleEngine.height ≠ 0) ∧
    (sampleEngine.setScaleTo sampleExtern (1 / 2) 1 1).pixelToComplex 1 1 =
      sampleEngine.pixelToComplex 1 1 :=
  ⟨⟨by decide, by decide⟩,
    Mandelbrot.setScaleTo_fixes_cursor sampleExtern sampleEngine (1 / 2) 1 1 (by decide)
      (by decide)⟩

/-- Claim C4 (viewport mapping).  With `width, height ≠ 0`, `pixelToComplex(px, py)` is
`(centerX - 2 scale aspect + px (4 scale aspect / width),
centerY + 2 scale - py (4 scale / height))`; the pixel `(0, 0)` maps to
`(centerX - 2 scale aspect, centerY + 2 scale)`, the pixel `(width, height)` to
`(centerX + 2 scale aspect, centerY - 2 scale)` and the pixel `(width/2, height/2)` to the
centre. -/
theorem Mandelbrot.pixelToComplex_formula {K : Type} [LinearOrderedField K]
    (m : Mandelbrot K) (px py : K) (hw : m.width ≠ 0) (hh : m.height ≠ 0) :
    m.pixelToComplex px py =
      (m.pos_x - 2 * m.scale * m.aspect + px * (4 * m.scale * m.aspect / (m.width : K)),
       m.pos_y + 2 * m.scale - py * (4 * m.scale / (m.height : K))) ∧
    m.pixelToComplex 0 0 = (m.pos_x - 2 * m.scale * m.aspect, m.pos_y + 2 * m.scale) ∧
    m.pixelToComplex (m.width : K) (m.height : K) =
      (m.pos_x + 2 * m.scale * m.aspect, m.pos_y - 2 * m.scale) ∧
    m.pixelToComplex ((m.width : K) / 2) ((m.height : K) / 2) = (m.pos_x, m.pos_y) := by
  have hw' : (m.width : K) ≠ 0 := Int.cast_ne_zero.mpr hw
  have hh' : (m.height : K) ≠ 0 := Int.cast_ne_zero.mpr hh
  refine ⟨rfl, ?_, ?_, ?_⟩
  · apply Prod.ext <;> simp [Mandelbrot.pixelToComplex]
  · apply Prod.ext <;> simp only [Mandelbrot.pixelToComplex] <;> field_simp <;> ring
  · apply Prod.ext <;> simp only [Mandelbrot.pixelToComplex] <;> field_simp <;> ring

/-- Witness of C4: the sample engine at the pixel `(1, 1)`. -/
theorem Mandelbrot.pixelToComplex_formula_witness :
    (sampleEngine.width ≠ 0 ∧ sampleEngine.height ≠ 0) ∧
    sampleEngine.pixelToComplex 1 1 =
      (sampleEngine.pos_x - 2 * sampleEngine.scale * sampleEngine.aspect +
          1 * (4 * sampleEngine.scale * sampleEngine.aspect / (sampleEngine.width : ℚ)),
        sampleEngine.pos_y + 2 * sampleEngine.scale -
          1 * (4 * sampleEngine.scale / (sampleEngine.height : ℚ))) ∧
    sampleEngine.pixelToComplex 0 0 =
      (sampleEngine.pos_x - 2 * sampleEngine.scale * sampleEngine.aspect,
        sampleEngine.pos_y + 2 * sampleEngine.scale) ∧
    sampleEngine.pixelToComplex (sampleEngine.width : ℚ) (sampleEngine.height : ℚ) =
      (sampleEngine.pos_x + 2 * sampleEngine.scale * sampleEngine.aspect,
        sampleEngine.pos_y - 2 * sampleEngine.scale) ∧
    sampleEngine.pixelToComplex ((sampleEngine.width : ℚ) / 2) ((sampleEngine.height : ℚ) / 2) =
      (sampleEngine.pos_x, sampleEngine.pos_y) :=
  ⟨⟨by decide, by decide⟩,
    Mandelbrot.pixelToComplex_formula sampleEngine 1 1 (by decide) (by decide)⟩

/-- Claim C5 (invalidation completeness).  Whatever a well-formed cache held before: after
`setIteration` and after `setColormap` the cache has the dimensions it had, after `resize`
and after a backend switch (`GUI::acceleratorChanged`, to each of the three backends) it has
the dimensions of the window, and in all four cases it holds `width * height` records every
one of which reports "unrendered". -/
theorem Mandelbrot.invalidation_complete {K : Type} [LinearOrderedField K] [FloorRing K]
    (env : Extern K) (pass : Mandelbrot K → RenderInfo × SDL_Surface) (m : Mandelbrot K)
    (iter idx : Nat) (accelerator : Acc) (win_w win_h : Int)
    (h : m.render_info.wellFormed = true) :
    ((m.setIteration env iter).render_info.width = m.render_info.width ∧
      (m.setIteration env iter).render_info.height = m.render_info.height ∧
      (m.setIteration env iter).render_info.allUnrendered = true) ∧
    ((m.setColormap env idx).render_info.width = m.render_info.width ∧
      (m.setColormap env idx).render_info.height = m.render_info.height ∧
      (m.setColormap env idx).render_info.allUnrendered = true) ∧
    ((m.resize env win_w win_h).render_info.width = win_w.toNat ∧
      (m.resize env win_w win_h).render_info.height = win_h.toNat ∧
      (m.resize env win_w win_h).render_info.allUnrendered = true) ∧
    ((GUI.acceleratorChanged env pass accelerator win_w win_h m).render_info.width =
        win_w.toNat ∧
      (GUI.acceleratorChanged env pass accelerator win_w win_h m).render_info.height =
        win_h.toNat ∧
      (GUI.acceleratorChanged env pass accelerator win_w win_h m).render_info.allUnrendered =
        true) :=
  ⟨Mandelbrot.setIteration_cache env m iter h, Mandelbrot.setColormap_cache env m idx h,
    Mandelbrot.resize_cache env m win_w win_h,
    GUI.acceleratorChanged_cache env pass accelerator win_w win_h m⟩

/-- Witness of C5: the sample engine, whose cache holds four rendered records; the window
is `4 x 3`, the new backend the progressive one. -/
theorem Mandelbrot.invalidation_complete_witness :
    sampleEngine.render_info.wellFormed = true ∧
    (sampleEngine.setIteration sampleExtern 50).render_info.allUnrendered = true ∧
    (sampleEngine.resize sampleExtern 4 3).render_info.height = 3 ∧
    (GUI.acceleratorChanged sampleExtern (fun s => (s.render_info, s.surface)) Acc.GPU_CUDA
      4 3 sampleEngine).render_info.width = 4 ∧
    (GUI.acceleratorChanged sampleExtern (fun s => (s.render_info, s.surface)) Acc.GPU_CUDA
      4 3 sampleEngine).render_info.allUnrendered = true :=
  ⟨rfl,
    (Mandelbrot.invalidation_complete sampleExtern (fun s => (s.render_info, s.surface))
      sampleEngine 50 2 Acc.GPU_CUDA 4 3 rfl).1.2.2,
    (Mandelbrot.invalidation_complete sampleExtern (fun s => (s.render_info, s.surface))
      sampleEngine 50 2 Acc.GPU_CUDA 4 3 rfl).2.2.1.2.1,
    (Mandelbrot.invalidation_complete sampleExtern (fun s => (s.render_info, s.surface))
      sampleEngine 50 2 Acc.GPU_CUDA 4 3 rfl).2.2.2.1,
    (Mandelbrot.invalidation_complete sampleExtern (fun s => (s.render_info, s.surface))
      sampleEngine 50 2 Acc.GPU_CUDA 4 3 rfl).2.2.2.2.2⟩

/-- Claim C6 (render idempotence).  After a call of `render`, and after any number `k` of
steps of the background task but no mutator, a second call of `render` returns the engine
as it found it (the pass counter included: it starts no pass), and the two calls together
have started at most one pass. -/
theorem Mandelbrot.render_idempotent {K : Type} [LinearOrderedField K] [FloorRing K]
    (env : Extern K) (m : Mandelbrot K) (a b : Bool) (k : Nat) :
    ((Mandelbrot.threadStep env)^[k] (m.render env a)).render env b =
      (Mandelbrot.threadStep env)^[k] (m.render env a) ∧
    (((Mandelbrot.threadStep env)^[k] (m.render env a)).render env b).passes ≤
      m.passes + 1 := by
  obtain ⟨h1, h2⟩ := Mandelbrot.iterate_threadStep_flags env k (m.render env a)
  have h := Mandelbrot.render_of_updated env ((Mandelbrot.threadStep env)^[k] (m.render env a)) b
    (h1.trans (Mandelbrot.render_updated env m a))
  refine ⟨h, ?_⟩
  rw [h, h2, Mandelbrot.render_passes]
  split <;> omega

/-- Claim C7 (stop before mutate) fails on the code.  Take a new `3 x 2` engine, set to 2
iterations and rendered asynchronously, whose background task has drawn row 0: a pass is in
flight.  On it `setColormap` reaches its first `stop()` (inside `update`) with `color_idx`
already overwritten, and `setScaleTo` reaches it with the scale already overwritten and
the two surfaces already exchanged, `is_rendering` being still `true` in both states. -/
theorem Mandelbrot.mutators_write_before_stop :
    Mandelbrot.threadStep sampleExtern (Mandelbrot.threadStep sampleExtern
      (((Mandelbrot.new sampleExtern 3 2).setIteration sampleExtern 2).render
        sampleExtern true)) = sampleBusy ∧
    sampleBusy.is_rendering = true ∧
    sampleBusy.setColormap sampleExtern 7 =
      Mandelbrot.update sampleExtern { sampleBusy with color_idx := 7 } true false ∧
    ({ sampleBusy with color_idx := 7 } : Mandelbrot ℚ).is_rendering = true ∧
    ({ sampleBusy with color_idx := 7 } : Mandelbrot ℚ).color_idx ≠ sampleBusy.color_idx ∧
    sampleBusy.setScaleTo sampleExtern (1 / 2) 1 1 =
      Mandelbrot.update sampleExtern (sampleBusy.setScaleTo_body (1 / 2) 1 1) true false ∧
    (sampleBusy.setScaleTo_body (1 / 2) 1 1).is_rendering = true ∧
    (sampleBusy.setScaleTo_body (1 / 2) 1 1).scale = 1 / 2 ∧
    sampleBusy.scale = 1 ∧
    (sampleBusy.setScaleTo_body (1 / 2) 1 1).surface_temp = sampleBusy.surface :=
  ⟨by rw [sampleFresh_reachable]; exact sampleBusy_reachable,
    rfl, rfl, rfl, by decide, rfl, rfl, rfl, rfl, rfl⟩

/-- Claim C8 as the code has it (completion after cancellation).  On an engine whose cache
is well formed and has the dimensions of the engine, with no cancellation pending, no pass
in flight and the flag `updated` clear (as `update` leaves it at the end of every mutator),
`render` runs a pass after which every record is "rendered": at once for a synchronous
call, and after finitely many steps of the background task, which then has returned, for
an asynchronous one. -/
theorem Mandelbrot.render_completes_cache {K : Type} [LinearOrderedField K] [FloorRing K]
    (env : Extern K) (m : Mandelbrot K)
    (hwf : m.render_info.wellFormed = true)
    (hw : m.width = m.render_info.width) (hh : m.height = m.render_info.height)
    (hs : m.stop_all = false) (hf : m.future = Future.idle) (hu : m.updated = false) :
    (m.render env false).render_info.allRendered = true ∧
    ∃ n, ((Mandelbrot.threadStep env)^[n] (m.render env true)).render_info.allRendered = true ∧
      ((Mandelbrot.threadStep env)^[n] (m.render env true)).future = Future.idle := by
  constructor
  · unfold Mandelbrot.render
    simp only [hu, Bool.not_false, if_true]
    exact Mandelbrot.drawSurface_allRendered env _ hwf hw hh hs
  · obtain ⟨n, hn, hidle⟩ := Mandelbrot.future_get_eq_iterate env (m.render env true)
    refine ⟨n, ?_, by rw [hn]; exact hidle⟩
    rw [hn]
    unfold Mandelbrot.render Mandelbrot.startAsync
    simp only [hu, Bool.not_false, Bool.not_true, if_true, Bool.false_eq_true, if_false,
      Mandelbrot.future_get, hf]
    exact Mandelbrot.drawSurface_allRendered env _ hwf hw hh hs

/-- Witness of C8 (amended): the sample engine, two of whose records are "unrendered". -/
theorem Mandelbrot.render_completes_cache_witness :
    (sampleEngine.render_info.wellFormed = true ∧
      sampleEngine.width = sampleEngine.render_info.width ∧
      sampleEngine.height = sampleEngine.render_info.height ∧
      sampleEngine.stop_all = false ∧ sampleEngine.future = Future.idle ∧
      sampleEngine.updated = false ∧ sampleEngine.render_info.allRendered = false) ∧
    (sampleEngine.render sampleExtern false).render_info.allRendered = true ∧
    ∃ n, ((Mandelbrot.threadStep sampleExtern)^[n]
        (sampleEngine.render sampleExtern true)).render_info.allRendered = true ∧
      ((Mandelbrot.threadStep sampleExtern)^[n]
        (sampleEngine.render sampleExtern true)).future = Future.idle :=
  ⟨⟨rfl, rfl, rfl, rfl, rfl, rfl, rfl⟩,
    Mandelbrot.render_completes_cache sampleExtern sampleEngine rfl rfl rfl rfl rfl rfl⟩

/-- Counterexample to C8 as stated.  A new `3 x 2` engine is set to 2 iterations and
rendered asynchronously; the background task draws row 0; `stop()` cancels it, leaving row
1 "unrendered".  The next `render()`, asynchronous or not, returns the engine unchanged:
`updated` is still `true`, no pass is started, and however long one waits the cache keeps
its "unrendered" records. -/
theorem Mandelbrot.render_after_stop_counterexample :
    Mandelbrot.threadStep sampleExtern (Mandelbrot.threadStep sampleExtern
      (((Mandelbrot.new sampleExtern 3 2).setIteration sampleExtern 2).render
        sampleExtern true)) = sampleBusy ∧
    sampleBusy.is_rendering = true ∧
    (sampleBusy.stop sampleExtern).render_info.get 0 1 = ⟨false⟩ ∧
    (sampleBusy.stop sampleExtern).render sampleExtern true = sampleBusy.stop sampleExtern ∧
    (sampleBusy.stop sampleExtern).render sampleExtern false = sampleBusy.stop sampleExtern ∧
    ∀ n, ((Mandelbrot.threadStep sampleExtern)^[n]
      ((sampleBusy.stop sampleExtern).render sampleExtern true)).render_info.allRendered
        = false := by
  have e : sampleBusy.stop sampleExtern =
      { sampleBusy with is_rendering := false, stop_all := false, future := Future.idle } := by
    rw [Mandelbrot.stop_eq]; rfl
  have r1 := Mandelbrot.render_of_updated sampleExtern (sampleBusy.stop sampleExtern) true
    (by rw [e]; rfl)
  have r2 := Mandelbrot.render_of_updated sampleExtern (sampleBusy.stop sampleExtern) false
    (by rw [e]; rfl)
  refine ⟨by rw [sampleFresh_reachable]; exact sampleBusy_reachable, rfl, by rw [e]; rfl,
    r1, r2, fun n => ?_⟩
  rw [r1, Mandelbrot.iterate_threadStep_idle _ _ _ (by rw [e]), e]
  rfl

/-- Claim C10 (zoom round trip).  With `width, height ≠ 0`, for every intermediate scale
`s1` and every cursor `(px, py)`, `setScaleTo(s1, px, py)` followed by
`setScaleTo(s0, px, py)`, `s0` being the scale before the first call, restores the centre,
in the engine of Tutorial 7 and in that of Tutorial 2. -/
theorem Mandelbrot.setScaleTo_round_trip {K : Type} [LinearOrderedField K] [FloorRing K]
    (env : Extern K) (m : Mandelbrot K) (t : Tutorial2.Mandelbrot K) (s1 px py : K)
    (_hw : m.width ≠ 0) (_hh : m.height ≠ 0) (_tw : t.width ≠ 0) (_th : t.height ≠ 0) :
    ((m.setScaleTo env s1 px py).setScaleTo env m.scale px py).pos_x = m.pos_x ∧
    ((m.setScaleTo env s1 px py).setScaleTo env m.scale px py).pos_y = m.pos_y ∧
    ((t.setScaleTo s1 px py).setScaleTo t.scale px py).pos_x = t.pos_x ∧
    ((t.setScaleTo s1 px py).setScaleTo t.scale px py).pos_y = t.pos_y := by
  obtain ⟨a1, a2, a3, a4, a5, a6⟩ := Mandelbrot.setScaleTo_viewport env m s1 px py
  obtain ⟨b1, b2, -⟩ := Mandelbrot.setScaleTo_viewport env (m.setScaleTo env s1 px py)
    m.scale px py
  refine ⟨?_, ?_, ?_, ?_⟩
  · rw [b1]; simp only [Mandelbrot.pixelToComplex, a1, a3, a4, a5]; ring
  · rw [b2]; simp only [Mandelbrot.pixelToComplex, a2, a3, a6]; ring
  · simp only [Tutorial2.Mandelbrot.setScaleTo, Tutorial2.Mandelbrot.pixelToComplex]; ring
  · simp only [Tutorial2.Mandelbrot.setScaleTo, Tutorial2.Mandelbrot.pixelToComplex]; ring

/-- Witness of C10: the sample engines, of scale `s0 = 1`, zoomed to `s1 = 1/2` at the
cursor `(1, 1)` and back. -/
theorem Mandelbrot.setScaleTo_round_trip_witness :
    (sampleEngine.width ≠ 0 ∧ sampleEngine.height ≠ 0 ∧
      Tutorial2.sampleEngine.width ≠ 0 ∧ Tutorial2.sampleEngine.height ≠ 0) ∧
    sampleEngine.scale = 1 ∧
    ((sampleEngine.setScaleTo sampleExtern (1 / 2) 1 1).setScaleTo sampleExtern
      sampleEngine.scale 1 1).pos_x = sampleEngine.pos_x ∧
    ((sampleEngine.setScaleTo sampleExtern (1 / 2) 1 1).setScaleTo sampleExtern
      sampleEngine.scale 1 1).pos_y = sampleEngine.pos_y ∧
    ((Tutorial2.sampleEngine.setScaleTo (1 / 2) 1 1).setScaleTo
      Tutorial2.sampleEngine.scale 1 1).pos_x = Tutorial2.sampleEngine.pos_x ∧
    ((Tutorial2.sampleEngine.setScaleTo (1 / 2) 1 1).setScaleTo
      Tutorial2.sampleEngine.scale 1 1).pos_y = Tutorial2.sampleEngine.pos_y :=
  ⟨⟨by decide, by decide, by decide, by decide⟩, rfl,
    Mandelbrot.setScaleTo_round_trip sampleExtern sampleEngine Tutorial2.sampleEngine (1 / 2) 1 1
      (by decide) (by decide) (by decide) (by decide)⟩

/-- Claim C11 as the code has it (mapping agreement).  For every pixel `(w, h)` of the
grid, the sample point that `drawSurface` evaluates for the pixel is
`pixelToComplex(w + 1/2, h + 1/2)`, the centre of the pixel, and it is at this point that
the body of the inner loop calls `mandelbrot` for a pixel not yet rendered. -/
theorem Mandelbrot.drawSurface_samples_pixel_centre {K : Type} [LinearOrderedField K]
    [FloorRing K] (env : Extern K) (m : Mandelbrot K) (w h : Int)
    (_hw0 : 0 ≤ w) (_hw1 : w < m.width) (_hh0 : 0 ≤ h) (_hh1 : h < m.height) :
    Mandelbrot.samplePoint m.frame h w = m.pixelToComplex ((w : K) + 1 / 2) ((h : K) + 1 / 2) ∧
    ((m.render_info.get w h).rendered = false →
      m.drawPixel env m.frame h w =
        { m with
          surface := m.surface.poke (h * m.surface.w + w)
            (Mandelbrot.pixelColor env m
              (mandelbrot (m.pixelToComplex ((w : K) + 1 / 2) ((h : K) + 1 / 2)).1
                (m.pixelToComplex ((w : K) + 1 / 2) ((h : K) + 1 / 2)).2 m.iter).1
              (mandelbrot (m.pixelToComplex ((w : K) + 1 / 2) ((h : K) + 1 / 2)).1
                (m.pixelToComplex ((w : K) + 1 / 2) ((h : K) + 1 / 2)).2 m.iter).2.1
              (mandelbrot (m.pixelToComplex ((w : K) + 1 / 2) ((h : K) + 1 / 2)).1
                (m.pixelToComplex ((w : K) + 1 / 2) ((h : K) + 1 / 2)).2 m.iter).2.2),
          render_info := m.render_info.set w h ⟨true⟩ }) := by
  have e : Mandelbrot.samplePoint m.frame h w =
      m.pixelToComplex ((w : K) + 1 / 2) ((h : K) + 1 / 2) := by
    apply Prod.ext
    · simp only [Mandelbrot.samplePoint, Mandelbrot.frame, Mandelbrot.pixelToComplex]; ring
    · simp only [Mandelbrot.samplePoint, Mandelbrot.frame, Mandelbrot.pixelToComplex]; ring
  refine ⟨e, fun hr => ?_⟩
  rw [Mandelbrot.drawPixel_samplePoint, e, hr]
  rfl

/-- Witness of C11 (amended): the pixel `(1, 0)`, not yet rendered, of the sample engine. -/
theorem Mandelbrot.drawSurface_samples_pixel_centre_witness :
    ((0 : Int) ≤ 1 ∧ (1 : Int) < sampleEngine.width ∧ (0 : Int) ≤ 0 ∧
      (0 : Int) < sampleEngine.height ∧ (sampleEngine.render_info.get 1 0).rendered = false) ∧
    Mandelbrot.samplePoint sampleEngine.frame 0 1 =
      sampleEngine.pixelToComplex (((1 : Int) : ℚ) + 1 / 2) (((0 : Int) : ℚ) + 1 / 2) :=
  ⟨⟨by decide, by decide, by decide, by decide, by decide⟩,
    (Mandelbrot.drawSurface_samples_pixel_centre sampleExtern sampleEngine 1 0 (by decide)
      (by decide) (by decide) (by decide)).1⟩

/-- Counterexample to C11 as stated: for the pixel `(0, 0)` of the `3 x 2` sample engine the
pass evaluates `-2 + i`, while `pixelToComplex(0, 0)` is `-3 + 2i`. -/
theorem Mandelbrot.sample_point_counterexample :
    Mandelbrot.samplePoint sampleEngine.frame 0 0 = (-2, 1) ∧
    sampleEngine.pixelToComplex 0 0 = (-3, 2) ∧
    Mandelbrot.samplePoint sampleEngine.frame 0 0 ≠ sampleEngine.pixelToComplex 0 0 := by
  have e1 : Mandelbrot.samplePoint sampleEngine.frame 0 0 = (-2, 1) := by
    simp only [Mandelbrot.samplePoint, Mandelbrot.frame, sampleEngine]
    norm_num
  have e2 : sampleEngine.pixelToComplex 0 0 = (-3, 2) := by
    simp only [Mandelbrot.pixelToComplex, sampleEngine]
    norm_num
  refine ⟨e1, e2, ?_⟩
  rw [e1, e2]
  intro h
  have := congrArg Prod.fst h
  norm_num at this

/-- Claim C12 fails on the code at `maxIter = 0`.  At `c = 0` the `do ... while` versions of
Tutorial 7 and of Tutorial 5 run their body once and return `1`, not `maxIter = 0`; the
`for` loop of Tutorial 1 returns `0`. -/
theorem mandelbrot_zero_iterations_at_origin :
    (mandelbrot (0 : ℚ) 0 0).1 = 1 ∧ Tutorial5.mandelbrot (0 : ℚ) 0 0 = 1 ∧
    Tutorial1.mandelbrot ((0 : ℚ), 0) 0 = 0 := by
  refine ⟨?_, ?_, ?_⟩
  · unfold mandelbrot; rw [mandelbrotLoop]; norm_num
  · unfold Tutorial5.mandelbrot; rw [Tutorial5.mandelbrotLoop]; norm_num
  · unfold Tutorial1.mandelbrot; rw [Tutorial1.mandelbrotLoop]; norm_num

/-- Claim C13 as the code has it.  At `c = 2 + 2i` the bailout-4 versions of Tutorial 1 and
of Tutorial 5 return `0` for every `max_iter`; the bailout-65536 version of Tutorial 7
returns `min(max_iter, 3)` for every `max_iter ≥ 1`: the orbit `2 + 2i`, `2 + 10i`,
`-94 + 42i`, `7074 - 7894i` first reaches the bailout value at its fourth point. -/
theorem mandelbrot_two_two {K : Type} [LinearOrderedField K] (max_iter : Nat) :
    Tutorial1.mandelbrot ((2 : K), 2) max_iter = 0 ∧
    Tutorial5.mandelbrot (2 : K) 2 max_iter = 0 ∧
    (1 ≤ max_iter → (mandelbrot (2 : K) 2 max_iter).1 = min max_iter 3) := by
  refine ⟨?_, ?_, ?_⟩
  · unfold Tutorial1.mandelbrot
    rw [Tutorial1.mandelbrotLoop]
    by_cases h1 : 0 < max_iter
    · rw [if_pos h1]
      norm_num
    · rw [if_neg h1]
      omega
  · unfold Tutorial5.mandelbrot
    rw [Tutorial5.mandelbrotLoop]
    norm_num
  · intro h
    unfold mandelbrot
    rw [mandelbrotLoop]
    norm_num
    by_cases h1 : 1 < max_iter
    · rw [if_pos h1, mandelbrotLoop]
      norm_num
      by_cases h2 : 2 < max_iter
      · rw [if_pos h2, mandelbrotLoop]
        norm_num
        by_cases h3 : 3 < max_iter
        · rw [if_pos h3, mandelbrotLoop]
          norm_num
          omega
        · rw [if_neg h3]; simp only []; omega
      · rw [if_neg h2]; simp only []; omega
    · rw [if_neg h1]; simp only []; omega

/-- Witness of C13 (amended): `max_iter = 5`. -/
theorem mandelbrot_two_two_witness :
    Tutorial1.mandelbrot ((2 : ℚ), 2) 5 = 0 ∧ Tutorial5.mandelbrot (2 : ℚ) 2 5 = 0 ∧
    1 ≤ 5 ∧ (mandelbrot (2 : ℚ) 2 5).1 = min 5 3 :=
  ⟨(mandelbrot_two_two 5).1, (mandelbrot_two_two 5).2.1, by decide,
    (mandelbrot_two_two 5).2.2 (by decide)⟩

/-- Counterexample to C13 as stated: with `max_iter = 5` the function of Tutorial 7 returns
`3` at `c = 2 + 2i`, the first three points of the orbit being below `65536` in squared
modulus. -/
theorem mandelbrot_two_two_counterexample :
    (mandelbrot (2 : ℚ) 2 5).1 = 3 ∧ normSq (orbit (2 : ℚ) 2 1) < 65536 ∧
    normSq (orbit (2 : ℚ) 2 3) < 65536 := by
  refine ⟨?_, ?_, ?_⟩
  · unfold mandelbrot
    rw [mandelbrotLoop]; norm_num
    rw [mandelbrotLoop]; norm_num
    rw [mandelbrotLoop]; norm_num
    rw [mandelbrotLoop]; norm_num
  · norm_num [normSq, orbit]
  · norm_num [normSq, orbit]

/-- Claim C14 fails on the code.  With `maxIter = 0` the `do ... while` loop still runs its
body once: `mandelbrot(c, 0)` returns `1` for every `c` below the bailout value (among them
`c = 0`) and `0` only for the others, in Tutorial 7 (bailout `65536`) and in Tutorial 5
(bailout `4`). -/
theorem mandelbrot_zero_iterations {K : Type} [LinearOrderedField K] (cx cy : K) :
    (mandelbrot cx cy 0).1 = (if cx * cx + cy * cy < 65536 then 1 else 0) ∧
    Tutorial5.mandelbrot cx cy 0 = (if cx * cx + cy * cy < 4 then 1 else 0) ∧
    (mandelbrot (0 : K) 0 0).1 = 1 := by
  have e1 : ∀ x y : K, (mandelbrot x y 0).1 = (if x * x + y * y < 65536 then 1 else 0) := by
    intro x y
    unfold mandelbrot
    rw [mandelbrotLoop]
    simp only [mul_zero, zero_mul, sub_zero, zero_add, Nat.not_lt_zero, if_false]
    split_ifs <;> rfl
  refine ⟨e1 cx cy, ?_, ?_⟩
  · unfold Tutorial5.mandelbrot
    rw [Tutorial5.mandelbrotLoop]
    simp only [mul_zero, zero_mul, sub_zero, zero_add, Nat.not_lt_zero, if_false]
  · rw [e1]; norm_num

/-- Claim C15 fails on the code for a rectangle that starts left of the grid.  On a `3 x 2`
cache of rendered records, `fillRect` with the rectangle `x = -1, y = 0, w = 2, h = 1`, which
meets the grid in the single pixel `(0, 0)`, also invalidates the pixel `(1, 0)`; with
`x = -2, w = 4` one row is asked for and the fill runs on into the pixel `(0, 1)` of the next
row.  The count of the fill is `clamp(x + w) - x`, not `clamp(x + w) - clamp(x)`. -/
theorem RenderInfo.fillRect_negative_x :
    (sampleCache.fillRect ⟨-1, 0, 2, 1⟩ PixelInfo.zero).pixels =
      some [⟨false⟩, ⟨false⟩, ⟨true⟩, ⟨true⟩, ⟨true⟩, ⟨true⟩] ∧
    (sampleCache.fillRect ⟨-1, 0, 2, 1⟩ PixelInfo.zero).get 1 0 = ⟨false⟩ ∧
    sampleCache.get 1 0 = ⟨true⟩ ∧
    ¬ ((-1 : Int) ≤ 1 ∧ (1 : Int) < -1 + 2) ∧
    (sampleCache.fillRect ⟨-2, 0, 4, 1⟩ PixelInfo.zero).pixels =
      some [⟨false⟩, ⟨false⟩, ⟨false⟩, ⟨false⟩, ⟨true⟩, ⟨true⟩] := by
  decide

/-- Claim C16 (backend switch preserves parameters).  After `GUI::acceleratorChanged`, to
whichever of the three backends the setting selects, the getters `getPosition`, `getScale`,
`getIteration`, `getColormap`, `getColorScale` and `getColorSmooth` of the new engine return
what those of the old engine returned before the switch; the new engine is dirty (`updated`
is `false`), it has the dimensions of the window, and its cache holds one record for each
pixel of the window, every one of which is "unrendered". -/
theorem GUI.acceleratorChanged_preserves {K : Type} [LinearOrderedField K] [FloorRing K]
    (env : Extern K) (pass : Mandelbrot K → RenderInfo × SDL_Surface) (accelerator : Acc)
    (win_w win_h : Int) (m : Mandelbrot K) :
    (GUI.acceleratorChanged env pass accelerator win_w win_h m).getPosition = m.getPosition ∧
    (GUI.acceleratorChanged env pass accelerator win_w win_h m).getScale = m.getScale ∧
    (GUI.acceleratorChanged env pass accelerator win_w win_h m).getIteration =
      m.getIteration ∧
    (GUI.acceleratorChanged env pass accelerator win_w win_h m).getColormap = m.getColormap ∧
    (GUI.acceleratorChanged env pass accelerator win_w win_h m).getColorScale =
      m.getColorScale ∧
    (GUI.acceleratorChanged env pass accelerator win_w win_h m).getColorSmooth =
      m.getColorSmooth ∧
    (GUI.acceleratorChanged env pass accelerator win_w win_h m).updated = false ∧
    (GUI.acceleratorChanged env pass accelerator win_w win_h m).width = win_w ∧
    (GUI.acceleratorChanged env pass accelerator win_w win_h m).height = win_h ∧
    (GUI.acceleratorChanged env pass accelerator win_w win_h m).render_info.width =
      win_w.toNat ∧
    (GUI.acceleratorChanged env pass accelerator win_w win_h m).render_info.height =
      win_h.toNat ∧
    (GUI.acceleratorChanged env pass accelerator win_w win_h m).render_info.allUnrendered =
      true := by
  obtain ⟨h1, h2, h3, h4, h5, h6, h7, h8⟩ :=
    GUI.acceleratorChanged_params env pass accelerator win_w win_h m
  obtain ⟨s1, s2⟩ := GUI.acceleratorChanged_size env pass accelerator win_w win_h m
  obtain ⟨c1, c2, c3⟩ := GUI.acceleratorChanged_cache env pass accelerator win_w win_h m
  refine ⟨?_, h3, h4, h5, h6, h7, h8, s1, s2, c1, c2, c3⟩
  unfold Mandelbrot.getPosition
  rw [h1, h2]

/-- Claim C17 as the code has it (scale positivity).  Starting from the constructed engine (scale 1),
after any sequence of calls of `setPosition`, `move`, `setScale`, `setScaleTo`,
`setIteration`, `setColormap`, `setColorScale`, `setColorSmooth` and `resize` in which every
scale passed to `setScale` and `setScaleTo` is strictly positive, the stored scale is
strictly positive.  The mutators themselves neither reject nor clamp a scale. -/
theorem Mandelbrot.scale_positive {K : Type} [LinearOrderedField K] [FloorRing K]
    (env : Extern K) (win_w win_h : Int) (calls : List (Call K))
    (hcalls : ∀ c ∈ calls, c.scalePositive) :
    0 < (runCalls env calls (Mandelbrot.new env win_w win_h)).scale := by
  have key : ∀ (cs : List (Call K)) (m : Mandelbrot K), (∀ c ∈ cs, c.scalePositive) →
      0 < m.scale → 0 < (runCalls env cs m).scale := by
    intro cs
    induction cs with
    | nil => intro m _ hm; exact hm
    | cons c t ih =>
      intro m hcs hm
      unfold runCalls
      rw [List.foldl_cons]
      apply ih _ (fun d hd => hcs d (List.mem_cons_of_mem _ hd))
      have hc := hcs c (List.mem_cons_self _ _)
      rw [Call.run_scale]
      cases c <;> first | exact hm | exact hc
  apply key calls _ hcalls
  show (0 : K) < 1
  exact one_pos

/-- Witness of C17 (amended): a new `3 x 2` engine with the calls `setScale(1/2)`, `move(1, 0)`,
`setScaleTo(1/4, 1, 1)`, `resize` to `4 x 4`. -/
theorem Mandelbrot.scale_positive_witness :
    (∀ c ∈ [Call.setScale (1 / 2 : ℚ), Call.move 1 0, Call.setScaleTo (1 / 4) 1 1,
        Call.resize 4 4], c.scalePositive) ∧
    0 < (runCalls sampleExtern [Call.setScale (1 / 2 : ℚ), Call.move 1 0,
        Call.setScaleTo (1 / 4) 1 1, Call.resize 4 4] (Mandelbrot.new sampleExtern 3 2)).scale :=
  ⟨by simp [Call.scalePositive],
   Mandelbrot.scale_positive sampleExtern 3 2 _ (by simp [Call.scalePositive])⟩

/-- Counterexample to C17 as stated: `setScale` and `setScaleTo` store their argument
as it is.  On a new `3 x 2` engine `setScale(-1)` leaves the scale `-1`, `setScale(0)` leaves
the scale `0` and `setScaleTo(-1, 0, 0)` leaves the scale `-1`. -/
theorem Mandelbrot.setScale_negative_counterexample :
    (Mandelbrot.new sampleExtern 3 2).scale = 1 ∧
    ((Mandelbrot.new sampleExtern 3 2).setScale sampleExtern (-1)).scale = -1 ∧
    ((Mandelbrot.new sampleExtern 3 2).setScale sampleExtern 0).scale = 0 ∧
    ((Mandelbrot.new sampleExtern 3 2).setScaleTo sampleExtern (-1) 0 0).scale = -1 ∧
    ¬ (0 < ((Mandelbrot.new sampleExtern 3 2).setScale sampleExtern (-1)).scale) := by
  have h1 := Call.run_scale sampleExtern (Call.setScale (-1)) (Mandelbrot.new sampleExtern 3 2)
  have h2 := Call.run_scale sampleExtern (Call.setScale 0) (Mandelbrot.new sampleExtern 3 2)
  have h3 := Call.run_scale sampleExtern (Call.setScaleTo (-1) 0 0)
    (Mandelbrot.new sampleExtern 3 2)
  simp only [Call.run] at h1 h2 h3
  refine ⟨rfl, h1, h2, h3, ?_⟩
  rw [h1]
  norm_num

/-- Claim C18 (scenario).  On the engine built for a `4 x 4` window (scale 1, centre `(0, 0)`,
aspect 1) and set to 10 iterations, the sample point of the pixel `(1, 1)` is `-1/2 + 1/2 i`
and its escape count is `10 = maxIter`; the sample point of the pixel `(0, 0)` is
`-3/2 + 3/2 i` and its escape count is `4 < 10`.  The synchronous pass `render(false)` draws
both pixels: it writes the in-set colour `0xff000000` to the pixel `(1, 1)`, another colour
to the pixel `(0, 0)`, and marks both "rendered".  The `for` loop of Tutorial 1 counts
`10` and `0` at the two points. -/
theorem Mandelbrot.scenario_four_by_four :
    scenarioEngine.width = 4 ∧ scenarioEngine.height = 4 ∧ scenarioEngine.aspect = 1 ∧
    scenarioEngine.getScale = 1 ∧ scenarioEngine.getIteration = 10 ∧
    scenarioEngine.getPosition = (0, 0) ∧
    Mandelbrot.samplePoint scenarioEngine.frame 1 1 = (-(1 / 2), 1 / 2) ∧
    (mandelbrot (-(1 / 2) : ℚ) (1 / 2) scenarioEngine.getIteration).1 =
      scenarioEngine.getIteration ∧
    Mandelbrot.samplePoint scenarioEngine.frame 0 0 = (-(3 / 2), 3 / 2) ∧
    (mandelbrot (-(3 / 2) : ℚ) (3 / 2) scenarioEngine.getIteration).1 = 4 ∧
    (mandelbrot (-(3 / 2) : ℚ) (3 / 2) scenarioEngine.getIteration).1 <
      scenarioEngine.getIteration ∧
    (scenarioEngine.render sampleExtern false).surface.peek (1 * 4 + 1) = 0xff000000 ∧
    (scenarioEngine.render sampleExtern false).surface.peek (0 * 4 + 0) ≠ 0xff000000 ∧
    (scenarioEngine.render sampleExtern false).render_info.get 1 1 = ⟨true⟩ ∧
    (scenarioEngine.render sampleExtern false).render_info.get 0 0 = ⟨true⟩ ∧
    Tutorial1.mandelbrot ((-(1 / 2) : ℚ), (1 / 2 : ℚ)) 10 = 10 ∧
    Tutorial1.mandelbrot ((-(3 / 2) : ℚ), (3 / 2 : ℚ)) 10 = 0 := by
  obtain ⟨a0, -, -, -, -, b1, -⟩ := scenario_counts
  obtain ⟨r1, r2⟩ := scenario_render
  have hi : scenarioEngine.getIteration = 10 := by rw [scenarioEngine_eq]; rfl
  refine ⟨by rw [scenarioEngine_eq], by rw [scenarioEngine_eq], by rw [scenarioEngine_eq],
    by rw [scenarioEngine_eq]; rfl, hi, by rw [scenarioEngine_eq]; rfl, ?_, ?_, ?_, ?_, ?_,
    ?_, ?_, ?_, ?_, Tutorial1.mandelbrot_scenario.1, Tutorial1.mandelbrot_scenario.2⟩
  · rw [scenarioEngine_eq]
    simp only [Mandelbrot.samplePoint, Mandelbrot.frame]
    norm_num
  · rw [hi]; exact b1
  · rw [scenarioEngine_eq]
    simp only [Mandelbrot.samplePoint, Mandelbrot.frame]
    norm_num
  · rw [hi]; exact a0
  · rw [hi, a0]; decide
  · rw [r1]; decide
  · rw [r1]; decide
  · rw [r2]; decide
  · rw [r2]; decide

/-- Claim C19 fails on the code while the background task has been launched and has not yet
run its first statement.  `is_rendering` is set by the task, not by `startAsync`: on the
engine `sampleFresh`, straight after `render(true)` the flag is still `false`, so `stop()`
returns the engine as it is, without raising `stop_all` and without waiting.  The task then
runs: two of its steps later row 0 of the framebuffer and of the cache has been written.
The framebuffer and the cache taken after `stop()` returned and taken two steps later
differ.  (Once the task has set the flag, as in `sampleBusy`, `stop()` does wait for it and
no step of the task changes the engine afterwards.) -/
theorem Mandelbrot.stop_before_task_starts :
    (sampleFresh.render sampleExtern true).is_rendering = false ∧
    (sampleFresh.render sampleExtern true).future = Future.launched ∧
    (sampleFresh.render sampleExtern true).stop sampleExtern =
      sampleFresh.render sampleExtern true ∧
    ((sampleFresh.render sampleExtern true).stop sampleExtern).surface.pixels =
      [0, 0, 0, 0, 0, 0] ∧
    ((Mandelbrot.threadStep sampleExtern)^[2]
      ((sampleFresh.render sampleExtern true).stop sampleExtern)).surface.pixels =
      [4278190080, 4278190080, 4278190080, 0, 0, 0] ∧
    ((sampleFresh.render sampleExtern true).stop sampleExtern).render_info.pixels =
      some [⟨false⟩, ⟨false⟩, ⟨false⟩, ⟨false⟩, ⟨false⟩, ⟨false⟩] ∧
    ((Mandelbrot.threadStep sampleExtern)^[2]
      ((sampleFresh.render sampleExtern true).stop sampleExtern)).render_info.pixels =
      some [⟨true⟩, ⟨true⟩, ⟨true⟩, ⟨false⟩, ⟨false⟩, ⟨false⟩] ∧
    (∀ n, (Mandelbrot.threadStep sampleExtern)^[n] (sampleBusy.stop sampleExtern) =
      sampleBusy.stop sampleExtern) := by
  have hr : (sampleFresh.render sampleExtern true).is_rendering = false := rfl
  have hs : (sampleFresh.render sampleExtern true).stop sampleExtern =
      sampleFresh.render sampleExtern true := by
    rw [Mandelbrot.stop_eq, hr]
    rfl
  have h2 : (Mandelbrot.threadStep sampleExtern)^[2]
      ((sampleFresh.render sampleExtern true).stop sampleExtern) = sampleBusy := by
    rw [hs]
    exact sampleBusy_reachable
  refine ⟨hr, rfl, hs, ?_, ?_, ?_, ?_, ?_⟩
  · rw [hs]; rfl
  · rw [h2]; rfl
  · rw [hs]; rfl
  · rw [h2]; rfl
  · intro n
    apply Mandelbrot.iterate_threadStep_idle
    rw [Mandelbrot.stop_eq]
    rfl

/-- Claim C20 (packed pixel format).  For 8-bit `r`, `g`, `b`, `a` the value of
`make_color(r, g, b, a)` is `a * 2^24 + r * 2^16 + g * 2^8 + b`, a 32-bit value; shifting it
right by 24, 16, 8, 0 bits and masking with `0xff` gives back `a`, `r`, `g`, `b`; and with
the default alpha `0xff` the top byte is `0xff`. -/
theorem make_color_packed (r g b a : Nat) (hr : r < 256) (hg : g < 256) (hb : b < 256)
    (ha : a < 256) :
    make_color r g b a = a * 2 ^ 24 + r * 2 ^ 16 + g * 2 ^ 8 + b ∧
    make_color r g b a < 2 ^ 32 ∧
    make_color r g b a / 2 ^ 24 % 256 = a ∧
    make_color r g b a / 2 ^ 16 % 256 = r ∧
    make_color r g b a / 2 ^ 8 % 256 = g ∧
    make_color r g b a % 256 = b ∧
    make_color r g b 255 / 2 ^ 24 = 255 := by
  have q32 : (2 : Nat) ^ 32 = 4294967296 := by norm_num
  have q24 : (2 : Nat) ^ 24 = 16777216 := by norm_num
  have q16 : (2 : Nat) ^ 16 = 65536 := by norm_num
  have q8 : (2 : Nat) ^ 8 = 256 := by norm_num
  rw [make_color_eq r g b a hr hg hb ha, make_color_eq r g b 255 hr hg hb (by norm_num),
    q32, q24, q16, q8]
  omega

/-- Witness of C20: `r = 1`, `g = 2`, `b = 3`, `a = 255`. -/
theorem make_color_packed_witness :
    ((1 : Nat) < 256 ∧ (2 : Nat) < 256 ∧ (3 : Nat) < 256 ∧ (255 : Nat) < 256) ∧
    (make_color 1 2 3 255 = 255 * 2 ^ 24 + 1 * 2 ^ 16 + 2 * 2 ^ 8 + 3 ∧
    make_color 1 2 3 255 < 2 ^ 32 ∧
    make_color 1 2 3 255 / 2 ^ 24 % 256 = 255 ∧
    make_color 1 2 3 255 / 2 ^ 16 % 256 = 1 ∧
    make_color 1 2 3 255 / 2 ^ 8 % 256 = 2 ∧
    make_color 1 2 3 255 % 256 = 3 ∧
    make_color 1 2 3 255 / 2 ^ 24 = 255) :=
  ⟨by decide, make_color_packed 1 2 3 255 (by decide) (by decide) (by decide) (by decide)⟩

/-- Claim C21 (serial pass postcondition).  On an engine whose cache and framebuffer have
the dimensions `W x H` of the engine and on which no cancellation is pending, `drawSurface`
ends with every record of the cache "rendered"; for every pixel `(w, h)` of the grid, the
framebuffer value is left as it was when the record of the pixel was "rendered" at the start,
and is the colour computed for the pixel when the record was "unrendered". -/
theorem Mandelbrot.drawSurface_postcondition {K : Type} [LinearOrderedField K] [FloorRing K]
    (env : Extern K) (m : Mandelbrot K) (W H : Nat) (hd : m.Drawable W H)
    (hf : m.SurfaceFits W H) :
    (m.drawSurface env).render_info.allRendered = true ∧
    ∀ w h : Int, 0 ≤ w → w < W → 0 ≤ h → h < H →
      (m.drawSurface env).render_info.get w h = ⟨true⟩ ∧
      (m.drawSurface env).surface.peek (h * W + w) =
        if (m.render_info.get w h).rendered then m.surface.peek (h * W + w)
        else m.pixelValue env m.frame h w := by
  have hall : (m.drawSurface env).render_info.allRendered = true := by
    obtain ⟨a1, a2, a3, a4, a5, p, hp, hl⟩ := hd
    exact Mandelbrot.drawSurface_allRendered env m
      ((RenderInfo.wellFormed_iff _).mpr ⟨p, hp, by rw [hl, a4, a5]⟩)
      (by rw [a1, a4]) (by rw [a2, a5]) a3
  refine ⟨hall, fun w h hw0 hw1 hh0 hh1 => ?_⟩
  obtain ⟨-, o1⟩ := Mandelbrot.drawRows_observe env W H m m m.frame (countUp 0 H)
    (by intro k hk; rw [mem_countUp] at hk; omega) (Mandelbrot.PassInv_self W H m hd hf)
  have hv := (o1 (w, h) ⟨hw0, hw1, hh0, hh1⟩).1 (by rw [mem_countUp]; exact ⟨hh0, hh1⟩)
  unfold Mandelbrot.drawSurface
  rw [hd.2.1]
  exact ⟨congrArg Prod.fst hv, congrArg Prod.snd hv⟩

/-- Witness of C21: the `3 x 2` sample engine, two of whose records are "unrendered". -/
theorem Mandelbrot.drawSurface_postcondition_witness :
    (sampleEngine.Drawable 3 2 ∧ sampleEngine.SurfaceFits 3 2) ∧
    (sampleEngine.drawSurface sampleExtern).render_info.allRendered = true :=
  ⟨⟨⟨rfl, rfl, rfl, rfl, rfl, _, rfl, rfl⟩, ⟨rfl, rfl, rfl⟩⟩,
    (Mandelbrot.drawSurface_postcondition sampleExtern sampleEngine 3 2
      ⟨rfl, rfl, rfl, rfl, rfl, _, rfl, rfl⟩ ⟨rfl, rfl, rfl⟩).1⟩

/-- Claim C22 (row-granular cancellation).  On an engine whose cache and framebuffer have the
dimensions `W x H`, let `stop_all` be raised so that the serial pass first meets it at the
start of row `k ≤ H`.  The pass then returns having drawn exactly the rows before `k`: every
record in the rows `0 .. k - 1` is "rendered", every record and every framebuffer value in
the rows `k .. H - 1` is as it was before the pass, and every record that was "rendered"
before the pass is "rendered" after it.  (With the flag never raised the same loop is the
whole `drawSurface`.) -/
theorem Mandelbrot.cancellation_row_granular {K : Type} [LinearOrderedField K] [FloorRing K]
    (env : Extern K) (m : Mandelbrot K) (W H k : Nat) (hd : m.Drawable W H)
    (hf : m.SurfaceFits W H) (hk : k ≤ H) :
    m.drawSurfaceCancelledAt env k =
      { Mandelbrot.drawRows env m.frame (countUp 0 k) m with stop_all := true } ∧
    (∀ w h : Int, 0 ≤ w → w < W → 0 ≤ h → h < k →
      ((m.drawSurfaceCancelledAt env k).render_info.get w h).rendered = true) ∧
    (∀ w h : Int, 0 ≤ w → w < W → (k : Int) ≤ h → h < H →
      (m.drawSurfaceCancelledAt env k).render_info.get w h = m.render_info.get w h ∧
      (m.drawSurfaceCancelledAt env k).surface.peek (h * W + w) =
        m.surface.peek (h * W + w)) ∧
    (∀ w h : Int, 0 ≤ w → w < W → 0 ≤ h → h < H → (m.render_info.get w h).rendered = true →
      ((m.drawSurfaceCancelledAt env k).render_info.get w h).rendered = true) ∧
    Mandelbrot.drawRows env m.frame (countUp k H)
      (Mandelbrot.drawRows env m.frame (countUp 0 k) m) = m.drawSurface env := by
  have e : m.drawSurfaceCancelledAt env k =
      { Mandelbrot.drawRows env m.frame (countUp 0 k) m with stop_all := true } := by
    unfold Mandelbrot.drawSurfaceCancelledAt
    exact Mandelbrot.drawRows_stop_all env _ _ _ rfl
  obtain ⟨-, o1⟩ := Mandelbrot.drawRows_observe env W H m m m.frame (countUp 0 k)
    (by intro j hj; rw [mem_countUp] at hj; omega) (Mandelbrot.PassInv_self W H m hd hf)
  have hobs : ∀ j, Mandelbrot.observe W (m.drawSurfaceCancelledAt env k) j =
      Mandelbrot.observe W (Mandelbrot.drawRows env m.frame (countUp 0 k) m) j := by
    intro j
    rw [e]
    rfl
  refine ⟨e, fun w h hw0 hw1 hh0 hh1 => ?_, fun w h hw0 hw1 hh0 hh1 => ?_,
    fun w h hw0 hw1 hh0 hh1 hr => ?_, ?_⟩
  · have hv := (o1 (w, h) ⟨hw0, hw1, hh0, by omega⟩).1
      (by rw [mem_countUp]; exact ⟨hh0, hh1⟩)
    rw [← hobs] at hv
    have := congrArg Prod.fst hv
    simp only [Mandelbrot.observe, Mandelbrot.visited] at this
    rw [this]
  · have hv := (o1 (w, h) ⟨hw0, hw1, by omega, hh1⟩).2
      (by rw [mem_countUp]; intro hc; omega)
    rw [← hobs] at hv
    exact ⟨congrArg Prod.fst hv, congrArg Prod.snd hv⟩
  · by_cases hlt : h < k
    · have hv := (o1 (w, h) ⟨hw0, hw1, hh0, hh1⟩).1 (by rw [mem_countUp]; exact ⟨hh0, hlt⟩)
      rw [← hobs] at hv
      have := congrArg Prod.fst hv
      simp only [Mandelbrot.observe, Mandelbrot.visited] at this
      rw [this]
    · have hv := (o1 (w, h) ⟨hw0, hw1, hh0, hh1⟩).2
        (by rw [mem_countUp]; intro hc; omega)
      rw [← hobs] at hv
      have := congrArg Prod.fst hv
      simp only [Mandelbrot.observe] at this
      rw [this]
      exact hr
  · rw [← Mandelbrot.drawRows_append, ← countUp_append 0 k H (by omega) (by omega)]
    unfold Mandelbrot.drawSurface
    rw [hd.2.1]

/-- Witness of C22: the `3 x 2` sample engine with the flag met at the start of row `1`. -/
theorem Mandelbrot.cancellation_row_granular_witness :
    (sampleEngine.Drawable 3 2 ∧ sampleEngine.SurfaceFits 3 2 ∧ 1 ≤ 2) ∧
    sampleEngine.drawSurfaceCancelledAt sampleExtern 1 =
      { Mandelbrot.drawRows sampleExtern sampleEngine.frame (countUp 0 (1 : Nat)) sampleEngine
        with stop_all := true } :=
  ⟨⟨⟨rfl, rfl, rfl, rfl, rfl, _, rfl, rfl⟩, ⟨rfl, rfl, rfl⟩, by decide⟩,
    (Mandelbrot.cancellation_row_granular sampleExtern sampleEngine 3 2 1
      ⟨rfl, rfl, rfl, rfl, rfl, _, rfl, rfl⟩ ⟨rfl, rfl, rfl⟩ (by decide)).1⟩

/-- Claim C24 (the data-parallel pass refines the serial pass).  On an engine whose cache and
framebuffer have the dimensions `W x H` and on which no cancellation is pending, for every
list of blocks that lie in the grid and together contain every pixel of it (in particular
every partition of the grid into blocks, in every order), the data-parallel `drawSurface`
leaves the same framebuffer and the same cache as the serial `drawSurface`.  No pixel is
written twice in a pass: a second visit of a pixel changes nothing. -/
theorem Tutorial6.drawSurface_refines_serial {K : Type} [LinearOrderedField K] [FloorRing K]
    (env : Extern K) (m : Mandelbrot K) (W H : Nat) (blocks : List Tutorial6.Block)
    (hd : m.Drawable W H) (hf : m.SurfaceFits W H) (hc : Tutorial6.Covers W H blocks) :
    (Tutorial6.drawSurface env m blocks).surface = (m.drawSurface env).surface ∧
    (Tutorial6.drawSurface env m blocks).render_info = (m.drawSurface env).render_info ∧
    ∀ (s : Mandelbrot K) (w h : Int), Mandelbrot.PassInv W H m s →
      0 ≤ w → w < W → 0 ≤ h → h < H →
      (s.drawPixel env m.frame h w).drawPixel env m.frame h w =
        s.drawPixel env m.frame h w := by
  have hm := Mandelbrot.PassInv_self W H m hd hf
  obtain ⟨i1, o1⟩ := Tutorial6.drawSurface_observe env W H m blocks hc.1 hm
  obtain ⟨i2, o2⟩ := Mandelbrot.drawRows_observe env W H m m m.frame (countUp 0 H)
    (by intro k hk; rw [mem_countUp] at hk; omega) hm
  have hser : m.drawSurface env = Mandelbrot.drawRows env m.frame (countUp 0 H) m := by
    unfold Mandelbrot.drawSurface
    rw [hd.2.1]
  rw [hser]
  have hext := Mandelbrot.PassInv_ext W H m _ _ i1 i2 (fun j hj => by
    rw [(o1 j hj).1 (hc.2 j.1 j.2 hj.1 hj.2.1 hj.2.2.1 hj.2.2.2),
      (o2 j hj).1 (by rw [mem_countUp]; exact ⟨hj.2.2.1, hj.2.2.2⟩)])
  refine ⟨hext.1, hext.2, fun s w h hs hw0 hw1 hh0 hh1 => ?_⟩
  obtain ⟨-, o3⟩ := Mandelbrot.drawPixel_observe env W H m s m.frame h w hw0 hw1 hh0 hh1 hs
  have hv := congrArg Prod.fst ((o3 (w, h) ⟨hw0, hw1, hh0, hh1⟩).1 rfl)
  simp only [Mandelbrot.observe, Mandelbrot.visited] at hv
  rw [Mandelbrot.drawPixel_samplePoint env (s.drawPixel env m.frame h w), hv]
  rfl

/-- Witness of C24: the `3 x 2` sample engine and three blocks run in an order that is not
row-major. -/
theorem Tutorial6.drawSurface_refines_serial_witness :
    (sampleEngine.Drawable 3 2 ∧ sampleEngine.SurfaceFits 3 2 ∧
      Tutorial6.Covers 3 2 Tutorial6.sampleBlocks) ∧
    (Tutorial6.drawSurface sampleExtern sampleEngine Tutorial6.sampleBlocks).surface =
      (sampleEngine.drawSurface sampleExtern).surface :=
  have hc : Tutorial6.Covers 3 2 Tutorial6.sampleBlocks := by
    refine ⟨by decide, fun w h hw0 hw1 hh0 hh1 => ?_⟩
    simp only [Tutorial6.sampleBlocks, List.mem_cons, List.mem_singleton, exists_eq_or_imp,
      exists_eq_left, List.not_mem_nil, false_and, exists_false, or_false]
    omega
  ⟨⟨⟨rfl, rfl, rfl, rfl, rfl, _, rfl, rfl⟩, ⟨rfl, rfl, rfl⟩, hc⟩,
    (Tutorial6.drawSurface_refines_serial sampleExtern sampleEngine 3 2 Tutorial6.sampleBlocks
      ⟨rfl, rfl, rfl, rfl, rfl, _, rfl, rfl⟩ ⟨rfl, rfl, rfl⟩ hc).1⟩

/-- Claim C25 (smooth-colouring blend factor).  In smooth mode, for a pixel that escaped
(`iterated ≠ iter`), the factor handed to `lerp_color` is `fmod(iter, 1)`, the fractional part
of the integer iteration limit, which is `0` whatever the renormalised count `real_iter` is:
the colour written is `lerp_color(col1, col2, 0)`. -/
theorem Mandelbrot.smooth_blend_factor_zero {K : Type} [LinearOrderedField K] [FloorRing K]
    (env : Extern K) (m : Mandelbrot K) (iterated : Nat) (cx cy : K)
    (hesc : iterated ≠ m.iter) (hsmooth : m.smooth = true) :
    fmod (m.iter : K) 1 = 0 ∧
    m.pixelColor env iterated cx cy =
      env.lerp_color
        (env.colormap m.color_idx ((trunc (m.color_scale * 256 *
          ((iterated : K) + 7 / 2 -
            env.log (env.log (cx * cx + cy * cy) / 2 / env.log 2) / env.log 2) /
          (m.iter : K))).tmod 256))
        (env.colormap m.color_idx ((trunc (m.color_scale * 256 *
          ((iterated : K) + 7 / 2 -
            env.log (env.log (cx * cx + cy * cy) / 2 / env.log 2) / env.log 2 + 1) /
          (m.iter : K))).tmod 256))
        0 := by
  refine ⟨fmod_natCast_one _, ?_⟩
  unfold Mandelbrot.pixelColor
  rw [if_neg hesc, hsmooth]
  simp only [Bool.not_true, Bool.false_eq_true, if_false]
  rw [fmod_natCast_one]

/-- Witness of C25: the sample engine (smooth, 2 iterations) and a pixel that escaped at
count `1` with written-back point `300 + 0i`. -/
theorem Mandelbrot.smooth_blend_factor_zero_witness :
    ((1 : Nat) ≠ sampleEngine.iter ∧ sampleEngine.smooth = true) ∧
    fmod ((sampleEngine.iter : Nat) : ℚ) 1 = 0 :=
  ⟨⟨by decide, by decide⟩,
    (Mandelbrot.smooth_blend_factor_zero sampleExtern sampleEngine 1 300 0 (by decide)
      (by decide)).1⟩

/-- Claim C26 as the code has it (rescale destination rectangle).  With
`mag = oldScale / newScale`, `w = (int)(width * (1 - mag))` and `h = (int)(height * (1 - mag))`,
all as the source computes them in `double`, and wherever these conversions are defined: the
rectangle `rect` that `setScale` hands to `SDL_BlitScaled` and the rectangle `rectTo` that
`setScaleTo` hands to `blitScaled` have width `width - w` and height `height - h`; `w` and
`h` are the margins left around the rectangle, not its size.  `rect` is placed at
`(w / 2, h / 2)`, so that its left and right (top and bottom) margins differ by at most one
pixel; `rectTo` is placed at `((int)(w * (px / width)), (int)(h * (py / height)))`, so that
the point of the rectangle at the fraction `px / width`, `py / height` of its extent lies
less than one pixel, and the rounding of the two operations on `double`, from the cursor
`(px, py)`. -/
theorem Mandelbrot.rescale_rect {K : Type} [LinearOrderedField K] [FloorRing K]
    (env : Extern K) (m : Mandelbrot K) (scale px py : K) (rect rectTo : SDL_Rect)
    (h1 : m.setScaleRect scale = some rect)
    (h2 : m.setScaleToRect scale px py = some rectTo) :
    m.setScale env scale =
      Mandelbrot.update env
        { m.stop env with
          surface := env.SDL_BlitScaled (m.stop env).surface
            (env.SDL_FillRect (m.stop env).surface_temp none 0) rect,
          surface_temp := (m.stop env).surface,
          scale := scale } true false ∧
    (m.setScaleTo_body scale px py).surface =
      blitScaled K m.surface none m.surface_temp (some rectTo) ∧
    rect.w = m.width -
      trunc (toDouble ((m.width : K) * toDouble (1 - toDouble (m.scale / scale)))) ∧
    rect.h = m.height -
      trunc (toDouble ((m.height : K) * toDouble (1 - toDouble (m.scale / scale)))) ∧
    rect.x =
      (trunc (toDouble ((m.width : K) * toDouble (1 - toDouble (m.scale / scale))))).tdiv 2 ∧
    rect.y =
      (trunc (toDouble ((m.height : K) * toDouble (1 - toDouble (m.scale / scale))))).tdiv 2 ∧
    |2 * rect.x + rect.w - m.width| ≤ 1 ∧
    |2 * rect.y + rect.h - m.height| ≤ 1 ∧
    rectTo.w = rect.w ∧
    rectTo.h = rect.h ∧
    rectTo.x = trunc (toDouble (((trunc (toDouble ((m.width : K) *
      toDouble (1 - toDouble (m.scale / scale)))) : Int) : K) * toDouble (px / (m.width : K)))) ∧
    rectTo.y = trunc (toDouble (((trunc (toDouble ((m.height : K) *
      toDouble (1 - toDouble (m.scale / scale)))) : Int) : K) *
      toDouble (py / (m.height : K)))) ∧
    |(rectTo.x : K) + px / (m.width : K) * (rectTo.w : K) - px| <
      1 + 3 * |((trunc (toDouble ((m.width : K) *
        toDouble (1 - toDouble (m.scale / scale)))) : Int) : K) * (px / (m.width : K))| /
        2 ^ 53 ∧
    |(rectTo.y : K) + py / (m.height : K) * (rectTo.h : K) - py| <
      1 + 3 * |((trunc (toDouble ((m.height : K) *
        toDouble (1 - toDouble (m.scale / scale)))) : Int) : K) * (py / (m.height : K))| /
        2 ^ 53 := by
  have u1 := Mandelbrot.setScale_uses_rect env m scale rect h1
  have u2 := Mandelbrot.setScaleTo_uses_rect m scale px py rectTo h2
  have e1 := Mandelbrot.setScaleRect_eq m scale rect h1
  obtain ⟨hw, hh, e2⟩ := Mandelbrot.setScaleToRect_eq m scale px py rectTo h2
  have hw2 : (m.width : K) ≠ 0 := by exact_mod_cast hw
  have hh2 : (m.height : K) ≠ 0 := by exact_mod_cast hh
  generalize trunc (toDouble ((m.width : K) * toDouble (1 - toDouble (m.scale / scale)))) = W
    at e1 e2 ⊢
  generalize trunc (toDouble ((m.height : K) * toDouble (1 - toDouble (m.scale / scale)))) = H
    at e1 e2 ⊢
  refine ⟨u1, u2, ?_, ?_, ?_, ?_, ?_, ?_, ?_, ?_, ?_, ?_, ?_, ?_⟩
  · rw [e1]
  · rw [e1]
  · rw [e1]
  · rw [e1]
  · rw [e1]
    simp only []
    have := tdiv_two_near W
    rw [abs_le]
    constructor <;> omega
  · rw [e1]
    simp only []
    have := tdiv_two_near H
    rw [abs_le]
    constructor <;> omega
  · rw [e1, e2]
  · rw [e1, e2]
  · rw [e2]
  · rw [e2]
  · rw [e2]
    simp only []
    have h := rescale_origin_near W (px / (m.width : K))
    have e : ((trunc (toDouble ((W : K) * toDouble (px / (m.width : K)))) : Int) : K) +
        px / (m.width : K) * ((m.width - W : Int) : K) - px =
        ((trunc (toDouble ((W : K) * toDouble (px / (m.width : K)))) : Int) : K) -
          (W : K) * (px / (m.width : K)) := by
      push_cast
      field_simp
      ring
    rw [e]
    exact h
  · rw [e2]
    simp only []
    have h := rescale_origin_near H (py / (m.height : K))
    have e : ((trunc (toDouble ((H : K) * toDouble (py / (m.height : K)))) : Int) : K) +
        py / (m.height : K) * ((m.height - H : Int) : K) - py =
        ((trunc (toDouble ((H : K) * toDouble (py / (m.height : K)))) : Int) : K) -
          (H : K) * (py / (m.height : K)) := by
      push_cast
      field_simp
      ring
    rw [e]
    exact h

/-- Witness of C26 (amended): a new engine for a `1280 x 720` window rescaled from `1` to
`5 / 4` with the cursor at `(640, 360)`.  In `double` arithmetic `1 - 1 / 1.25` is
`0.19999999999999996`, the margins are `255` and `143`, and both rectangles are
`(127, 71, 1025, 577)`. -/
theorem Mandelbrot.rescale_rect_witness :
    (sampleWindow.setScaleRect (5 / 4) = some ⟨127, 71, 1025, 577⟩ ∧
      sampleWindow.setScaleToRect (5 / 4) 640 360 = some ⟨127, 71, 1025, 577⟩) ∧
    (⟨127, 71, 1025, 577⟩ : SDL_Rect).w = sampleWindow.width -
      trunc (toDouble ((sampleWindow.width : ℚ) *
        toDouble (1 - toDouble (sampleWindow.scale / (5 / 4))))) ∧
    |2 * (⟨127, 71, 1025, 577⟩ : SDL_Rect).x + (⟨127, 71, 1025, 577⟩ : SDL_Rect).w -
      sampleWindow.width| ≤ 1 :=
  ⟨⟨sampleWindow_setScaleRect, sampleWindow_setScaleToRect⟩,
    (Mandelbrot.rescale_rect sampleExtern sampleWindow (5 / 4) 640 360 _ _
      sampleWindow_setScaleRect sampleWindow_setScaleToRect).2.2.1,
    (Mandelbrot.rescale_rect sampleExtern sampleWindow (5 / 4) 640 360 _ _
      sampleWindow_setScaleRect sampleWindow_setScaleToRect).2.2.2.2.2.2.1⟩

/-- Counterexample to C26 as stated: rescaling the `3 x 2` sample engine from scale `1` to
scale `2` gives `mag = 1/2` and `(int)(width * (1 - mag)) = 1`, `(int)(height * (1 - mag)) = 1`
(every operation is exact in `double`), while the rectangle handed to the blit is
`(0, 0, 2, 1)`, of width `2` and height `1`; for `setScaleTo` with the cursor at `(1, 1)` it
is `(0, 0, 2, 1)` as well. -/
theorem Mandelbrot.rescale_rect_counterexample :
    trunc (toDouble ((sampleEngine.width : ℚ) *
      toDouble (1 - toDouble (sampleEngine.scale / 2)))) = 1 ∧
    trunc (toDouble ((sampleEngine.height : ℚ) *
      toDouble (1 - toDouble (sampleEngine.scale / 2)))) = 1 ∧
    sampleEngine.setScaleRect 2 = some ⟨0, 0, 2, 1⟩ ∧
    sampleEngine.setScaleToRect 2 1 1 = some ⟨0, 0, 2, 1⟩ ∧
    (⟨0, 0, 2, 1⟩ : SDL_Rect).w ≠
      trunc (toDouble ((sampleEngine.width : ℚ) *
        toDouble (1 - toDouble (sampleEngine.scale / 2)))) := by
  obtain ⟨e1, e2, r1, r2⟩ := sampleEngine_setScaleRect
  refine ⟨e1, e2, r1, r2, ?_⟩
  rw [e1]
  decide

/-- Claim C27 as the code has it (rescale clears outside the mapped region).  For a source
and a staging surface of the same dimensions `W x H` with `W, H ≤ 2 ^ 20`, the whole source
as source rectangle and a destination rectangle `rect` of positive width and height, after
`blitScaled` every pixel `(w, h)` of the staging surface outside
`[rect.x, rect.x + rect.w) x [rect.y, rect.y + rect.h)` holds `0`, and every pixel inside it
holds the source pixel at `map(w, h) = (roundf(rx * (w - rect.x)), roundf(ry * (h - rect.y)))`,
computed in `float` as the source computes it, or `0` when that point is not a pixel of the
source.  The point `map(w, h)` lies within one half, and the rounding of the operations on
`float`, of the exact `(W / rect.w * (w - rect.x), H / rect.h * (h - rect.y))`: it is a
nearest neighbour. -/
theorem blitScaled_clears_outside {K : Type} [LinearOrderedField K] [FloorRing K]
    (src dst : SDL_Surface) (rect : SDL_Rect) (W H : Nat) (w h : Int)
    (hsw : src.w = W) (hsh : src.h = H) (hdw : dst.w = W) (hdh : dst.h = H)
    (hl : dst.pixels.length = W * H) (hrw : 0 < rect.w) (hrh : 0 < rect.h)
    (hW : W ≤ 1048576) (hH : H ≤ 1048576)
    (hw0 : 0 ≤ w) (hw1 : w < W) (hh0 : 0 ≤ h) (hh1 : h < H) :
    (blitScaled K src none dst (some rect)).peek (dst.w * h + w) =
      (if rect.x ≤ w ∧ w < rect.x + rect.w ∧ rect.y ≤ h ∧ h < rect.y + rect.h then
        if 0 ≤ (blitMap K ⟨0, 0, src.w, src.h⟩ rect w h).1 ∧
            (blitMap K ⟨0, 0, src.w, src.h⟩ rect w h).1 < src.w ∧
            0 ≤ (blitMap K ⟨0, 0, src.w, src.h⟩ rect w h).2 ∧
            (blitMap K ⟨0, 0, src.w, src.h⟩ rect w h).2 < src.h then
          src.peek (src.w * (blitMap K ⟨0, 0, src.w, src.h⟩ rect w h).2 +
            (blitMap K ⟨0, 0, src.w, src.h⟩ rect w h).1)
        else 0
      else 0) ∧
    (rect.x ≤ w →
      |((blitMap K ⟨0, 0, src.w, src.h⟩ rect w h).1 : K) -
          (src.w : K) / (rect.w : K) * ((w - rect.x : Int) : K)| ≤
        1 / 2 + 7 / 2 ^ 24 * ((src.w : K) / (rect.w : K) * ((w - rect.x : Int) : K))) ∧
    (rect.y ≤ h →
      |((blitMap K ⟨0, 0, src.w, src.h⟩ rect w h).2 : K) -
          (src.h : K) / (rect.h : K) * ((h - rect.y : Int) : K)| ≤
        1 / 2 + 7 / 2 ^ 24 * ((src.h : K) / (rect.h : K) * ((h - rect.y : Int) : K))) := by
  have hW0 : (0 : Int) ≤ (W : Int) := Int.ofNat_nonneg W
  have hH0 : (0 : Int) ≤ (H : Int) := Int.ofNat_nonneg H
  have hW2 : (W : Int) ≤ 1048576 := by exact_mod_cast hW
  have hH2 : (H : Int) ≤ 1048576 := by exact_mod_cast hH
  refine ⟨?_, ?_, ?_⟩
  · rw [blitScaled_peek src dst rect W H w h hdw hdh hl hw0 hw1 hh0 hh1]
    simp only [blitValue, Option.getD_none, Option.getD_some, in_range, Bool.not_and,
      Bool.or_eq_true, Bool.not_eq_true', decide_eq_false_iff_not, not_le]
    by_cases hin : rect.x ≤ w ∧ w < rect.x + rect.w ∧ rect.y ≤ h ∧ h < rect.y + rect.h
    · rw [if_pos hin, if_neg (by omega)]
      by_cases hs : 0 ≤ (blitMap K ⟨0, 0, src.w, src.h⟩ rect w h).1 ∧
          (blitMap K ⟨0, 0, src.w, src.h⟩ rect w h).1 < src.w ∧
          0 ≤ (blitMap K ⟨0, 0, src.w, src.h⟩ rect w h).2 ∧
          (blitMap K ⟨0, 0, src.w, src.h⟩ rect w h).2 < src.h
      · rw [if_pos hs, if_neg (by omega)]
      · rw [if_neg hs, if_pos (by omega)]
    · rw [if_neg hin]
      by_cases hout : (w < rect.x ∨ rect.x + rect.w < w) ∨ (h < rect.y ∨ rect.y + rect.h < h)
      · rw [if_pos hout]
      · rw [if_neg hout]
        have hedge : w = rect.x + rect.w ∨ h = rect.y + rect.h := by omega
        rcases hedge with he | he
        · have e := blitMap_fst_edge (K := K) W H rect h hW0 hW2 hrw
          rw [he, hsw, hsh, e]
          rw [if_pos (Or.inr (Or.inl (le_refl _)))]
        · have e := blitMap_snd_edge (K := K) W H rect w hH0 hH2 hrh
          rw [he, hsw, hsh, e]
          rw [if_pos (Or.inr (Or.inr (Or.inr (le_refl _))))]
  · intro hx
    exact blitMap_fst_near src.w src.h rect w h (by rw [hsw]; exact hW0) hrw hx
  · intro hy
    exact blitMap_snd_near src.w src.h rect w h (by rw [hsh]; exact hH0) hrh hy

/-- Witness of C27 (amended): a `2 x 2` source blitted into the rectangle `(0, 0, 1, 1)` of a
`2 x 2` staging surface, at the pixel `(1, 1)`. -/
theorem blitScaled_clears_outside_witness :
    (sampleSource.w = (2 : Nat) ∧ sampleSource.h = (2 : Nat) ∧ sampleStaging.w = (2 : Nat) ∧
      sampleStaging.h = (2 : Nat) ∧ sampleStaging.pixels.length = 2 * 2 ∧
      (0 : Int) < (⟨0, 0, 1, 1⟩ : SDL_Rect).w ∧ (0 : Int) < (⟨0, 0, 1, 1⟩ : SDL_Rect).h ∧
      2 ≤ 1048576 ∧ (0 : Int) ≤ 1 ∧ (1 : Int) < (2 : Nat)) ∧
    (blitScaled ℚ sampleSource none sampleStaging (some ⟨0, 0, 1, 1⟩)).peek
      (sampleStaging.w * 1 + 1) = 0 :=
  ⟨⟨rfl, rfl, rfl, rfl, rfl, by decide, by decide, by decide, by decide, by decide⟩,
    (blitScaled_clears_outside (K := ℚ) sampleSource sampleStaging ⟨0, 0, 1, 1⟩ 2 2 1 1
      rfl rfl rfl rfl rfl (by decide) (by decide) (by decide) (by decide) (by decide)
      (by decide) (by decide) (by decide)).1.trans (if_neg (by decide))⟩

/-- Counterexample to C27 as stated: a source and a staging surface of `16777217 x 1` pixels,
the source holding the colour `1` everywhere, and the destination rectangle
`(0, 0, 8388608, 1)`.  The pixel `(8388608, 0)` of the staging surface lies outside
`[0, 8388608) x [0, 1)`, yet `in_range` admits it (its interval is closed), `(float)16777217`
is `16777216`, `map` gives the column `16777216` of the source, and the pixel holds the
colour `1`, not the cleared colour. -/
theorem blitScaled_clears_outside_counterexample :
    wideSource.w = wideStaging.w ∧ wideSource.h = wideStaging.h ∧
    (0 : Int) < (⟨0, 0, 8388608, 1⟩ : SDL_Rect).w ∧
    (0 : Int) < (⟨0, 0, 8388608, 1⟩ : SDL_Rect).h ∧
    ¬ ((8388608 : Int) < (⟨0, 0, 8388608, 1⟩ : SDL_Rect).x +
      (⟨0, 0, 8388608, 1⟩ : SDL_Rect).w) ∧
    in_range 8388608 (⟨0, 0, 8388608, 1⟩ : SDL_Rect).x
      ((⟨0, 0, 8388608, 1⟩ : SDL_Rect).x + (⟨0, 0, 8388608, 1⟩ : SDL_Rect).w) = true ∧
    blitMap ℚ ⟨0, 0, wideSource.w, wideSource.h⟩ ⟨0, 0, 8388608, 1⟩ 8388608 0 =
      (16777216, 0) ∧
    (blitScaled ℚ wideSource none wideStaging (some ⟨0, 0, 8388608, 1⟩)).peek
      (wideStaging.w * 0 + 8388608) = 1 ∧
    (blitScaled ℚ wideSource none wideStaging (some ⟨0, 0, 8388608, 1⟩)).peek
      (wideStaging.w * 0 + 8388608) ≠ 0 := by
  refine ⟨rfl, rfl, by decide, by decide, by decide, by decide, blitMap_wide, blitScaled_wide,
    ?_⟩
  rw [blitScaled_wide]
  decide

/-- Claim C28 (index safety of the pan shift).  On an engine whose cache is allocated with
`width * height` records and has the dimensions of the engine, for `|dpx| ≤ width` and every
`dpy`, the three calls `render_info.move(dpx, dpy)`, `render_info.fillRect(&rect1)`,
`render_info.fillRect(&rect2)` of `Mandelbrot::move`, run with every element access checked
against the bounds of the array, run to their end without a refused access and leave the
cache that `move` leaves. -/
theorem Mandelbrot.move_index_safe {K : Type} [LinearOrderedField K] [FloorRing K]
    (env : Extern K) (m : Mandelbrot K) (p : List PixelInfo) (dpx dpy : Int)
    (hw : (m.render_info.width : Int) = m.width)
    (hh : (m.render_info.height : Int) = m.height)
    (hp : m.render_info.pixels = some p)
    (hlen : p.length = m.render_info.width * m.render_info.height)
    (hdx : |dpx| ≤ m.width) :
    moveCacheChecked m.render_info m.width m.height dpx dpy =
      some (m.move env dpx dpy).render_info := by
  rw [Mandelbrot.move_render_info, ← hw, ← hh]
  rw [← hw] at hdx
  exact moveCacheChecked_eq m.render_info p dpx dpy hp hlen hdx

/-- Witness of C28: the `3 x 2` sample engine moved by `(-3, 5)`. -/
theorem Mandelbrot.move_index_safe_witness :
    ((sampleEngine.render_info.width : Int) = sampleEngine.width ∧
      (sampleEngine.render_info.height : Int) = sampleEngine.height ∧
      sampleEngine.render_info.pixels =
        some [⟨true⟩, ⟨false⟩, ⟨true⟩, ⟨false⟩, ⟨true⟩, ⟨true⟩] ∧
      [(⟨true⟩ : PixelInfo), ⟨false⟩, ⟨true⟩, ⟨false⟩, ⟨true⟩, ⟨true⟩].length =
        sampleEngine.render_info.width * sampleEngine.render_info.height ∧
      |(-3 : Int)| ≤ sampleEngine.width) ∧
    moveCacheChecked sampleEngine.render_info sampleEngine.width sampleEngine.height (-3) 5 =
      some (sampleEngine.move sampleExtern (-3) 5).render_info :=
  ⟨⟨rfl, rfl, rfl, rfl, by decide⟩,
    Mandelbrot.move_index_safe sampleExtern sampleEngine _ (-3) 5 rfl rfl rfl rfl
      (by decide)⟩

/-- Claim C29 (final iterate written back).  Over the reals, for `max_iter ≥ 1`, when
`mandelbrot` returns a count `n` other than `max_iter` (the condition under which
`drawSurface` takes a colouring branch), `n < max_iter`, the values written back through
`cx`, `cy` are the point `z (n + 1)` of the orbit and satisfy `cx² + cy² ≥ 65536`; hence the
argument of the first logarithm is positive, `log(cx² + cy²) / 2 / log 2` is at least `8`,
and the argument of the second logarithm is positive. -/
theorem mandelbrot_final_iterate (cx cy : ℝ) (max_iter : Nat) (h1 : 1 ≤ max_iter)
    (hn : (mandelbrot cx cy max_iter).1 ≠ max_iter) :
    (mandelbrot cx cy max_iter).1 < max_iter ∧
    (mandelbrot cx cy max_iter).2 = orbit cx cy ((mandelbrot cx cy max_iter).1 + 1) ∧
    65536 ≤ (mandelbrot cx cy max_iter).2.1 * (mandelbrot cx cy max_iter).2.1 +
      (mandelbrot cx cy max_iter).2.2 * (mandelbrot cx cy max_iter).2.2 ∧
    0 < (mandelbrot cx cy max_iter).2.1 * (mandelbrot cx cy max_iter).2.1 +
      (mandelbrot cx cy max_iter).2.2 * (mandelbrot cx cy max_iter).2.2 ∧
    8 ≤ Real.log ((mandelbrot cx cy max_iter).2.1 * (mandelbrot cx cy max_iter).2.1 +
      (mandelbrot cx cy max_iter).2.2 * (mandelbrot cx cy max_iter).2.2) / 2 / Real.log 2 ∧
    0 < Real.log ((mandelbrot cx cy max_iter).2.1 * (mandelbrot cx cy max_iter).2.1 +
      (mandelbrot cx cy max_iter).2.2 * (mandelbrot cx cy max_iter).2.2) / 2 / Real.log 2 := by
  obtain ⟨-, a2, -, a4⟩ := mandelbrotLoop_spec cx cy max_iter max_iter 0 0 0 rfl
    (by omega) rfl
  obtain ⟨b1, -⟩ := mandelbrotLoop_final cx cy max_iter max_iter 0 0 0 rfl (by omega) rfl
  unfold mandelbrot at hn ⊢
  generalize mandelbrotLoop cx cy max_iter 0 0 0 = r at a2 a4 b1 hn ⊢
  have hlt : r.1 < max_iter := lt_of_le_of_ne a2 hn
  have hz := b1 hlt
  have hbig := a4 hlt
  rw [← hz] at hbig
  have hbig2 : (65536 : ℝ) ≤ r.2.1 * r.2.1 + r.2.2 * r.2.2 := hbig
  have hlog2 : 0 < Real.log 2 := Real.log_pos one_lt_two
  have h16 : Real.log 65536 = 16 * Real.log 2 := by
    rw [show (65536 : ℝ) = 2 ^ 16 by norm_num, Real.log_pow]
    norm_num
  have hlog : 16 * Real.log 2 ≤ Real.log (r.2.1 * r.2.1 + r.2.2 * r.2.2) := by
    rw [← h16]
    exact Real.log_le_log (by norm_num) hbig2
  have h8 : 8 ≤ Real.log (r.2.1 * r.2.1 + r.2.2 * r.2.2) / 2 / Real.log 2 := by
    rw [le_div_iff₀ hlog2]
    linarith
  exact ⟨hlt, hz, hbig2, by linarith, h8, by linarith⟩

/-- Witness of C29: `c = 256`, `max_iter = 2`, where the count is `0`. -/
theorem mandelbrot_final_iterate_witness :
    (1 ≤ 2 ∧ (mandelbrot (256 : ℝ) 0 2).1 ≠ 2) ∧ (mandelbrot (256 : ℝ) 0 2).1 < 2 :=
  have h : (mandelbrot (256 : ℝ) 0 2).1 ≠ 2 := by
    unfold mandelbrot
    rw [mandelbrotLoop]
    norm_num
  ⟨⟨by decide, h⟩, (mandelbrot_final_iterate 256 0 2 (by decide) h).1⟩

/-- Claim C30 as the code has it (the two bailout-4 implementations).  For every `c` and
every `max_iter ≥ 1`, the `do ... while` version of Tutorial 5 never returns more than the
`for` version of Tutorials 1 and 2, and the two return the same count when none of the points
`z 1 .. z max_iter` of the orbit has squared modulus exactly `4`. -/
theorem bailout4_versions_agree {K : Type} [LinearOrderedField K] (cx cy : K)
    (max_iter : Nat) (h1 : 1 ≤ max_iter) :
    Tutorial5.mandelbrot cx cy max_iter ≤ Tutorial1.mandelbrot (cx, cy) max_iter ∧
    ((∀ k, 1 ≤ k → k ≤ max_iter → normSq (orbit cx cy k) ≠ 4) →
      Tutorial1.mandelbrot (cx, cy) max_iter = Tutorial5.mandelbrot cx cy max_iter) := by
  obtain ⟨a1, a2⟩ := bailout4_loops cx cy max_iter max_iter 0 (0, 0) rfl (by omega) rfl
  exact ⟨a1, fun hk => a2 (fun k hk1 hk2 => hk k hk1 hk2)⟩

/-- Witness of C30 (amended): `c = 1 + i`, `max_iter = 3`, where `z 1`, `z 2`, `z 3` have
squared modulus `2`, `10`, `98`. -/
theorem bailout4_versions_agree_witness :
    (1 ≤ 3 ∧ ∀ k, 1 ≤ k → k ≤ 3 → normSq (orbit (1 : ℚ) 1 k) ≠ 4) ∧
    Tutorial1.mandelbrot ((1 : ℚ), (1 : ℚ)) 3 = Tutorial5.mandelbrot (1 : ℚ) 1 3 :=
  have h : ∀ k, 1 ≤ k → k ≤ 3 → normSq (orbit (1 : ℚ) 1 k) ≠ 4 := by
    intro k hk1 hk2
    interval_cases k <;> norm_num [normSq, orbit]
  ⟨⟨by decide, h⟩, (bailout4_versions_agree 1 1 3 (by decide)).2 h⟩

/-- Counterexample to C30 as stated: at `c = -2` every point of the orbit from `z 1` on has
squared modulus exactly `4`; with `max_iter = 3` the `for` version returns `3` and the
`do ... while` version returns `0`. -/
theorem bailout4_boundary_counterexample :
    Tutorial1.mandelbrot ((-2 : ℚ), (0 : ℚ)) 3 = 3 ∧ Tutorial5.mandelbrot (-2 : ℚ) 0 3 = 0 ∧
    normSq (orbit (-2 : ℚ) 0 1) = 4 := by
  refine ⟨?_, ?_, ?_⟩
  · unfold Tutorial1.mandelbrot
    iterate 4 (rw [Tutorial1.mandelbrotLoop]; norm_num)
  · unfold Tutorial5.mandelbrot
    rw [Tutorial5.mandelbrotLoop]; norm_num
  · norm_num [normSq, orbit]

end SDLMandelbrot
